import Mathlib

/-!
# The AST node model of `frontends/ast/ast.cc`

A shallow embedding of the tree entity `AstNode` of the AST frontend library,
of its copying and comparison operations, of the constant builders, of the
identifier escaping helper, of the text dump and the Verilog re-emitter
(`dumpAst`, `dumpVlog`), of the round-trip oracle (`verify_dump_vlog`) and the
comparison that reports (`logging_equals`), of the interface port helpers, of
the elaboration pipeline (`process_module`, `AST::process`) and of the
specializer (`derive_common`, `derive`).

Conventions of the embedding:

* a `std::string` is a list of bytes (`Str`);
* an object address is a natural number; `operator new` hands out the
  addresses `next_addr`, `next_addr + 1`, ... of the environment `Env`;
* `uint32_t` and `uint64_t` values are natural numbers, `int` values are
  integers; the builders only shift to the right or set bits below the word
  size, and where an `int` is passed as a `uint32_t` the reduction modulo
  `2 ^ 32` is explicit (`to_uint32`);
* a function that can hit `log_abort`, a failing `log_assert` or a throwing
  `std::vector::at` returns an `Option`, or an `Except Failure` where the kind
  of failure matters;
* the recursion of `dumpVlog` runs on a budget (`fuel`): every call costs one
  step, the call made by a generate wrapper included;
* declarations that are not among the sources (default arguments of `ast.h`,
  library functions) are the fields of the parameter record `Given`; the
  simplifier, the lowering and the other collaborators of the pipeline are the
  fields of the parameter record `Collaborators`; the module registry of the
  design is modelled from the spec;
* a `std::map` or `dict` is the list of its entries in iteration order.
-/

namespace AST

/-! ## Data model -/

/-- One byte of a `std::string`. -/
abbrev Byte := Fin 256

/-- A `std::string`: a sequence of bytes, zero bytes allowed. -/
abbrev Str := List Byte

/-- The bytes of a text literal, one byte per character code (reduced to a byte). -/
def Str.ofString (s : String) : Str :=
  s.toList.map (fun c => Fin.ofNat c.toNat)

/-- The signal states of `RTLIL::State`. -/
inductive State where
  | S0 | S1 | Sx | Sz | Sa | Sm
  deriving DecidableEq, Repr

/-- The flag bit `RTLIL::CONST_FLAG_STRING`. -/
def CONST_FLAG_STRING : Nat := 1

/-- The flag bit `RTLIL::CONST_FLAG_SIGNED`. -/
def CONST_FLAG_SIGNED : Nat := 2

/-- The value type `RTLIL::Const`: a flag word and a bit vector stored least
significant bit first. -/
structure Const where
  flags : Nat
  bits : List State
  deriving DecidableEq, Repr

/-- The constructor `RTLIL::Const(std::vector<RTLIL::State>)`: no flag set. -/
def Const.ofBits (bits : List State) : Const :=
  { flags := 0, bits := bits }

/-- The node kinds, as enumerated by `AST::type2str`. -/
inductive AstNodeType where
  | AST_NONE | AST_DESIGN | AST_MODULE | AST_TASK | AST_FUNCTION | AST_DPI_FUNCTION
  | AST_WIRE | AST_MEMORY | AST_AUTOWIRE | AST_PARAMETER | AST_LOCALPARAM | AST_DEFPARAM
  | AST_PARASET | AST_ARGUMENT | AST_RANGE | AST_MULTIRANGE | AST_CONSTANT | AST_REALVALUE
  | AST_CELLTYPE | AST_IDENTIFIER | AST_PREFIX | AST_ASSERT | AST_ASSUME | AST_LIVE
  | AST_FAIR | AST_COVER | AST_FCALL | AST_TO_BITS | AST_TO_SIGNED | AST_TO_UNSIGNED
  | AST_CONCAT | AST_REPLICATE | AST_BIT_NOT | AST_BIT_AND | AST_BIT_OR | AST_BIT_XOR
  | AST_BIT_XNOR | AST_REDUCE_AND | AST_REDUCE_OR | AST_REDUCE_XOR | AST_REDUCE_XNOR
  | AST_REDUCE_BOOL | AST_SHIFT_LEFT | AST_SHIFT_RIGHT | AST_SHIFT_SLEFT | AST_SHIFT_SRIGHT
  | AST_LT | AST_LE | AST_EQ | AST_NE | AST_EQX | AST_NEX | AST_GE | AST_GT
  | AST_ADD | AST_SUB | AST_MUL | AST_DIV | AST_MOD | AST_POW | AST_POS | AST_NEG
  | AST_LOGIC_AND | AST_LOGIC_OR | AST_LOGIC_NOT | AST_TERNARY | AST_MEMRD | AST_MEMWR
  | AST_MEMINIT | AST_TCALL | AST_ASSIGN | AST_CELL | AST_PRIMITIVE | AST_CELLARRAY
  | AST_ALWAYS | AST_INITIAL | AST_BLOCK | AST_ASSIGN_EQ | AST_ASSIGN_LE | AST_CASE
  | AST_COND | AST_CONDX | AST_CONDZ | AST_DEFAULT | AST_FOR | AST_WHILE | AST_REPEAT
  | AST_GENVAR | AST_GENFOR | AST_GENIF | AST_GENCASE | AST_GENBLOCK | AST_TECALL
  | AST_POSEDGE | AST_NEGEDGE | AST_EDGE | AST_INTERFACE | AST_INTERFACEPORT
  | AST_INTERFACEPORTTYPE | AST_MODPORT | AST_MODPORTMEMBER | AST_PACKAGE
  deriving DecidableEq, Repr

open AstNodeType State

/-- The scalar and vector payload of one `AstNode` object, together with the
address `addr` of the object itself.  `id2ast` is the non-owning
cross-reference: the address of the declaring node, or `none` for `NULL`.
`realvalue` stands for the `double` payload; only its value is carried, no
floating-point arithmetic is embedded. -/
structure NodeData where
  addr : Nat
  hashidx_ : Nat
  type : AstNodeType
  str : Str
  bits : List State
  is_input : Bool
  is_output : Bool
  is_reg : Bool
  is_logic : Bool
  is_signed : Bool
  is_string : Bool
  is_wand : Bool
  is_wor : Bool
  range_valid : Bool
  range_swapped : Bool
  was_checked : Bool
  is_unsized : Bool
  port_id : Int
  range_left : Int
  range_right : Int
  integer : Nat
  realvalue : Rat
  multirange_dimensions : List Int
  id2ast : Option Nat
  basic_prep : Bool
  filename : Str
  linenum : Int
  deriving DecidableEq, Repr

/-- The tree entity: the payload of the node, its ordered owned `children`
and its owned `attributes` (name and value, in the iteration order of the
attribute map). -/
inductive AstNode where
  | mk (data : NodeData) (children : List AstNode) (attributes : List (Str × AstNode))

namespace AstNode

/-- The payload of a node. -/
def data : AstNode → NodeData
  | .mk d _ _ => d

/-- The owned children of a node, in order. -/
def children : AstNode → List AstNode
  | .mk _ cs _ => cs

/-- The owned attribute values of a node, by name. -/
def attributes : AstNode → List (Str × AstNode)
  | .mk _ _ attrs => attrs

/-- The address of a node (the pointer other nodes can hold to it). -/
def addr (n : AstNode) : Nat := n.data.addr

/-- The kind of a node. -/
def type (n : AstNode) : AstNodeType := n.data.type

/-- The bit vector payload of a node. -/
def bits (n : AstNode) : List State := n.data.bits

end AstNode

/-- The process-wide state read by the `AstNode` constructor and by `new`:
`AST::current_filename`, the value returned by `AST::get_line_num()`, the next
free object address, and the static counter `hashidx_count` with the mixing
step `mkhash_xorshift` of `kernel/hashlib.h` (that header is not among the
sources, so the step is carried as a parameter). -/
structure Env where
  current_filename : Str
  line_num : Int
  next_addr : Nat
  hashidx_count : Nat
  mkhash_xorshift : Nat → Nat

/-- The initial value of the static counter in the `AstNode` constructor. -/
def hashidx_count_init : Nat := 123456789

/-! ## Construction and copying -/

/-- The constructor `AstNode::AstNode(type, child1, child2, child3)` behind a
`new` expression: a fresh address, the next hash index, the current source
position, every flag cleared, `range_left = -1`, and the non-null children in
order. -/
def AstNode.new (env : Env) (type : AstNodeType)
    (child1 child2 child3 : Option AstNode) : AstNode × Env :=
  let hashidx_count := env.mkhash_xorshift env.hashidx_count
  let d : NodeData :=
    { addr := env.next_addr
      hashidx_ := hashidx_count
      type := type
      str := []
      bits := []
      filename := env.current_filename
      linenum := env.line_num
      is_input := false
      is_output := false
      is_reg := false
      is_logic := false
      is_signed := false
      is_string := false
      is_wand := false
      is_wor := false
      is_unsized := false
      was_checked := false
      range_valid := false
      range_swapped := false
      port_id := 0
      range_left := -1
      range_right := 0
      integer := 0
      realvalue := 0
      multirange_dimensions := []
      id2ast := none
      basic_prep := false }
  let cs1 := match child1 with
    | some c => [c]
    | none => []
  let cs2 := match child2 with
    | some c => cs1 ++ [c]
    | none => cs1
  let cs3 := match child3 with
    | some c => cs2 ++ [c]
    | none => cs2
  (.mk d cs3 [], { env with next_addr := env.next_addr + 1, hashidx_count := hashidx_count })

mutual
/-- The method `AstNode::clone`: a new object receives a copy of every field
of the source (`*that = *this`), then each child and each attribute value is
replaced by its own clone.  The environment is threaded through the `new`
expressions in the order in which they run. -/
def AstNode.clone : AstNode → Env → AstNode × Env
  | .mk d cs attrs, env =>
    let that := AstNode.new env AST_NONE none none none
    let rc := cloneChildren cs that.2
    let ra := cloneAttributes attrs rc.2
    (.mk { d with addr := that.1.addr } rc.1 ra.1, ra.2)
/-- The loop `for (auto &it : that->children) it = it->clone();`. -/
def cloneChildren : List AstNode → Env → List AstNode × Env
  | [], env => ([], env)
  | c :: cs, env =>
    let r := AstNode.clone c env
    let rs := cloneChildren cs r.2
    (r.1 :: rs.1, rs.2)
/-- The loop `for (auto &it : that->attributes) it.second = it.second->clone();`. -/
def cloneAttributes : List (Str × AstNode) → Env → List (Str × AstNode) × Env
  | [], env => ([], env)
  | (k, v) :: attrs, env =>
    let r := AstNode.clone v env
    let rs := cloneAttributes attrs r.2
    ((k, r.1) :: rs.1, rs.2)
end

/-! ## Comparison -/

/-- The helper `isOrOrBool`. -/
def isOrOrBool (type : AstNodeType) : Bool :=
  type == AST_REDUCE_BOOL || type == AST_REDUCE_OR

mutual
/-- The method `AstNode::equals(other, orAndBoolEqual, id2AstMustEqual)`, one
early return per line of the source. -/
def AstNode.equals : AstNode → AstNode → Bool → Bool → Bool
  | .mk a cs _, .mk b cs2 _, orAndBoolEqual, id2AstMustEqual =>
    if a.type != b.type && (!orAndBoolEqual || !isOrOrBool a.type || !isOrOrBool b.type) then false
    else if id2AstMustEqual && a.id2ast != b.id2ast then false
    else if cs.length != cs2.length then false
    else if a.str != b.str then false
    else if a.bits != b.bits then false
    else if a.is_input != b.is_input then false
    else if a.is_output != b.is_output then false
    else if a.is_logic != b.is_logic then false
    else if a.is_reg != b.is_reg then false
    else if a.is_signed != b.is_signed then false
    else if a.is_string != b.is_string then false
    else if a.range_valid != b.range_valid then false
    else if a.range_swapped != b.range_swapped then false
    else if a.port_id != b.port_id then false
    else if a.range_left != b.range_left then false
    else if a.range_right != b.range_right then false
    else if a.integer != b.integer then false
    else equalsChildren cs cs2 orAndBoolEqual id2AstMustEqual
/-- The final loop of `AstNode::equals` over the children of both nodes; it
runs only when both nodes have the same number of children. -/
def equalsChildren : List AstNode → List AstNode → Bool → Bool → Bool
  | [], _, _, _ => true
  | _ :: _, [], _, _ => false
  | c :: cs, c2 :: cs2, orAndBoolEqual, id2AstMustEqual =>
    if !AstNode.equals c c2 orAndBoolEqual id2AstMustEqual then false
    else equalsChildren cs cs2 orAndBoolEqual id2AstMustEqual
end

mutual
/-- The method `AstNode::contains(other)`: `other` is an address. -/
def AstNode.contains : AstNode → Nat → Bool
  | .mk d cs _, other =>
    if d.addr == other then true
    else containsChildren cs other
/-- The loop of `AstNode::contains` over the children. -/
def containsChildren : List AstNode → Nat → Bool
  | [], _ => false
  | c :: cs, other =>
    if AstNode.contains c other then true
    else containsChildren cs other
end

/-! ## Tree traversals used to state properties -/

mutual
/-- The nodes reachable from a node through `children` edges only, the node
itself first. -/
def AstNode.ownedNodes : AstNode → List AstNode
  | .mk d cs attrs => .mk d cs attrs :: ownedNodesList cs
/-- The nodes reachable through `children` edges from the nodes of a list. -/
def ownedNodesList : List AstNode → List AstNode
  | [] => []
  | c :: cs => AstNode.ownedNodes c ++ ownedNodesList cs
end

mutual
/-- All the nodes of a tree: the node itself, then the nodes reachable through
its `children` and through its `attributes`. -/
def AstNode.allNodes : AstNode → List AstNode
  | .mk d cs attrs => .mk d cs attrs :: (allNodesList cs ++ allNodesAttrs attrs)
/-- All the nodes of the trees of a list. -/
def allNodesList : List AstNode → List AstNode
  | [] => []
  | c :: cs => AstNode.allNodes c ++ allNodesList cs
/-- All the nodes of the attribute values of an attribute list. -/
def allNodesAttrs : List (Str × AstNode) → List AstNode
  | [] => []
  | (_, v) :: attrs => AstNode.allNodes v ++ allNodesAttrs attrs
end

mutual
/-- The pairs of nodes that `AstNode::equals` visits together when it walks
two trees: the two roots, then position by position the pairs of their
children, recursively. -/
def AstNode.comparedPairs : AstNode → AstNode → List (AstNode × AstNode)
  | .mk a cs attrs, b => (.mk a cs attrs, b) :: comparedPairsList cs b.children
/-- The pairs visited in two lists of children. -/
def comparedPairsList : List AstNode → List AstNode → List (AstNode × AstNode)
  | [], _ => []
  | _ :: _, [] => []
  | c :: cs, c2 :: cs2 => AstNode.comparedPairs c c2 ++ comparedPairsList cs cs2
end

/-! ## Constant builders -/

/-- The loop body shared by `mkconst_int` and `mkconst_str`, run `n` times:
`push_back((v & 1) ? State::S1 : State::S0); v = v >> 1;`. -/
def shiftOutBits : Nat → Nat → List State → List State
  | 0, _, bits => bits
  | n + 1, v, bits => shiftOutBits n (v / 2) (bits ++ [if v % 2 != 0 then S1 else S0])

/-- The builder `AstNode::mkconst_int(uint32_t v, bool is_signed, int width)`;
`v` is a `uint32_t` value, so callers pass `v < 2 ^ 32`. -/
def AstNode.mkconst_int (env : Env) (v : Nat) (is_signed : Bool) (width : Int) :
    AstNode × Env :=
  let r := AstNode.new env AST_CONSTANT none none none
  match r.1 with
  | .mk d cs attrs =>
    (.mk { d with
            integer := v
            is_signed := is_signed
            bits := shiftOutBits width.toNat v d.bits
            range_valid := true
            range_left := width - 1
            range_right := 0 } cs attrs, r.2)

/-- The loop `for (size_t i = 0; i < 32; i++)` of `mkconst_bits` that fills the
cached `integer` from the bit vector; `k` iterations remain, `i` is the loop
variable. -/
def mkconst_bits_loop (bits : List State) (is_signed : Bool) : Nat → Nat → Nat → Nat
  | 0, _, integer => integer
  | k + 1, i, integer =>
    let integer :=
      if i < bits.length then
        integer ||| ((if bits.getD i S0 == S1 then 1 else 0) <<< i)
      else if is_signed && !bits.isEmpty then
        integer ||| ((if bits.getLastD S0 == S1 then 1 else 0) <<< i)
      else integer
    mkconst_bits_loop bits is_signed k (i + 1) integer

/-- The builder `AstNode::mkconst_bits(v, is_signed, is_unsized)`.  The bit
vector is shorter than `2 ^ 31` entries, so `bits.size() - 1` converted to
`int` is the length minus one (`-1` for an empty vector). -/
def AstNode.mkconst_bits (env : Env) (v : List State) (is_signed : Bool)
    (is_unsized : Bool) : AstNode × Env :=
  let r := AstNode.new env AST_CONSTANT none none none
  match r.1 with
  | .mk d cs attrs =>
    (.mk { d with
            is_signed := is_signed
            bits := v
            integer := mkconst_bits_loop v is_signed 32 0 d.integer
            range_valid := true
            range_left := (v.length : Int) - 1
            range_right := 0
            is_unsized := is_unsized } cs attrs, r.2)

/-- The outer loop of `mkconst_str(const std::string&)`: `k` iterations remain,
`i` is the loop variable, and iteration `i` appends the eight bits of the
character `str[str.size() - i - 1]`. -/
def mkconst_str_loop (str : Str) : Nat → Nat → List State → List State
  | 0, _, data => data
  | k + 1, i, data =>
    let ch : Byte := str.getD (str.length - i - 1) 0
    mkconst_str_loop str k (i + 1) (shiftOutBits 8 ch.val data)

/-- The builder `AstNode::mkconst_str(const std::string &str)`. -/
def AstNode.mkconst_str (env : Env) (str : Str) : AstNode × Env :=
  let data := mkconst_str_loop str str.length 0 []
  let r := AstNode.mkconst_bits env data false false
  match r.1 with
  | .mk d cs attrs => (.mk { d with is_string := true, str := str } cs attrs, r.2)

/-- Modelled from the spec: the value of the bit at position `p` of a bit
vector for the decoder below, `1` for the state `S1` and `0` for every other
state; positions past the end count as clear. -/
def bitAt (bits : List State) (p : Nat) : Nat :=
  if bits.getD p S0 == S1 then 1 else 0

/-- Modelled from the spec: the character decoded from the `i`-th group of
eight bits, least significant bit first (part of `RTLIL::Const::decode_string`
of `kernel/rtlil.cc`, which is not among the sources). -/
def decode_char (bits : List State) (i : Nat) : Byte :=
  Fin.ofNat (bitAt bits (8 * i) + 2 * bitAt bits (8 * i + 1) + 4 * bitAt bits (8 * i + 2)
    + 8 * bitAt bits (8 * i + 3) + 16 * bitAt bits (8 * i + 4) + 32 * bitAt bits (8 * i + 5)
    + 64 * bitAt bits (8 * i + 6) + 128 * bitAt bits (8 * i + 7))

/-- Modelled from the spec: `RTLIL::Const::decode_string` of `kernel/rtlil.cc`,
which is not among the sources.  The spec packs a string 8 bits per character
with the first character in the most significant byte: the decoder reads one
character per group of eight bits and returns them most significant group
first.  A group that reads as the zero character gives no character.  That is
what the callers among the sources provide for: `mkconst_str(vector)` pads the
bits of the decoded string with zero bits up to the size of the vector it
decoded, which a decoder that kept the zero characters would never need, so
the decoder is not taken to give back every byte. -/
def decode_string (bits : List State) : Str :=
  (((List.range ((bits.length + 7) / 8)).map (decode_char bits)).filter
    (fun ch => ch != 0)).reverse

/-- The second builder `AstNode::mkconst_str(const std::vector<RTLIL::State> &v)`:
the node of the decoded string, padded with zero bits up to the size of `v`;
`none` when `log_assert(node->bits == v)` fails. -/
def AstNode.mkconst_str_bits (env : Env) (v : List State) : Option (AstNode × Env) :=
  let r := AstNode.mkconst_str env (decode_string (Const.ofBits v).bits)
  match r.1 with
  | .mk d cs attrs =>
    let bits := d.bits ++ List.replicate (v.length - d.bits.length) S0
    if bits == v then some (.mk { d with bits := bits } cs attrs, r.2) else none

/-! ## Reading constants back -/

/-- The method `AstNode::bitsAsConst(width, is_signed)`: truncate to `width`
bits, or extend with zero (or, if signed, with the top bit) up to `width`. -/
def AstNode.bitsAsConst (n : AstNode) (width : Int) (is_signed : Bool) : Const :=
  let bits := n.bits
  let bits := if width ≥ 0 ∧ width < (bits.length : Int) then bits.take width.toNat else bits
  let bits :=
    if width ≥ 0 ∧ width > (bits.length : Int) then
      let extbit := if is_signed && !bits.isEmpty then bits.getLastD S0 else S0
      bits ++ List.replicate (width.toNat - bits.length) extbit
    else bits
  Const.ofBits bits

/-- The method `AstNode::asAttrConst`; `none` when one of its two assertions
fails. -/
def AstNode.asAttrConst (n : AstNode) : Option Const :=
  if n.type != AST_CONSTANT then none
  else
    let val : Const := { flags := 0, bits := n.bits }
    if n.data.is_string then
      let val : Const := { val with flags := val.flags ||| CONST_FLAG_STRING }
      if decode_string val.bits == n.data.str then some val else none
    else some val

/-- The loop `for (int i = 0; i < 64; i++)` of `asInt`: `k` iterations remain,
`i` is the loop variable; `none` when `v.bits.at(i)` is out of range. -/
def asInt_loop (bits : List State) : Nat → Nat → Nat → Option Nat
  | 0, _, ret => some ret
  | k + 1, i, ret =>
    match bits.get? i with
    | none => none
    | some b => asInt_loop bits k (i + 1) (if b == S1 then ret ||| (1 <<< i) else ret)

/-- The method `AstNode::asInt(is_signed)`.  For a real value the conversion
`uint64_t(realvalue)` truncates toward zero and is defined only when the
result fits; `none` stands for that undefined case and for `log_abort`. -/
def AstNode.asInt (n : AstNode) (is_signed : Bool) : Option Nat :=
  if n.type == AST_CONSTANT then
    let v := n.bitsAsConst 64 is_signed
    asInt_loop v.bits 64 0 0
  else if n.type == AST_REALVALUE then
    let t := Int.tdiv n.data.realvalue.num n.data.realvalue.den
    if 0 ≤ t ∧ t < 2 ^ 64 then some t.toNat else none
  else none

/-! ## Identifier escaping -/

/-- The loop of `AST::id2vl` over the characters of `txt`: the characters still
to visit and the index `i` of the first of them. -/
def id2vl_loop (txt : Str) (is_hierarchical_name : Bool) : List Byte → Nat → Str
  | [], _ => txt
  | c :: rest, i =>
    if 65 ≤ c.val && c.val ≤ 90 then id2vl_loop txt is_hierarchical_name rest (i + 1)
    else if 97 ≤ c.val && c.val ≤ 122 then id2vl_loop txt is_hierarchical_name rest (i + 1)
    else if 48 ≤ c.val && c.val ≤ 57 && i > 0 then
      id2vl_loop txt is_hierarchical_name rest (i + 1)
    else if c.val == 95 then id2vl_loop txt is_hierarchical_name rest (i + 1)
    else if c.val == 36 then id2vl_loop txt is_hierarchical_name rest (i + 1)
    else if c.val == 46 && is_hierarchical_name then
      id2vl_loop txt is_hierarchical_name rest (i + 1)
    else [92] ++ txt ++ [32]

/-- The helper `AST::id2vl(txt, is_hierarchical_name)`.  Character codes:
`A` 65, `Z` 90, `a` 97, `z` 122, `0` 48, `9` 57, `_` 95, `$` 36, `.` 46,
backslash 92, space 32. -/
def id2vl (txt : Str) (is_hierarchical_name : Bool) : Str :=
  let txt := if txt.length > 1 && txt.head? == some 92 then txt.drop 1 else txt
  id2vl_loop txt is_hierarchical_name txt 0

/-! ## The parts that are not among the sources -/

/-- What can stop a function before it returns: `fatal` for `log_error`,
`log_file_error`, `log_abort` and a failed `log_assert`; `outOfRange` for an
access past the end of a vector (`at` throwing, or `operator[]` with an index
that is not there) and for an access through a null pointer; `outOfFuel` when
the budget of the model is used up (rendering always terminates on a tree; the
loop around the simplifier ends when the simplifier reports no change). -/
inductive Failure where
  | fatal
  | outOfRange
  | outOfFuel
  deriving DecidableEq, Repr

/-- Equality of two results is decidable when equality of the failures and of
the values is. -/
instance instDecidableEqExcept {ε α : Type} [DecidableEq ε] [DecidableEq α] :
    DecidableEq (Except ε α)
  | .ok a, .ok b =>
    if h : a = b then isTrue (by rw [h]) else isFalse (fun e => h (by cases e; rfl))
  | .error a, .error b =>
    if h : a = b then isTrue (by rw [h]) else isFalse (fun e => h (by cases e; rfl))
  | .ok _, .error _ => isFalse (fun e => by cases e)
  | .error _, .ok _ => isFalse (fun e => by cases e)

/-- The declarations and library functions that the code uses and that are not
among the sources, carried as parameters, together with the one global flag
read while dumping:

* `flag_no_dump_ptr`: the global of that name, read by `dumpAst`;
* the default arguments declared in `ast.h`: of `dumpVlog` (`inGenerate`,
  `parentType`), of `dumpAst` (`dumpFileLine`), of `id2vl`
  (`is_hierarchical_name`), of `equals` (both flags) and of `mkconst_int`
  (`width`);
* `as_int` and `as_verilog_string` of `RTLIL::Const`, `hash` of `AstNode`;
* the `printf` conversions `%e` and `%p`;
* `log_id`, `log_signal` (applied to a constant), `sha1` and `std::stod`. -/
structure Given where
  flag_no_dump_ptr : Bool
  dumpVlog_inGenerate : Bool
  dumpVlog_parentType : AstNodeType
  dumpAst_dumpFileLine : Bool
  id2vl_is_hierarchical_name : Bool
  equals_orAndBoolEqual : Bool
  equals_id2AstMustEqual : Bool
  mkconst_int_width : Int
  as_int : List State → Int
  as_verilog_string : List State → Str
  hash : NodeData → Nat
  fmt_e : Rat → Str
  fmt_p : Nat → Str
  log_id : Str → Str
  log_signal : Const → Str
  sha1 : Str → Str
  stod : Str → Rat

/-! ## The comparison that reports -/

/-- The helper `escapedStringsEqual`: the two names agree once `id2vl` (called
with its default second argument) has escaped them. -/
def escapedStringsEqual (g : Given) (a b : Str) : Bool :=
  id2vl a g.id2vl_is_hierarchical_name == id2vl b g.id2vl_is_hierarchical_name

mutual
/-- The method `AstNode::logging_equals(other, orAndBoolEqual)`: the value it
returns, one test per line of the source.  The log line of each test and the
two dumps written after the label `dump` change nothing and are left out. -/
def AstNode.logging_equals (g : Given) : AstNode → AstNode → Bool → Bool
  | .mk a cs _, .mk b cs2 _, orAndBoolEqual =>
    if a.type != b.type && (!orAndBoolEqual || !isOrOrBool a.type || !isOrOrBool b.type) then false
    else if cs.length != cs2.length then false
    else if !escapedStringsEqual g a.str b.str then false
    else if a.bits != b.bits then false
    else if a.is_input != b.is_input then false
    else if a.is_output != b.is_output then false
    else if a.is_logic != b.is_logic then false
    else if a.is_reg != b.is_reg then false
    else if a.is_signed != b.is_signed then false
    else if a.is_string != b.is_string then false
    else if a.range_valid != b.range_valid then false
    else if a.range_swapped != b.range_swapped then false
    else if a.port_id != b.port_id then false
    else if a.range_left != b.range_left then false
    else if a.range_right != b.range_right then false
    else if a.integer != b.integer then false
    else logging_equalsChildren g cs cs2 orAndBoolEqual
/-- The final loop of `AstNode::logging_equals` over the children of both
nodes; it runs only when both nodes have the same number of children. -/
def logging_equalsChildren (g : Given) : List AstNode → List AstNode → Bool → Bool
  | [], _, _ => true
  | _ :: _, [], _ => false
  | c :: cs, c2 :: cs2, orAndBoolEqual =>
    if !AstNode.logging_equals g c c2 orAndBoolEqual then false
    else logging_equalsChildren g cs cs2 orAndBoolEqual
end

/-! ## Text output -/

/-- A text literal of the source as bytes. -/
def lit (s : String) : Str := Str.ofString s

/-- The text that `%s` prints for `s.c_str()`: the bytes before the first zero
byte. -/
def c_str (s : Str) : Str := s.takeWhile (fun c => c != 0)

/-- The `printf` conversion `%d` of an `int`. -/
def fmt_d (i : Int) : Str := Str.ofString (toString i)

/-- The `printf` conversion `%u` of a 32-bit value. -/
def fmt_u (i : Int) : Str := Str.ofString (toString (i % 2 ^ 32).toNat)

/-- The element `v[i]` of a vector; an index that is not there is
`Failure.outOfRange`. -/
def elemAt (v : List AstNode) (i : Nat) : Except Failure AstNode :=
  match v.get? i with
  | some c => .ok c
  | none => .error .outOfRange

/-- A loop over a vector that prints something for each element: the texts one
after the other, or the first failure. -/
def forEach {α : Type} (f : α → Except Failure Str) : List α → Except Failure Str
  | [] => .ok []
  | x :: xs => do
    let a ← f x
    let b ← forEach f xs
    pure (a ++ b)

/-- A loop with a `first` flag that is cleared after the first element: the
text printed for an element may depend on the flag. -/
def forEachFirst {α : Type} (f : Bool → α → Except Failure Str) :
    Bool → List α → Except Failure Str
  | _, [] => .ok []
  | first, x :: xs => do
    let a ← f first x
    let b ← forEachFirst f false xs
    pure (a ++ b)

/-- A loop with a `first` flag that prints the separator `sep` before every
element but the first one. -/
def forEachSep {α : Type} (sep : Str) (f : α → Except Failure Str) :
    Bool → List α → Except Failure Str
  | _, [] => .ok []
  | first, x :: xs => do
    let a ← f x
    let b ← forEachSep sep f false xs
    pure ((if first then [] else sep) ++ a ++ b)

/-- The function `AST::type2str`: the name of a node kind. -/
def type2str : AstNodeType → Str
  | AST_NONE => lit "AST_NONE"
  | AST_DESIGN => lit "AST_DESIGN"
  | AST_MODULE => lit "AST_MODULE"
  | AST_TASK => lit "AST_TASK"
  | AST_FUNCTION => lit "AST_FUNCTION"
  | AST_DPI_FUNCTION => lit "AST_DPI_FUNCTION"
  | AST_WIRE => lit "AST_WIRE"
  | AST_MEMORY => lit "AST_MEMORY"
  | AST_AUTOWIRE => lit "AST_AUTOWIRE"
  | AST_PARAMETER => lit "AST_PARAMETER"
  | AST_LOCALPARAM => lit "AST_LOCALPARAM"
  | AST_DEFPARAM => lit "AST_DEFPARAM"
  | AST_PARASET => lit "AST_PARASET"
  | AST_ARGUMENT => lit "AST_ARGUMENT"
  | AST_RANGE => lit "AST_RANGE"
  | AST_MULTIRANGE => lit "AST_MULTIRANGE"
  | AST_CONSTANT => lit "AST_CONSTANT"
  | AST_REALVALUE => lit "AST_REALVALUE"
  | AST_CELLTYPE => lit "AST_CELLTYPE"
  | AST_IDENTIFIER => lit "AST_IDENTIFIER"
  | AST_PREFIX => lit "AST_PREFIX"
  | AST_ASSERT => lit "AST_ASSERT"
  | AST_ASSUME => lit "AST_ASSUME"
  | AST_LIVE => lit "AST_LIVE"
  | AST_FAIR => lit "AST_FAIR"
  | AST_COVER => lit "AST_COVER"
  | AST_FCALL => lit "AST_FCALL"
  | AST_TO_BITS => lit "AST_TO_BITS"
  | AST_TO_SIGNED => lit "AST_TO_SIGNED"
  | AST_TO_UNSIGNED => lit "AST_TO_UNSIGNED"
  | AST_CONCAT => lit "AST_CONCAT"
  | AST_REPLICATE => lit "AST_REPLICATE"
  | AST_BIT_NOT => lit "AST_BIT_NOT"
  | AST_BIT_AND => lit "AST_BIT_AND"
  | AST_BIT_OR => lit "AST_BIT_OR"
  | AST_BIT_XOR => lit "AST_BIT_XOR"
  | AST_BIT_XNOR => lit "AST_BIT_XNOR"
  | AST_REDUCE_AND => lit "AST_REDUCE_AND"
  | AST_REDUCE_OR => lit "AST_REDUCE_OR"
  | AST_REDUCE_XOR => lit "AST_REDUCE_XOR"
  | AST_REDUCE_XNOR => lit "AST_REDUCE_XNOR"
  | AST_REDUCE_BOOL => lit "AST_REDUCE_BOOL"
  | AST_SHIFT_LEFT => lit "AST_SHIFT_LEFT"
  | AST_SHIFT_RIGHT => lit "AST_SHIFT_RIGHT"
  | AST_SHIFT_SLEFT => lit "AST_SHIFT_SLEFT"
  | AST_SHIFT_SRIGHT => lit "AST_SHIFT_SRIGHT"
  | AST_LT => lit "AST_LT"
  | AST_LE => lit "AST_LE"
  | AST_EQ => lit "AST_EQ"
  | AST_NE => lit "AST_NE"
  | AST_EQX => lit "AST_EQX"
  | AST_NEX => lit "AST_NEX"
  | AST_GE => lit "AST_GE"
  | AST_GT => lit "AST_GT"
  | AST_ADD => lit "AST_ADD"
  | AST_SUB => lit "AST_SUB"
  | AST_MUL => lit "AST_MUL"
  | AST_DIV => lit "AST_DIV"
  | AST_MOD => lit "AST_MOD"
  | AST_POW => lit "AST_POW"
  | AST_POS => lit "AST_POS"
  | AST_NEG => lit "AST_NEG"
  | AST_LOGIC_AND => lit "AST_LOGIC_AND"
  | AST_LOGIC_OR => lit "AST_LOGIC_OR"
  | AST_LOGIC_NOT => lit "AST_LOGIC_NOT"
  | AST_TERNARY => lit "AST_TERNARY"
  | AST_MEMRD => lit "AST_MEMRD"
  | AST_MEMWR => lit "AST_MEMWR"
  | AST_MEMINIT => lit "AST_MEMINIT"
  | AST_TCALL => lit "AST_TCALL"
  | AST_ASSIGN => lit "AST_ASSIGN"
  | AST_CELL => lit "AST_CELL"
  | AST_PRIMITIVE => lit "AST_PRIMITIVE"
  | AST_CELLARRAY => lit "AST_CELLARRAY"
  | AST_ALWAYS => lit "AST_ALWAYS"
  | AST_INITIAL => lit "AST_INITIAL"
  | AST_BLOCK => lit "AST_BLOCK"
  | AST_ASSIGN_EQ => lit "AST_ASSIGN_EQ"
  | AST_ASSIGN_LE => lit "AST_ASSIGN_LE"
  | AST_CASE => lit "AST_CASE"
  | AST_COND => lit "AST_COND"
  | AST_CONDX => lit "AST_CONDX"
  | AST_CONDZ => lit "AST_CONDZ"
  | AST_DEFAULT => lit "AST_DEFAULT"
  | AST_FOR => lit "AST_FOR"
  | AST_WHILE => lit "AST_WHILE"
  | AST_REPEAT => lit "AST_REPEAT"
  | AST_GENVAR => lit "AST_GENVAR"
  | AST_GENFOR => lit "AST_GENFOR"
  | AST_GENIF => lit "AST_GENIF"
  | AST_GENCASE => lit "AST_GENCASE"
  | AST_GENBLOCK => lit "AST_GENBLOCK"
  | AST_TECALL => lit "AST_TECALL"
  | AST_POSEDGE => lit "AST_POSEDGE"
  | AST_NEGEDGE => lit "AST_NEGEDGE"
  | AST_EDGE => lit "AST_EDGE"
  | AST_INTERFACE => lit "AST_INTERFACE"
  | AST_INTERFACEPORT => lit "AST_INTERFACEPORT"
  | AST_INTERFACEPORTTYPE => lit "AST_INTERFACEPORTTYPE"
  | AST_MODPORT => lit "AST_MODPORT"
  | AST_MODPORTMEMBER => lit "AST_MODPORTMEMBER"
  | AST_PACKAGE => lit "AST_PACKAGE"

/-- The character of one bit in `dumpAst`. -/
def dumpAst_bit (b : State) : Str :=
  if b == S0 then lit "0"
  else if b == S1 then lit "1"
  else if b == Sx then lit "x"
  else if b == Sz then lit "z"
  else lit "?"

/-- The first line of `dumpAst` for one node: kind, optional source position,
optional addresses, payload and flags. -/
def dumpAst_line (g : Given) (d : NodeData) (indent : Str) (dumpFileLine : Bool) : Str :=
  c_str indent ++ c_str (type2str d.type)
    ++ (if dumpFileLine then
          lit " <" ++ c_str d.filename ++ lit ":" ++ fmt_d d.linenum ++ lit ">"
        else [])
    ++ (if !g.flag_no_dump_ptr then
          match d.id2ast with
          | some p => lit " [" ++ g.fmt_p d.addr ++ lit " -> " ++ g.fmt_p p ++ lit "]"
          | none => lit " [" ++ g.fmt_p d.addr ++ lit "]"
        else [])
    ++ (if !d.str.isEmpty then lit " str=\x27" ++ c_str d.str ++ lit "\x27" else [])
    ++ (if !d.bits.isEmpty then
          lit " bits=\x27" ++ (d.bits.reverse.map dumpAst_bit).flatten
            ++ lit "\x27(" ++ fmt_d d.bits.length ++ lit ")"
        else [])
    ++ (if d.is_input then lit " input" else [])
    ++ (if d.is_output then lit " output" else [])
    ++ (if d.is_logic then lit " logic" else [])
    ++ (if d.is_reg then lit " reg" else [])
    ++ (if d.is_signed then lit " signed" else [])
    ++ (if d.port_id > 0 then lit " port=" ++ fmt_d d.port_id else [])
    ++ (if d.range_valid || d.range_left != -1 || d.range_right != 0 then
          lit " " ++ (if d.range_swapped then lit "swapped_" else [])
            ++ lit "range=[" ++ fmt_d d.range_left ++ lit ":" ++ fmt_d d.range_right ++ lit "]"
            ++ (if d.range_valid then [] else lit "!")
        else [])
    ++ (if d.integer != 0 then lit " int=" ++ fmt_u d.integer else [])
    ++ (if d.realvalue != 0 then lit " real=" ++ g.fmt_e d.realvalue else [])
    ++ (if !d.multirange_dimensions.isEmpty then
          lit " multirange=["
            ++ (d.multirange_dimensions.map (fun v => lit " " ++ fmt_d v)).flatten ++ lit " ]"
        else [])
    ++ lit "\n"

mutual
/-- The method `AstNode::dumpAst(f, indent, dumpFileLine)` for a file `f` that
is not `NULL`: the text written to `f`. -/
def AstNode.dumpAst (g : Given) : AstNode → Str → Bool → Str
  | .mk d cs attrs, indent, dumpFileLine =>
    dumpAst_line g d indent dumpFileLine
      ++ dumpAst_attributes g attrs indent dumpFileLine
      ++ dumpAst_children g cs indent dumpFileLine
/-- The loop of `dumpAst` over the attributes. -/
def dumpAst_attributes (g : Given) : List (Str × AstNode) → Str → Bool → Str
  | [], _, _ => []
  | (k, v) :: attrs, indent, dumpFileLine =>
    c_str indent ++ lit "  ATTR " ++ c_str k ++ lit ":\n"
      ++ AstNode.dumpAst g v (indent ++ lit "    ") dumpFileLine
      ++ dumpAst_attributes g attrs indent dumpFileLine
/-- The loop of `dumpAst` over the children. -/
def dumpAst_children (g : Given) : List AstNode → Str → Bool → Str
  | [], _, _ => []
  | c :: cs, indent, dumpFileLine =>
    AstNode.dumpAst g c (indent ++ lit "  ") dumpFileLine
      ++ dumpAst_children g cs indent dumpFileLine
end

/-! ## The Verilog re-emitter -/

/-- The helper `needGenerate`. -/
def needGenerate (type : AstNodeType) : Bool :=
  type == AST_GENFOR || type == AST_GENIF || type == AST_GENCASE || type == AST_GENBLOCK

/-- The helper `areChildrenMissing`: the comment line it prints when the node
has fewer than `neededChildren` children, and `none` when it returns false. -/
def areChildrenMissing (indent : Str) (node : AstNode) (neededChildren : Nat) : Option Str :=
  if node.children.length < neededChildren then
    some (c_str indent ++ lit "//Invalid " ++ c_str (type2str node.type) ++ lit " with "
      ++ fmt_d node.children.length ++ lit " children!\n")
  else none

/-- The final test of `is_expanded_indexed_part_select`, evaluated left to
right: `*base_expr == *base_expr2`, then `one` is a constant with
`asInt(false) == 1`, then `zero` is a constant with `asInt(false) == 0`. -/
def indexed_part_select_test (g : Given) (base_expr base_expr2 one zero : AstNode) : Bool :=
  base_expr.equals base_expr2 g.equals_orAndBoolEqual g.equals_id2AstMustEqual
    && one.type == AST_CONSTANT
    && one.asInt false == some 1
    && zero.type == AST_CONSTANT
    && zero.asInt false == some 0

/-- The second alternative of `is_expanded_indexed_part_select`, the test for a
negative indexed part-select, reached when the first condition is false. -/
def indexed_part_select_negative (g : Given) (left right : AstNode) :
    Except Failure (Option (AstNode × AstNode × Bool)) :=
  if left.type == AST_ADD && right.type == AST_SUB then do
    let r0 ← elemAt right.children 0
    if r0.type == AST_ADD then do
      let base_expr ← elemAt left.children 0
      let zero ← elemAt left.children 1
      let base_expr2 ← elemAt r0.children 0
      let one ← elemAt r0.children 1
      let width_expr ← elemAt right.children 1
      pure (if indexed_part_select_test g base_expr base_expr2 one zero
        then some (base_expr, width_expr, false) else none)
    else pure none
  else pure none

/-- The helper `is_expanded_indexed_part_select(left, right, base_expr,
width_expr, is_add)`: `some (base_expr, width_expr, is_add)` when it returns
true, `none` when it returns false, a failure when `at` throws. -/
def is_expanded_indexed_part_select (g : Given) (left right : AstNode) :
    Except Failure (Option (AstNode × AstNode × Bool)) :=
  if left.type == AST_SUB then do
    let l0 ← elemAt left.children 0
    if l0.type == AST_ADD && right.type == AST_ADD then do
      let base_expr ← elemAt l0.children 0
      let width_expr ← elemAt l0.children 1
      let one ← elemAt left.children 1
      let base_expr2 ← elemAt right.children 0
      let zero ← elemAt right.children 1
      pure (if indexed_part_select_test g base_expr base_expr2 one zero
        then some (base_expr, width_expr, true) else none)
    else indexed_part_select_negative g left right
  else indexed_part_select_negative g left right

/-- The type of the recursive calls `x->dumpVlog(f, indent, inGenerate,
parentType)` handed to the helpers below: the text written, or a failure. -/
abbrev Dumper := AstNode → Str → Bool → AstNodeType → Except Failure Str

/-- The helper `print_range_children(f, node, inGenerate)`. -/
def print_range_children (g : Given) (dump : Dumper) (node : AstNode) (inGenerate : Bool) :
    Except Failure Str :=
  if node.children.length == 1 then do
    let c ← elemAt node.children 0
    let s ← dump c [] inGenerate node.type
    pure (lit "[" ++ s ++ lit "]")
  else if node.children.length != 2 then .error .fatal
  else do
    let childA ← elemAt node.children 0
    let childB ← elemAt node.children 1
    let sel ← is_expanded_indexed_part_select g childA childB
    match sel with
    | some (base_expr, width_expr, is_add) =>
      let b ← dump base_expr [] inGenerate node.type
      let w ← dump width_expr [] inGenerate node.type
      pure (lit "[" ++ b ++ (if is_add then lit "+:" else lit "-:") ++ w ++ lit "]")
    | none =>
      let a ← dump childA [] inGenerate node.type
      let b ← dump childB [] inGenerate node.type
      pure (lit "[" ++ a ++ lit ":" ++ b ++ lit "]")

/-- The printing part of `dumpTransformedIf`, after all its tests have passed:
`notTaken` is `none` for `nullptr`.  The recursive calls pass only the file and
the indentation, so they take the default `inGenerate` and `parentType`. -/
def dumpTransformedIf_print (g : Given) (dump : Dumper) (indent : Str)
    (condition taken : AstNode) (notTaken : Option AstNode) : Except Failure (Option Str) := do
  let c0 ← elemAt condition.children 0
  let sc ← dump c0 [] g.dumpVlog_inGenerate g.dumpVlog_parentType
  let t1 ← elemAt taken.children 1
  let st ← dump t1 (indent ++ lit "  ") g.dumpVlog_inGenerate g.dumpVlog_parentType
  match notTaken with
  | some nt => do
    let n1 ← elemAt nt.children 1
    let sn ← dump n1 (indent ++ lit "  ") g.dumpVlog_inGenerate g.dumpVlog_parentType
    pure (some (c_str indent ++ lit "if (" ++ sc ++ lit ")\n" ++ st
      ++ c_str indent ++ lit "else\n" ++ sn))
  | none => pure (some (c_str indent ++ lit "if (" ++ sc ++ lit ")\n" ++ st))

/-- The helper `dumpTransformedIf(f, indent, node)`: `some` text when it
returns true, `none` when it returns false. -/
def dumpTransformedIf (g : Given) (dump : Dumper) (indent : Str) (node : AstNode) :
    Except Failure (Option Str) :=
  if node.type != AST_CASE then pure none
  else if node.children.length < 2 || node.children.length > 3 then pure none
  else do
    let condition ← elemAt node.children 0
    if condition.type != AST_REDUCE_BOOL then pure none
    else do
      let taken ← elemAt node.children 1
      if taken.type != AST_COND then pure none
      else if taken.children.length != 2 then pure none
      else do
        let t0 ← elemAt taken.children 0
        if t0.type != AST_CONSTANT && t0.data.integer != 1 then pure none
        else if node.children.length == 3 then do
          let notTaken ← elemAt node.children 2
          if notTaken.children.length != 2 then pure none
          else do
            let n0 ← elemAt notTaken.children 0
            if n0.type != AST_DEFAULT then pure none
            else dumpTransformedIf_print g dump indent condition taken (some notTaken)
        else dumpTransformedIf_print g dump indent condition taken none

/-- The comparison of `std::string`: lexicographic on the bytes, a proper
beginning of a text coming before the text. -/
def str_lt : Str → Str → Bool
  | [], [] => false
  | [], _ :: _ => true
  | _ :: _, [] => false
  | a :: s, b :: t => if a < b then true else if b < a then false else str_lt s t

/-- The call `sorted_attributes.emplace(name, value)` on a `std::map` kept as
the list of its entries in ascending order of the name: the entry is put at
its place, unless the name is already there. -/
def map_emplace (k : Str) (v : AstNode) : List (Str × AstNode) → List (Str × AstNode)
  | [] => [(k, v)]
  | (k2, v2) :: rest =>
    if str_lt k k2 then (k, v) :: (k2, v2) :: rest
    else if k == k2 then (k2, v2) :: rest
    else (k2, v2) :: map_emplace k v rest

/-- The map `sorted_attributes` of `dumpVlog` after the loop that fills it from
the attributes in their iteration order. -/
def sorted_attributes (attributes : List (Str × AstNode)) : List (Str × AstNode) :=
  attributes.foldl (fun m kv => map_emplace kv.1 kv.2 m) []

/-- The loop of `dumpVlog` that prints the attributes: one item
`(* name = value *)` per entry of the sorted map, a line each unless the
indentation is empty. -/
def dumpVlog_attributes (g : Given) (dump : Dumper) (sorted : List (Str × AstNode))
    (indent : Str) (inGenerate : Bool) (type : AstNodeType) : Except Failure Str :=
  forEach (fun (it : Str × AstNode) => do
    let v ← dump it.2 [] inGenerate type
    pure (c_str indent ++ lit "(* " ++ c_str (id2vl it.1 g.id2vl_is_hierarchical_name)
      ++ lit " = " ++ v ++ lit " *)" ++ (if indent.isEmpty then [] else lit "\n"))) sorted

/-- One step of `std::sort` by `port_id`, as an insertion that keeps the
order of equal keys (`std::sort` itself leaves that order open). -/
def insert_by_port_id (a : AstNode) : List AstNode → List AstNode
  | [] => [a]
  | b :: rest =>
    if b.data.port_id < a.data.port_id then b :: insert_by_port_id a rest
    else a :: b :: rest

/-- The call `std::sort(portChildren.begin(), portChildren.end(), ...)` with
the comparison `a->port_id < b->port_id`. -/
def sort_by_port_id (l : List AstNode) : List AstNode :=
  l.foldr insert_by_port_id []

/-- The text written for one character of a string constant. -/
def dumpVlog_escape (c : Byte) : Str :=
  if c == 34 then [92, 34]
  else if c == 63 then [92, 63]
  else if c == 92 then [92, 92]
  else if c == 7 then [92, 97]
  else if c == 8 then [92, 98]
  else if c == 12 then [92, 102]
  else if c == 10 then [92, 110]
  else if c == 13 then [92, 114]
  else if c == 9 then [92, 116]
  else if c == 11 then [92, 118]
  else [c]

/-- The method `AstNode::bits_only_01`. -/
def AstNode.bits_only_01 (n : AstNode) : Bool :=
  n.bits.all (fun bit => !(bit != S0 && bit != S1))

/-- The operator text `txt` of the unary operator kinds of `dumpVlog`. -/
def unary_txt : AstNodeType → Str
  | AST_BIT_NOT => lit "~"
  | AST_REDUCE_AND => lit "&"
  | AST_REDUCE_OR => lit "|"
  | AST_REDUCE_XOR => lit "^"
  | AST_REDUCE_XNOR => lit "~^"
  | AST_REDUCE_BOOL => lit "|"
  | AST_POS => lit "+"
  | AST_NEG => lit "-"
  | AST_LOGIC_NOT => lit "!"
  | _ => []

/-- The operator text `txt` of the binary operator kinds of `dumpVlog`. -/
def binary_txt : AstNodeType → Str
  | AST_BIT_AND => lit "&"
  | AST_BIT_OR => lit "|"
  | AST_BIT_XOR => lit "^"
  | AST_BIT_XNOR => lit "~^"
  | AST_SHIFT_LEFT => lit "<<"
  | AST_SHIFT_RIGHT => lit ">>"
  | AST_SHIFT_SLEFT => lit "<<<"
  | AST_SHIFT_SRIGHT => lit ">>>"
  | AST_LT => lit "<"
  | AST_LE => lit "<="
  | AST_EQ => lit "=="
  | AST_NE => lit "!="
  | AST_EQX => lit "==="
  | AST_NEX => lit "!=="
  | AST_GE => lit ">="
  | AST_GT => lit ">"
  | AST_ADD => lit "+"
  | AST_SUB => lit "-"
  | AST_MUL => lit "*"
  | AST_DIV => lit "/"
  | AST_MOD => lit "%"
  | AST_POW => lit "**"
  | AST_LOGIC_AND => lit "&&"
  | AST_LOGIC_OR => lit "||"
  | _ => []

/-- The loop of the `AST_COND` case over the children, with its `first` flag. -/
def dumpVlog_cond (g : Given) (dump : Dumper) (indent : Str) (inGenerate : Bool)
    (type : AstNodeType) : Bool → List AstNode → Except Failure Str
  | _, [] => pure []
  | first, child :: rest =>
    if child.type == AST_BLOCK || child.type == AST_GENBLOCK then do
      let s ← dump child (indent ++ lit "  ") inGenerate type
      let r ← dumpVlog_cond g dump indent inGenerate type true rest
      pure (lit ":\n" ++ s ++ r)
    else do
      let s ←
        if child.type == AST_DEFAULT then pure (lit "default")
        else dump child [] inGenerate g.dumpVlog_parentType
      let r ← dumpVlog_cond g dump indent inGenerate type false rest
      pure ((if first then c_str indent else lit ", ") ++ s ++ r)

/-- The test of the loops of `AST_ALWAYS` and `AST_INITIAL`: the child is an
edge. -/
def isEdge (child : AstNode) : Bool :=
  !(child.type != AST_POSEDGE && child.type != AST_NEGEDGE && child.type != AST_EDGE)

/-- The `switch (type)` of `AstNode::dumpVlog`, after the attributes have been
printed: the text written by the case of the node kind.  `dump` stands for the
recursive calls. -/
def dumpVlog_switch (g : Given) (dump : Dumper) (node : AstNode) (indent : Str)
    (inGenerate : Bool) (parentType : AstNodeType) : Except Failure Str :=
  let d := node.data
  let children := node.children
  let type := node.type
  let str := d.str
  let name := c_str (id2vl str g.id2vl_is_hierarchical_name)
  let deeper := indent ++ lit "  "
  match type with
  | AST_DESIGN =>
    forEach (fun child => do
      let s ← dump child [] false type
      pure (s ++ lit "\n\n")) children
  | AST_INTERFACE | AST_MODULE => do
    let txt := if type == AST_INTERFACE then lit "interface" else lit "module"
    let portChildren := sort_by_port_id (children.filter (fun child =>
      (child.type == AST_WIRE && (child.data.is_input || child.data.is_output))
        || child.type == AST_INTERFACEPORT))
    let ports ← forEachSep (lit ", ")
      (fun child => pure (c_str (id2vl child.data.str g.id2vl_is_hierarchical_name)))
      true portChildren
    let body ← forEach (fun child => dump child deeper inGenerate type) children
    pure (txt ++ c_str indent ++ lit " " ++ name ++ lit "(" ++ ports ++ lit ");\n" ++ body
      ++ c_str indent ++ lit "end" ++ txt ++ lit "\n")
  | AST_WIRE | AST_MODPORTMEMBER => do
    let dir :=
      if d.is_input && d.is_output then lit "inout "
      else if d.is_input then lit "input "
      else if d.is_output then lit "output "
      else []
    let net :=
      if d.is_logic && !d.is_reg then lit "logic "
      else if d.is_reg then lit "reg "
      else if parentType != AST_FUNCTION && parentType != AST_TASK then lit "wire "
      else []
    let body ← forEach (fun child => do
      let s ← dump child [] inGenerate type
      pure (s ++ lit " ")) children
    pure (c_str indent ++ dir ++ net ++ (if d.is_signed then lit "signed " else []) ++ body
      ++ name ++ (if type == AST_WIRE && parentType != AST_NONE then lit ";\n" else []))
  | AST_MEMORY => do
    let head :=
      (if d.is_logic then c_str indent ++ lit "logic" else [])
        ++ (if d.is_reg then c_str indent ++ lit "reg" else c_str indent ++ lit "wire")
        ++ (if d.is_signed then lit " signed" else [])
    if children.isEmpty then .error .fatal
    else do
      let body ← forEachFirst (fun first child => do
        let s ← dump child [] inGenerate type
        pure (lit " " ++ s ++ (if first then lit " " ++ name else []))) true children
      pure (head ++ body ++ lit ";\n")
  | AST_RANGE =>
    if d.range_valid then
      if d.range_left == d.range_right && children.length == 1 then
        pure (lit "[" ++ fmt_d d.range_right ++ lit "]")
      else if d.range_swapped then
        pure (lit "[" ++ fmt_d d.range_right ++ lit ":" ++ fmt_d d.range_left ++ lit "]")
      else
        pure (lit "[" ++ fmt_d d.range_left ++ lit ":" ++ fmt_d d.range_right ++ lit "]")
    else print_range_children g dump node inGenerate
  | AST_MULTIRANGE =>
    forEach (fun child => dump child [] inGenerate type) children
  | AST_ALWAYS => do
    let edges := children.filter isEdge
    let sens ← forEachFirst (fun first child => do
      let s ← dump child [] inGenerate g.dumpVlog_parentType
      pure ((if first then lit "(" else lit ", ") ++ s)) true edges
    let body ← forEach (fun child => dump child deeper inGenerate g.dumpVlog_parentType)
      (children.filter (fun child => !isEdge child))
    pure (c_str indent ++ lit "always @" ++ sens
      ++ (if edges.isEmpty then lit "*\n" else lit ")\n") ++ body)
  | AST_INITIAL => do
    let body ← forEach (fun child => dump child deeper inGenerate g.dumpVlog_parentType)
      (children.filter (fun child => !isEdge child))
    pure (c_str indent ++ lit "initial\n" ++ body)
  | AST_POSEDGE | AST_NEGEDGE | AST_EDGE => do
    let body ← forEach (fun child => dump child [] inGenerate type) children
    pure ((if type == AST_POSEDGE then lit "posedge " else [])
      ++ (if type == AST_NEGEDGE then lit "negedge " else []) ++ body)
  | AST_IDENTIFIER => do
    let body ← forEach (fun child => dump child [] inGenerate type) children
    pure (c_str (id2vl str (parentType == AST_DEFPARAM)) ++ body)
  | AST_CONSTANT =>
    if !str.isEmpty || d.bits.isEmpty then
      pure ([34] ++ (str.map dumpVlog_escape).flatten ++ [34])
    else if d.bits.length == 32 && node.bits_only_01 then
      pure ((if !d.is_signed then lit "\x27d" else [])
        ++ (if d.is_signed then fmt_d (g.as_int d.bits) else fmt_u (g.as_int d.bits)))
    else
      pure (fmt_d d.bits.length ++ lit "\x27" ++ (if d.is_signed then lit "s" else [])
        ++ lit "b " ++ c_str (g.as_verilog_string d.bits))
  | AST_REALVALUE => pure (g.fmt_e d.realvalue)
  | AST_TO_BITS => do
    let c0 ← elemAt children 0
    let s ← dump c0 [] inGenerate type
    let c1 ← elemAt children 1
    pure (lit "(" ++ s ++ lit " )\x27b" ++ c_str (g.as_verilog_string c1.bits))
  | AST_BLOCK | AST_GENBLOCK => do
    let body ← forEach (fun child => dump child deeper inGenerate type) children
    pure (c_str indent ++ lit "begin" ++ (if !str.isEmpty then lit ": " ++ name else [])
      ++ lit "\n" ++ body ++ c_str indent ++ lit "end\n")
  | AST_CASE | AST_GENCASE =>
    match areChildrenMissing indent node 1 with
    | some msg => pure msg
    | none => do
      let asIf ← dumpTransformedIf g dump indent node
      match asIf with
      | some s => pure s
      | none => do
        let kw ←
          if children.length > 1 then do
            let c1 ← elemAt children 1
            pure (if c1.type == AST_CONDX then lit "casex ("
              else if c1.type == AST_CONDZ then lit "casez (" else lit "case (")
          else pure (lit "case (")
        let c0 ← elemAt children 0
        let s ← dump c0 [] inGenerate type
        let body ← forEach (fun child => dump child deeper inGenerate type) (children.drop 1)
        pure (c_str indent ++ kw ++ s ++ lit ")\n" ++ body ++ c_str indent ++ lit "endcase\n")
  | AST_COND | AST_CONDX | AST_CONDZ => do
    let body ← dumpVlog_cond g dump indent inGenerate type true children
    pure ((if children.length == 1 then c_str indent ++ lit "default" else []) ++ body)
  | AST_ASSIGN => do
    let c0 ← elemAt children 0
    let a ← dump c0 [] inGenerate g.dumpVlog_parentType
    let c1 ← elemAt children 1
    let b ← dump c1 [] inGenerate g.dumpVlog_parentType
    pure (c_str indent ++ lit "assign " ++ a ++ lit " = " ++ b ++ lit ";\n")
  | AST_ASSIGN_EQ | AST_ASSIGN_LE => do
    let c0 ← elemAt children 0
    let a ← dump c0 [] inGenerate type
    let c1 ← elemAt children 1
    let b ← dump c1 [] inGenerate type
    pure (c_str indent ++ a ++ lit " " ++ (if type == AST_ASSIGN_EQ then lit "=" else lit "<=")
      ++ lit " " ++ b
      ++ (if parentType != AST_FOR && parentType != AST_GENFOR then lit ";\n" else []))
  | AST_CONCAT => do
    let body ← forEachSep (lit ", ")
      (fun child => dump child [] g.dumpVlog_inGenerate g.dumpVlog_parentType)
      true children.reverse
    pure (lit "\x7b" ++ body ++ lit "\x7d")
  | AST_REPLICATE => do
    let c0 ← elemAt children 0
    let a ← dump c0 [] inGenerate type
    let c1 ← elemAt children 1
    let b ← dump c1 [] inGenerate type
    pure (lit "\x7b" ++ a ++ b ++ lit "\x7d")
  | AST_BIT_NOT | AST_REDUCE_AND | AST_REDUCE_OR | AST_REDUCE_XOR | AST_REDUCE_XNOR
  | AST_REDUCE_BOOL | AST_POS | AST_NEG | AST_LOGIC_NOT => do
    let c0 ← elemAt children 0
    let a ← dump c0 [] inGenerate g.dumpVlog_parentType
    pure (c_str (unary_txt type) ++ lit "(" ++ a ++ lit ")")
  | AST_BIT_AND | AST_BIT_OR | AST_BIT_XOR | AST_BIT_XNOR | AST_SHIFT_LEFT | AST_SHIFT_RIGHT
  | AST_SHIFT_SLEFT | AST_SHIFT_SRIGHT | AST_LT | AST_LE | AST_EQ | AST_NE | AST_EQX
  | AST_NEX | AST_GE | AST_GT | AST_ADD | AST_SUB | AST_MUL | AST_DIV | AST_MOD | AST_POW
  | AST_LOGIC_AND | AST_LOGIC_OR => do
    let c0 ← elemAt children 0
    let a ← dump c0 [] inGenerate type
    let c1 ← elemAt children 1
    let b ← dump c1 [] inGenerate type
    pure (lit "(" ++ a ++ lit ")" ++ c_str (binary_txt type) ++ lit "(" ++ b ++ lit ")")
  | AST_TERNARY => do
    let c0 ← elemAt children 0
    let c ← dump c0 [] inGenerate type
    let c1 ← elemAt children 1
    let a ← dump c1 [] inGenerate type
    let c2 ← elemAt children 2
    let b ← dump c2 [] inGenerate type
    pure (lit "(" ++ c ++ lit ") ? (" ++ a ++ lit ") : (" ++ b ++ lit ")")
  | AST_PARAMETER | AST_LOCALPARAM => do
    let txt := if type == AST_PARAMETER then lit "parameter" else lit "localparam"
    let rng ←
      if children.length > 1 then do
        let c1 ← elemAt children 1
        if c1.type == AST_RANGE then do
          let s ← dump c1 indent inGenerate type
          pure (lit " " ++ s)
        else if c1.type == AST_REALVALUE then pure (lit " real")
        else pure []
      else pure []
    let c0 ← elemAt children 0
    let v ← dump c0 [] inGenerate type
    pure (c_str indent ++ txt ++ (if d.is_signed then lit " signed" else []) ++ rng
      ++ lit " " ++ name ++ lit " = " ++ v ++ lit ";\n")
  | AST_GENVAR => pure (c_str indent ++ lit "genvar " ++ name ++ lit ";\n")
  | AST_GENFOR | AST_FOR =>
    match areChildrenMissing indent node 4 with
    | some msg => pure msg
    | none => do
      let c0 ← elemAt children 0
      let s0 ← dump c0 deeper inGenerate type
      let c1 ← elemAt children 1
      let s1 ← dump c1 [] inGenerate type
      let c2 ← elemAt children 2
      let s2 ← dump c2 deeper inGenerate type
      let c3 ← elemAt children 3
      let s3 ← dump c3 deeper inGenerate type
      pure (c_str indent ++ lit "for (\n" ++ s0 ++ lit ";\n" ++ c_str indent ++ lit "  " ++ s1
        ++ lit ";\n" ++ s2 ++ lit "\n" ++ c_str indent ++ lit ")\n" ++ s3
        ++ (if c3.type == AST_ASSIGN_EQ || c3.type == AST_ASSIGN_LE then lit ";\n" else []))
  | AST_WHILE | AST_REPEAT => do
    let txt := if type == AST_WHILE then lit "while" else lit "repeat"
    let c0 ← elemAt children 0
    let a ← dump c0 [] inGenerate type
    let c1 ← elemAt children 1
    let b ← dump c1 deeper inGenerate type
    pure (c_str indent ++ txt ++ lit " (" ++ a ++ lit ")\n" ++ b)
  | AST_GENIF =>
    match areChildrenMissing indent node 2 with
    | some msg => pure msg
    | none => do
      let c0 ← elemAt children 0
      let a ← dump c0 deeper inGenerate type
      let c1 ← elemAt children 1
      let b ← dump c1 deeper inGenerate type
      let e ←
        if children.length > 2 then do
          let c2 ← elemAt children 2
          let s ← dump c2 deeper inGenerate type
          pure (c_str indent ++ lit "else\n" ++ s)
        else pure []
      pure (c_str indent ++ lit "if(" ++ a ++ lit ")\n" ++ b ++ e)
  | AST_CELLARRAY | AST_CELL => do
    let cell ← if type == AST_CELLARRAY then elemAt children 1 else pure node
    let ct ← elemAt cell.children 0
    let celltype := id2vl ct.data.str g.id2vl_is_hierarchical_name
    let paras ← forEachSep (lit ",\n") (fun child => dump child deeper inGenerate type)
      true (cell.children.filter (fun child => child.type == AST_PARASET))
    let arr ←
      if type == AST_CELLARRAY then do
        let c0 ← elemAt children 0
        dump c0 [] inGenerate type
      else pure []
    let args ← forEachSep (lit ",\n") (fun child => dump child deeper inGenerate type)
      true (cell.children.filter (fun child => child.type == AST_ARGUMENT))
    pure (c_str indent ++ c_str celltype ++ lit " #(\n" ++ paras ++ lit "\n" ++ c_str indent
      ++ lit ") " ++ c_str (id2vl cell.data.str g.id2vl_is_hierarchical_name) ++ lit " " ++ arr
      ++ lit "(\n" ++ args ++ lit "\n" ++ c_str indent ++ lit ");\n")
  | AST_PRIMITIVE => do
    let args ← forEachSep (lit ",\n") (fun child => dump child deeper inGenerate type)
      true (children.filter (fun child => child.type == AST_ARGUMENT))
    pure (c_str indent ++ c_str str ++ lit " prim_" ++ c_str str ++ lit "_"
      ++ fmt_u (g.hash d) ++ lit " (\n" ++ args ++ lit "\n" ++ c_str indent ++ lit ");\n")
  | AST_ARGUMENT | AST_PARASET => do
    let body ← forEach (fun child => dump child deeper inGenerate type) children
    pure (c_str indent ++ (if !str.isEmpty then lit "." ++ name ++ lit "(" else []) ++ body
      ++ (if !str.isEmpty then lit ")" else []))
  | AST_TO_SIGNED | AST_TO_UNSIGNED | AST_ASSERT | AST_TCALL | AST_FCALL => do
    let txt :=
      if type == AST_TO_SIGNED then lit "$signed"
      else if type == AST_TO_UNSIGNED then lit "$unsigned"
      else if type == AST_ASSERT then
        (if parentType == AST_BLOCK then lit "assert" else lit "assert property")
      else id2vl str g.id2vl_is_hierarchical_name
    let args ← forEachSep (lit ", ") (fun child => dump child deeper inGenerate type)
      true children
    pure (c_str indent ++ c_str txt ++ lit "(" ++ args ++ lit ")"
      ++ (if type == AST_TCALL || type == AST_ASSERT then lit ";\n" else []))
  | AST_FUNCTION | AST_TASK => do
    let txt := if type == AST_FUNCTION then lit "function" else lit "task"
    let ret ←
      if type == AST_FUNCTION then do
        let returnInfo ← elemAt children 0
        let rng ←
          if !returnInfo.children.isEmpty then do
            let range ← elemAt returnInfo.children 0
            let s ← dump range indent inGenerate type
            pure (lit " " ++ s)
          else pure []
        pure ((if returnInfo.data.is_signed then lit " signed" else []) ++ rng)
      else pure []
    let body ← forEach (fun child => dump child deeper inGenerate type)
      (if type == AST_FUNCTION then children.drop 1 else children)
    pure (c_str indent ++ txt ++ ret ++ lit " " ++ name ++ lit ";\n" ++ body
      ++ c_str indent ++ lit "end" ++ txt ++ lit "\n")
  | AST_MODPORT => do
    let body ← forEachSep (lit ",\n") (fun child => dump child deeper inGenerate type)
      true children
    pure (c_str indent ++ lit "modport " ++ name ++ lit " (\n" ++ body ++ lit "\n"
      ++ c_str indent ++ lit ");\n")
  | AST_INTERFACEPORT => do
    let c0 ← elemAt children 0
    pure (c_str indent ++ c_str (id2vl c0.data.str g.id2vl_is_hierarchical_name) ++ lit " "
      ++ name ++ lit ";\n")
  | AST_PREFIX => do
    let c0 ← elemAt children 0
    let a ← dump c0 [] inGenerate type
    let c1 ← elemAt children 1
    let b ← dump c1 [] inGenerate type
    pure (c_str indent ++ name ++ lit "[" ++ a ++ lit "]." ++ b)
  | AST_DEFPARAM => do
    let c0 ← elemAt children 0
    let a ← dump c0 [] inGenerate type
    let c1 ← elemAt children 1
    let b ← dump c1 [] inGenerate type
    pure (c_str indent ++ lit "defparam " ++ a ++ lit " = " ++ b ++ lit ";\n")
  | AST_NONE => do
    let body ← forEach (fun child => dump child [] inGenerate type) children
    pure (c_str indent ++ lit "!!NONE!!(" ++ c_str str ++ lit ")" ++ body)
  | _ =>
    pure (c_str indent ++ lit "/** " ++ c_str (type2str type) ++ lit " **/"
      ++ (if indent.isEmpty then [] else lit "\n")
      ++ node.dumpAst g indent g.dumpAst_dumpFileLine)

/-- The method `AstNode::dumpVlog(f, indent, inGenerate, parentType)` for a
file `f` that is not `NULL`: the text written to `f`.  The first argument
bounds the depth of the recursive calls. -/
def AstNode.dumpVlog (g : Given) : Nat → AstNode → Str → Bool → AstNodeType → Except Failure Str
  | 0, _, _, _, _ => .error .outOfFuel
  | fuel + 1, node, indent, inGenerate, parentType =>
    if needGenerate node.type && !inGenerate then do
      let body ← AstNode.dumpVlog g fuel node (indent ++ lit "  ") true g.dumpVlog_parentType
      pure (c_str indent ++ lit "generate\n" ++ body ++ c_str indent ++ lit "endgenerate\n")
    else do
      let attrs ← dumpVlog_attributes g (AstNode.dumpVlog g fuel)
        (sorted_attributes node.attributes) indent inGenerate node.type
      let body ← dumpVlog_switch g (AstNode.dumpVlog g fuel) node indent inGenerate parentType
      pure (attrs ++ body)

/-! ## Interface ports -/

/-- The loop `while (std::getline(name_type_stream, segment, '.'))` of
`split_modport_from_type`: the segments it pushes, given the segment read so
far and the rest of the stream.  A read that meets the end of the stream
without having taken a character fails and ends the loop, so a text that ends
in a dot has no empty last segment. -/
def getline_segments : Str → List Byte → List Str
  | segment, [] => if segment.isEmpty then [] else [segment]
  | segment, c :: rest =>
    if c == 46 then segment :: getline_segments [] rest
    else getline_segments (segment ++ [c]) rest

/-- The function `AST::split_modport_from_type(name_type)`: the pair
`(interface_type, interface_modport)`; `Failure.fatal` for `log_error`,
`Failure.outOfRange` when `seglist[0]` or `seglist[1]` is not there. -/
def split_modport_from_type (name_type : Str) : Except Failure (Str × Str) :=
  let ndots := name_type.count 46
  if ndots == 0 then .ok (name_type, [])
  else
    let seglist := getline_segments [] name_type
    if ndots == 1 then
      match seglist.get? 0, seglist.get? 1 with
      | some interface_type, some interface_modport => .ok (interface_type, interface_modport)
      | _, _ => .error .outOfRange
    else .error .fatal

/-- The function `AST::find_modport(intf, name)`: the first `AST_MODPORT` child
called `name`, or `none` for `NULL`. -/
def find_modport (intf : AstNode) (name : Str) : Option AstNode :=
  intf.children.find? (fun ch => ch.type == AST_MODPORT && ch.data.str == name)

/-- The search of `explode_interface_port` in the children of the modport: the
first `AST_MODPORTMEMBER` child whose name is `compare_name`. -/
def find_in_modport : List AstNode → Str → Option AstNode
  | [], _ => none
  | ch :: rest, compare_name =>
    if ch.type == AST_MODPORTMEMBER then
      if ch.data.str == compare_name then some ch
      else find_in_modport rest compare_name
    else find_in_modport rest compare_name

/-- The use of an `int` as the `uint32_t` argument of `mkconst_int`. -/
def to_uint32 (i : Int) : Nat := (i % 2 ^ 32).toNat

/-- The expression `new AstNode(AST_WIRE, new AstNode(AST_RANGE,
AstNode::mkconst_int(width - 1, true), AstNode::mkconst_int(0, true)))` followed
by `wire->str = newname`.  The constants take the default width.  The four
objects are allocated here from the innermost, left to right; the language
leaves that order open, and it shows only in the addresses and hash indices. -/
def new_interface_wire (g : Given) (env : Env) (width : Int) (newname : Str) :
    AstNode × Env :=
  let hi := AstNode.mkconst_int env (to_uint32 (width - 1)) true g.mkconst_int_width
  let lo := AstNode.mkconst_int hi.2 0 true g.mkconst_int_width
  let range := AstNode.new lo.2 AST_RANGE (some hi.1) (some lo.1) none
  let wire := AstNode.new range.2 AST_WIRE (some range.1) none none
  match wire.1 with
  | .mk d cs attrs => (.mk { d with str := newname } cs attrs, wire.2)

/-- The statement `module_ast->children.push_back(wire)`. -/
def AstNode.push_child : AstNode → AstNode → AstNode
  | .mk d cs attrs, c => .mk d (cs ++ [c]) attrs

/-- The function `AST::explode_interface_port(module_ast, intfmodule, intfname,
modport)`.  Of the interface module only `wires_` is read, given here as the
list of the names and widths of its wires in iteration order; `modport` is
`none` for `NULL`.  The result is the module tree after the call. -/
def explode_interface_port (g : Given) :
    Env → AstNode → List (Str × Int) → Str → Option AstNode → AstNode × Env
  | env, module_ast, [], _, _ => (module_ast, env)
  | env, module_ast, wire_it :: rest, intfname, modport =>
    let origname := c_str (g.log_id wire_it.1)
    let newname := intfname ++ lit "." ++ origname
    let wire := new_interface_wire g env wire_it.2 newname
    match modport with
    | some mp =>
      match find_in_modport mp.children ([92] ++ origname) with
      | some ch =>
        match wire.1 with
        | .mk d cs attrs =>
          explode_interface_port g wire.2
            (module_ast.push_child
              (.mk { d with is_input := ch.data.is_input, is_output := ch.data.is_output }
                cs attrs))
            rest intfname modport
      | none => explode_interface_port g wire.2 module_ast rest intfname modport
    | none =>
      match wire.1 with
      | .mk d cs attrs =>
        explode_interface_port g wire.2
          (module_ast.push_child (.mk { d with is_input := true, is_output := true } cs attrs))
          rest intfname modport

/-! ## Parametric modules -/

/-- The flag bit `RTLIL::CONST_FLAG_REAL`. -/
def CONST_FLAG_REAL : Nat := 4

/-- The global flags of the namespace `AST_INTERNAL` and the pointer
`current_ast` (an address, `none` for `NULL`). -/
structure Globals where
  flag_dump_ast1 : Bool
  flag_dump_ast2 : Bool
  flag_no_dump_ptr : Bool
  flag_dump_vlog1 : Bool
  flag_dump_vlog2 : Bool
  flag_dump_rtlil : Bool
  flag_nolatches : Bool
  flag_nomeminit : Bool
  flag_nomem2reg : Bool
  flag_mem2reg : Bool
  flag_noblackbox : Bool
  flag_lib : Bool
  flag_nowb : Bool
  flag_noopt : Bool
  flag_icells : Bool
  flag_pwires : Bool
  flag_autowire : Bool
  flag_verify_dump_vlog : Bool
  current_ast : Option Nat
  deriving DecidableEq, Repr

/-- The fields of an `AstModule` that `derive_common` reads: the name, the
stored tree and the feature flags. -/
structure AstModule where
  name : Str
  ast : AstNode
  nolatches : Bool
  nomeminit : Bool
  nomem2reg : Bool
  mem2reg : Bool
  noblackbox : Bool
  lib : Bool
  nowb : Bool
  noopt : Bool
  icells : Bool
  pwires : Bool
  autowire : Bool

/-- A parameter dictionary `dict<RTLIL::IdString, RTLIL::Const>`: its entries
in iteration order, every name at most once. -/
abbrev ParamDict := List (Str × Const)

/-- The call `parameters.erase(para_id)`. -/
def dict_erase (parameters : ParamDict) (para_id : Str) : ParamDict :=
  parameters.filter (fun e => e.1 != para_id)

/-- The value node that replaces the first child of a rewritten parameter: a
real value, a string constant or a bit vector constant, by the flags of the
supplied value. -/
def parameter_value_node (g : Given) (env : Env) (value : Const) : AstNode × Env :=
  if value.flags &&& CONST_FLAG_REAL != 0 then
    let n := AstNode.new env AST_REALVALUE none none none
    match n.1 with
    | .mk d cs attrs => (.mk { d with realvalue := g.stod (decode_string value.bits) } cs attrs, n.2)
  else if value.flags &&& CONST_FLAG_STRING != 0 then
    AstNode.mkconst_str env (decode_string value.bits)
  else
    AstNode.mkconst_bits env value.bits (value.flags &&& CONST_FLAG_SIGNED != 0) false

/-- The statements after the label `rewrite_parameter` that change the tree:
`delete child->children.at(0)` and the assignment of the new value node to
`child->children[0]`. -/
def rewrite_parameter (g : Given) (env : Env) (child : AstNode) (value : Const) :
    Except Failure (AstNode × Env) :=
  match child with
  | .mk _ [] _ => .error .outOfRange
  | .mk d (_ :: rest) attrs =>
    let r := parameter_value_node g env value
    .ok (.mk d (r.1 :: rest) attrs, r.2)

/-- The key under which the parameter `child`, the `para_counter`-th one, finds
its value: its declared name if the dictionary has it, else `$` and the
counter if the dictionary has that, else none. -/
def parameter_key (parameters : ParamDict) (child : AstNode) (para_counter : Nat) :
    Option Str :=
  if (parameters.lookup child.data.str).isSome then some child.data.str
  else if (parameters.lookup (lit "$" ++ fmt_d para_counter)).isSome then
    some (lit "$" ++ fmt_d para_counter)
  else none

/-- The text `stringf("%s=%s", child->str.c_str(), log_signal(...))` added to
`para_info`. -/
def parameter_info (g : Given) (child : AstNode) (value : Const) : Str :=
  c_str child.data.str ++ lit "=" ++ c_str (g.log_signal value)

/-- The first loop of `derive_common` over the children of the cloned tree,
from a child on: `para_counter` parameters have been seen before it.  The
result is the children after the loop, `para_info`, the entries still in
`parameters`, and the environment. -/
def derive_rewrite (g : Given) :
    List AstNode → Nat → Str → ParamDict → Env →
      Except Failure (List AstNode × Str × ParamDict × Env)
  | [], _, para_info, parameters, env => .ok ([], para_info, parameters, env)
  | child :: rest, para_counter, para_info, parameters, env =>
    if child.type != AST_PARAMETER then do
      let r ← derive_rewrite g rest para_counter para_info parameters env
      pure (child :: r.1, r.2)
    else
      match parameter_key parameters child (para_counter + 1) with
      | none => do
        let r ← derive_rewrite g rest (para_counter + 1) para_info parameters env
        pure (child :: r.1, r.2)
      | some para_id =>
        match parameters.lookup para_id with
        | none => .error .fatal
        | some value => do
          let c ← rewrite_parameter g env child value
          let r ← derive_rewrite g rest (para_counter + 1)
            (para_info ++ parameter_info g child value) (dict_erase parameters para_id) c.2
          pure (c.1 :: r.1, r.2)

/-- The body of the second loop of `derive_common`: the `AST_DEFPARAM` node
for one supplied entry that was not used.  The identifier is allocated before
the node that holds it. -/
def new_defparam (env : Env) (param : Str × Const) : AstNode × Env :=
  let ident := AstNode.new env AST_IDENTIFIER none none none
  let ident1 : AstNode :=
    match ident.1 with
    | .mk d cs attrs => .mk { d with str := param.1 } cs attrs
  let defparam := AstNode.new ident.2 AST_DEFPARAM (some ident1) none none
  let value :=
    if param.2.flags &&& CONST_FLAG_STRING != 0 then
      AstNode.mkconst_str defparam.2 (decode_string param.2.bits)
    else
      AstNode.mkconst_bits defparam.2 param.2.bits (param.2.flags &&& CONST_FLAG_SIGNED != 0)
        false
  (defparam.1.push_child value.1, value.2)

/-- The second loop of `derive_common`: one `AST_DEFPARAM` node per entry left
in `parameters`, in iteration order. -/
def derive_defparams : ParamDict → Env → List AstNode × Env
  | [], env => ([], env)
  | param :: rest, env =>
    let dp := new_defparam env param
    let r := derive_defparams rest dp.2
    (dp.1 :: r.1, r.2)

/-- What `derive_common` leaves behind: the returned name, the tree stored in
`*new_ast_out`, the environment and the global flags. -/
structure Derived where
  modname : Str
  new_ast : AstNode
  env : Env
  globals : Globals

/-- The method `AstModule::derive_common(design, parameters, new_ast_out,
mayfail)`.  `internal_line_num` is the value of the variable of that name,
which `use_internal_line_num` makes the line number of new nodes; the design
is only passed to the log. -/
def AstModule.derive_common (g : Given) (m : AstModule) (env : Env) (globals : Globals)
    (internal_line_num : Int) (parameters : ParamDict) : Except Failure Derived :=
  let stripped_name :=
    if m.name.take 9 == lit "$abstract" then m.name.drop 9 else m.name
  let globals : Globals :=
    { globals with
      current_ast := none
      flag_dump_ast1 := false
      flag_dump_ast2 := false
      flag_dump_vlog1 := false
      flag_dump_vlog2 := false
      flag_nolatches := m.nolatches
      flag_nomeminit := m.nomeminit
      flag_nomem2reg := m.nomem2reg
      flag_mem2reg := m.mem2reg
      flag_noblackbox := m.noblackbox
      flag_lib := m.lib
      flag_nowb := m.nowb
      flag_noopt := m.noopt
      flag_icells := m.icells
      flag_pwires := m.pwires
      flag_autowire := m.autowire }
  let env := { env with line_num := internal_line_num }
  let cloned := m.ast.clone env
  let orig_parameters_n := parameters.length
  match cloned.1 with
  | .mk d cs attrs => do
    let r ← derive_rewrite g cs 0 [] parameters cloned.2
    let dps := derive_defparams r.2.2.1 r.2.2.2
    let para_info := r.2.1
    let modname :=
      if orig_parameters_n == 0 then stripped_name
      else if para_info.length > 60 then lit "$paramod$" ++ g.sha1 para_info ++ stripped_name
      else lit "$paramod" ++ stripped_name ++ para_info
    pure { modname := modname, new_ast := .mk d (r.1 ++ dps.1) attrs, env := dps.2,
           globals := globals }

/-! ## Maps kept as lists -/

/-- The test `m.count(key) > 0` on a map kept as the list of its entries. -/
def map_count {α : Type} (m : List (Str × α)) (key : Str) : Bool :=
  (m.lookup key).isSome

/-- The call `m.at(key)`, which throws when the key is not there. -/
def map_at {α : Type} (m : List (Str × α)) (key : Str) : Except Failure α :=
  match m.lookup key with
  | some value => .ok value
  | none => .error .outOfRange

/-- The call `m.erase(key)`. -/
def map_erase {α : Type} (m : List (Str × α)) (key : Str) : List (Str × α) :=
  m.filter (fun e => e.1 != key)

/-- The assignment `m[key] = value`: the value of a key that is there is
overwritten; a new key gets an entry, put last here (where it comes in the
iteration order of the map is not fixed by the sources). -/
def map_assign {α : Type} : List (Str × α) → Str → α → List (Str × α)
  | [], key, value => [(key, value)]
  | (k, v) :: rest, key, value =>
    if k == key then (k, value) :: rest else (k, v) :: map_assign rest key value

/-! ## The IR store and the other collaborators -/

/-- The value type `RTLIL::SigSpec` as far as `process_module` uses it: a list
of signal bits (wire name and bit index); the default constructor gives the
empty one. -/
abbrev SigSpec := List (Str × Int)

/-- A cell of a module as far as `derive` writes it: name, type and
attributes. -/
structure Cell where
  name : Str
  type : Str
  attributes : List (Str × Const)

/-- An `AstModule` object with the part of its base class `RTLIL::Module` that
the AST library reads and writes: the name, the attributes, the wires (name
and width) and the cells, then the members that `AstModule` adds, `ast` being
`none` for `NULL`. -/
structure Module where
  name : Str
  attributes : List (Str × Const)
  wires_ : List (Str × Int)
  cells_ : List Cell
  ast : Option AstNode
  nolatches : Bool
  nomeminit : Bool
  nomem2reg : Bool
  mem2reg : Bool
  noblackbox : Bool
  lib : Bool
  nowb : Bool
  noopt : Bool
  icells : Bool
  pwires : Bool
  autowire : Bool

/-- The state that lowering works on: the module under construction
(`current_module`), the set `ignoreThisSignalsInInitial` and the allocator. -/
structure Lowering where
  current_module : Module
  ignoreThisSignalsInInitial : SigSpec
  env : Env

/-- The collaborators of the elaboration pipeline that are not among the
sources, carried as parameters:

* `simplify`: one call `ast->simplify(const_fold, false, false, 0, -1, false,
  false)` under the global flags, giving its result and the tree afterwards;
* `genRTLIL`: the lowering of one child into the module under construction; it
  is taken not to change the child vector of the module tree;
* `sort_and_unify` of `RTLIL::SigSpec`; `fixup_ports` and `check` of
  `RTLIL::Module`;
* `const_of_string`: the conversion of a `std::string` to an `RTLIL::Const`;
  `set_bool_attribute`, `get_bool_attribute` and `get_blackbox_attribute` on
  attributes;
* `frontend_verilog_yyparse`: the parser run on the text of a stream, giving
  the children it adds to the design root; `frontend_verilog_yyget_lineno`:
  the line number of the lexer;
* `log_files`: how many log files are open; `design_hash` and `getpid`: the
  two numbers in the name of a dump file. -/
structure Collaborators where
  simplify : Globals → Bool → AstNode → Env → Except Failure (Bool × AstNode × Env)
  genRTLIL : Globals → AstNode → Lowering → Except Failure Lowering
  sort_and_unify : SigSpec → SigSpec
  fixup_ports : Module → Module
  check : Module → Except Failure Unit
  const_of_string : Str → Const
  set_bool_attribute : List (Str × Const) → Str → List (Str × Const)
  get_bool_attribute : List (Str × Const) → Str → Bool
  get_blackbox_attribute : Module → Bool
  frontend_verilog_yyparse : Str → Env → List AstNode × Env
  frontend_verilog_yyget_lineno : Int
  log_files : Nat
  design_hash : Nat
  getpid : Nat

/-! ## The round-trip oracle -/

/-- The function `AST::readFromStream(stream, filename)`: the file name becomes
the current one, line numbers are from now on those of the lexer, a new
`AST_DESIGN` node is made, the lexer is set to line 1 and the parser fills the
node. -/
def readFromStream (c : Collaborators) (env : Env) (stream filename : Str) : AstNode × Env :=
  let env : Env :=
    { env with current_filename := filename, line_num := c.frontend_verilog_yyget_lineno }
  let root := AstNode.new env AST_DESIGN none none none
  let parsed := c.frontend_verilog_yyparse stream { root.2 with line_num := 1 }
  match root.1 with
  | .mk d cs attrs => (.mk d (cs ++ parsed.1) attrs, parsed.2)

/-- The function `rereadDump(filename)`, given the text of the file: the only
child of the design root read back. -/
def rereadDump (c : Collaborators) (env : Env) (file filename : Str) :
    Except Failure (AstNode × Env) :=
  let resultFile := readFromStream c env file filename
  if resultFile.1.children.length != 1 then .error .fatal
  else
    match elemAt resultFile.1.children 0 with
    | .ok resultModule => .ok (resultModule, resultFile.2)
    | .error e => .error e

/-- The function `verify_dump_vlog(ast)`.  The file system is taken to work:
the stream that is read back holds the text that `dumpVlog` wrote, under the
flag `flag_no_dump_ptr` set just before.  The dumps by `dumpAst`, the call of
`logging_equals` on a mismatch (its value is not used) and the log lines
change nothing and are left out; the result is the allocator and the global
flags afterwards. -/
def verify_dump_vlog (g : Given) (c : Collaborators) (fuel : Nat) (globals : Globals)
    (env : Env) (ast : AstNode) : Except Failure (Env × Globals) :=
  let dump_name := lit "/tmp/yosysVerifyDump" ++ lit "/"
    ++ id2vl ast.data.str g.id2vl_is_hierarchical_name ++ lit "_"
    ++ (fmt_u c.design_hash ++ lit "_" ++ fmt_u c.getpid)
  let fn := dump_name ++ lit ".v"
  match ast.dumpVlog { g with flag_no_dump_ptr := true } fuel [] g.dumpVlog_inGenerate
      g.dumpVlog_parentType with
  | .error e => .error e
  | .ok text =>
    match rereadDump c env text fn with
    | .error e => .error e
    | .ok reread =>
      if !ast.equals reread.1 true g.equals_id2AstMustEqual then .error .fatal
      else .ok (reread.2, { globals with flag_no_dump_ptr := true })

/-! ## The elaboration pipeline -/

/-- The method `AstNode::asBool`: whether some bit is `1`; `none` when the
`log_assert` on the kind fails. -/
def AstNode.asBool (n : AstNode) : Option Bool :=
  if n.type == AST_CONSTANT then some (n.bits.any (fun bit => bit == S1)) else none

/-- The method `AstNode::delete_children`: no children and no attributes
afterwards. -/
def AstNode.delete_children : AstNode → AstNode
  | .mk d _ _ => .mk d [] []

/-- The test written twice in `process_module`: an `AST_CELL` with at least one
child whose first child is an `AST_CELLTYPE` called `$specify2`, `$specify3`
or `$specrule`. -/
def process_module_is_specify (child : AstNode) : Bool :=
  child.type == AST_CELL && child.children.length > 0 &&
    match child.children with
    | [] => false
    | c0 :: _ =>
      c0.type == AST_CELLTYPE &&
        (c0.data.str == lit "$specify2" || c0.data.str == lit "$specify3"
          || c0.data.str == lit "$specrule")

/-- The first block of the non-deferred part of `process_module`: the value of
`blackbox_module` before simplification. -/
def process_module_classify (globals : Globals) (ast : AstNode) : Bool :=
  let blackbox_module := globals.flag_lib
  if !blackbox_module && !globals.flag_noblackbox then
    ast.children.all (fun child =>
      (child.type == AST_WIRE && (child.data.is_input || child.data.is_output))
        || (child.type == AST_PARAMETER || child.type == AST_LOCALPARAM)
        || process_module_is_specify child)
  else blackbox_module

/-- The loop `while (ast->simplify(!flag_noopt, false, false, 0, -1, false,
false)) { }`, with a budget of calls. -/
def process_module_simplify (c : Collaborators) (globals : Globals) :
    Nat → AstNode → Env → Except Failure (AstNode × Env)
  | 0, _, _ => .error .outOfFuel
  | fuel + 1, ast, env =>
    match c.simplify globals (!globals.flag_noopt) ast env with
    | .error e => .error e
    | .ok (did_something, ast1, env1) =>
      if did_something then process_module_simplify c globals fuel ast1 env1
      else .ok (ast1, env1)

/-- The call `ast->dumpVlog(NULL, "    ")` made under a dump flag: the tree is
rendered once for every open log file, so the call fails when there is a log
file and the rendering fails; the text goes to the log only. -/
def process_module_dump (g : Given) (c : Collaborators) (fuel : Nat) (globals : Globals)
    (flag : Bool) (ast : AstNode) : Except Failure Unit :=
  if flag && c.log_files > 0 then
    match ast.dumpVlog { g with flag_no_dump_ptr := globals.flag_no_dump_ptr } fuel
        (lit "    ") g.dumpVlog_inGenerate g.dumpVlog_parentType with
    | .error e => .error e
    | .ok _ => .ok ()
  else .ok ()

/-- The two blocks on the attributes `whitebox` and `lib_whitebox`. -/
def process_module_whitebox (globals : Globals) (attributes : List (Str × AstNode)) :
    Except Failure (List (Str × AstNode)) :=
  let attributes :=
    if globals.flag_nowb && map_count attributes (lit "\\whitebox") then
      map_erase attributes (lit "\\whitebox")
    else attributes
  if map_count attributes (lit "\\lib_whitebox") then
    if !globals.flag_lib || globals.flag_nowb then
      .ok (map_erase attributes (lit "\\lib_whitebox"))
    else
      let attributes :=
        if map_count attributes (lit "\\whitebox") then map_erase attributes (lit "\\whitebox")
        else attributes
      match map_at attributes (lit "\\lib_whitebox") with
      | .error e => .error e
      | .ok n => .ok (map_erase (map_assign attributes (lit "\\whitebox") n) (lit "\\lib_whitebox"))
  else .ok attributes

/-- The value of a constant attribute read by `asBool`, after the test that
ends in `log_file_error` when the attribute is not a constant. -/
def process_module_attribute_bool (n : AstNode) : Except Failure Bool :=
  if n.type != AST_CONSTANT then .error .fatal
  else
    match n.asBool with
    | some b => .ok b
    | none => .error .fatal

/-- The block on the attribute `blackbox`: the value of `blackbox_module`
after it. -/
def process_module_blackbox (blackbox_module : Bool) (attributes : List (Str × AstNode)) :
    Except Failure Bool :=
  if !blackbox_module && map_count attributes (lit "\\blackbox") then
    match map_at attributes (lit "\\blackbox") with
    | .error e => .error e
    | .ok n => process_module_attribute_bool n
  else .ok blackbox_module

/-- The block on the attribute `whitebox` that follows: the value of
`blackbox_module` after it. -/
def process_module_not_whitebox (blackbox_module : Bool) (attributes : List (Str × AstNode)) :
    Except Failure Bool :=
  if blackbox_module && map_count attributes (lit "\\whitebox") then
    match map_at attributes (lit "\\whitebox") with
    | .error e => .error e
    | .ok n =>
      match process_module_attribute_bool n with
      | .error e => .error e
      | .ok b => .ok (!b)
  else .ok blackbox_module

/-- The block on the attribute `noblackbox`: the value of `blackbox_module`
and the attributes after it. -/
def process_module_noblackbox (blackbox_module : Bool) (attributes : List (Str × AstNode)) :
    Except Failure (Bool × List (Str × AstNode)) :=
  if map_count attributes (lit "\\noblackbox") then
    if blackbox_module then
      match map_at attributes (lit "\\noblackbox") with
      | .error e => .error e
      | .ok n =>
        match process_module_attribute_bool n with
        | .error e => .error e
        | .ok b => .ok (!b, map_erase attributes (lit "\\noblackbox"))
    else .ok (blackbox_module, map_erase attributes (lit "\\noblackbox"))
  else .ok (blackbox_module, attributes)

/-- The loop that fills `new_children` for a blackbox module: port wires and
specify cells are kept, a parameter is kept with a constant of width 0 as its
only child, every other child is deleted. -/
def process_module_new_children : List AstNode → Env → List AstNode × Env
  | [], env => ([], env)
  | child :: rest, env =>
    if child.type == AST_WIRE && (child.data.is_input || child.data.is_output) then
      let r := process_module_new_children rest env
      (child :: r.1, r.2)
    else if child.type == AST_PARAMETER then
      let zero := AstNode.mkconst_int env 0 false 0
      let r := process_module_new_children rest zero.2
      (child.delete_children.push_child zero.1 :: r.1, r.2)
    else if process_module_is_specify child then
      let r := process_module_new_children rest env
      (child :: r.1, r.2)
    else process_module_new_children rest env

/-- The block `if (blackbox_module) { ... }`: the tree and the allocator after
it. -/
def process_module_reduce (g : Given) (ast : AstNode) (env : Env) : AstNode × Env :=
  match ast with
  | .mk d children attributes =>
    let attributes :=
      if map_count attributes (lit "\\whitebox") then map_erase attributes (lit "\\whitebox")
      else attributes
    let attributes :=
      if map_count attributes (lit "\\lib_whitebox") then
        map_erase attributes (lit "\\lib_whitebox")
      else attributes
    let new_children := process_module_new_children children env
    if !map_count attributes (lit "\\blackbox") then
      let one := AstNode.mkconst_int new_children.2 1 false g.mkconst_int_width
      (.mk d new_children.1 (map_assign attributes (lit "\\blackbox") one.1), one.2)
    else (.mk d new_children.1 attributes, new_children.2)

/-- The loop over the attributes of the tree that stores each of them on the
module: `log_file_error` for a value that is not a constant, and the failing
`log_assert` of `asAttrConst`. -/
def process_module_attributes :
    List (Str × AstNode) → List (Str × Const) → Except Failure (List (Str × Const))
  | [], attributes => .ok attributes
  | attr :: rest, attributes =>
    if attr.2.type != AST_CONSTANT then .error .fatal
    else
      match attr.2.asAttrConst with
      | none => .error .fatal
      | some value => process_module_attributes rest (map_assign attributes attr.1 value)

/-- One of the three loops over the children that call `genRTLIL` on the
children that pass a test. -/
def process_module_lower (c : Collaborators) (globals : Globals) (test : AstNode → Bool) :
    List AstNode → Lowering → Except Failure Lowering
  | [], state => .ok state
  | node :: rest, state =>
    if test node then
      match c.genRTLIL globals node state with
      | .error e => .error e
      | .ok state1 => process_module_lower c globals test rest state1
    else process_module_lower c globals test rest state

/-- The test of the first lowering loop. -/
def process_module_first_pass (node : AstNode) : Bool :=
  node.type == AST_WIRE || node.type == AST_MEMORY

/-- The test of the second lowering loop. -/
def process_module_second_pass (node : AstNode) : Bool :=
  node.type != AST_WIRE && node.type != AST_MEMORY && node.type != AST_INITIAL

/-- The test of the third lowering loop. -/
def process_module_third_pass (node : AstNode) : Bool :=
  node.type == AST_INITIAL

/-- The lowering part of `process_module`: the set
`ignoreThisSignalsInInitial` is cleared, the attributes are stored on the
module, the three loops run with `sort_and_unify` before the third, and the set
is cleared again. -/
def process_module_lowering (c : Collaborators) (globals : Globals) (ast : AstNode)
    (current_module : Module) (env : Env) : Except Failure Lowering := do
  let attributes ← process_module_attributes ast.attributes current_module.attributes
  let state0 : Lowering :=
    { current_module := { current_module with attributes := attributes }
      ignoreThisSignalsInInitial := []
      env := env }
  let state1 ← process_module_lower c globals process_module_first_pass ast.children state0
  let state2 ← process_module_lower c globals process_module_second_pass ast.children state1
  let state2 : Lowering :=
    { state2 with
      ignoreThisSignalsInInitial := c.sort_and_unify state2.ignoreThisSignalsInInitial }
  let state3 ← process_module_lower c globals process_module_third_pass ast.children state2
  pure { state3 with ignoreThisSignalsInInitial := [] }

/-- The blocks of `process_module` between simplification and lowering: the
attribute steps and the reduction of a blackbox module.  The result is the
tree and the allocator before the attributes are stored on the module. -/
def process_module_prepare (g : Given) (globals : Globals) (blackbox_module : Bool)
    (ast : AstNode) (env : Env) : Except Failure (AstNode × Env) := do
  let attributes ← process_module_whitebox globals ast.attributes
  let blackbox1 ← process_module_blackbox blackbox_module attributes
  let blackbox2 ← process_module_not_whitebox blackbox1 attributes
  let r ← process_module_noblackbox blackbox2 attributes
  let ast1 : AstNode := .mk ast.data ast.children r.2
  pure (if r.1 then process_module_reduce g ast1 env else (ast1, env))

/-- The block `if (!defer) { ... }` of `process_module`: the tree as it is
left and the state of the lowering. -/
def process_module_elaborate (g : Given) (c : Collaborators) (fuel : Nat) (globals : Globals)
    (ast : AstNode) (current_module : Module) (env : Env) :
    Except Failure (AstNode × Lowering) := do
  let blackbox_module := process_module_classify globals ast
  let simplified ← process_module_simplify c globals fuel ast env
  let _ ← process_module_dump g c fuel globals globals.flag_dump_vlog2 simplified.1
  let prepared ← process_module_prepare g globals blackbox_module simplified.1 simplified.2
  let state ← process_module_lowering c globals prepared.1 current_module prepared.2
  pure (prepared.1, state)

/-- What `process_module` leaves behind: the module it returns, the tree it
was given as it is afterwards, the allocator and the global flags. -/
structure Processed where
  current_module : Module
  ast : AstNode
  env : Env
  globals : Globals

/-- The module made by `new AstModule` with the first three assignments of
`process_module`: the name, the attribute `src` and the marker
`cells_not_processed`.  The flags are set at the end of `process_module`;
until then they are unset, shown here as `false`. -/
def process_module_new (c : Collaborators) (ast : AstNode) : Module :=
  { name := ast.data.str
    attributes := c.set_bool_attribute
      (map_assign [] (lit "\\src")
        (c.const_of_string (c_str ast.data.filename ++ lit ":" ++ fmt_d ast.data.linenum)))
      (lit "\\cells_not_processed")
    wires_ := []
    cells_ := []
    ast := none
    nolatches := false
    nomeminit := false
    nomem2reg := false
    mem2reg := false
    noblackbox := false
    lib := false
    nowb := false
    noopt := false
    icells := false
    pwires := false
    autowire := false }

/-- The end of `process_module`: the marker of an interface, the stored tree,
the flags and `fixup_ports`. -/
def process_module_finish (c : Collaborators) (globals : Globals) (ast : AstNode)
    (ast_before_simplify : AstNode) (current_module : Module) : Module :=
  let current_module : Module :=
    if ast.type == AST_INTERFACE then
      { current_module with
        attributes := c.set_bool_attribute current_module.attributes (lit "\\is_interface") }
    else current_module
  c.fixup_ports
    { current_module with
      ast := some ast_before_simplify
      nolatches := globals.flag_nolatches
      nomeminit := globals.flag_nomeminit
      nomem2reg := globals.flag_nomem2reg
      mem2reg := globals.flag_mem2reg
      noblackbox := globals.flag_noblackbox
      lib := globals.flag_lib
      nowb := globals.flag_nowb
      noopt := globals.flag_noopt
      icells := globals.flag_icells
      pwires := globals.flag_pwires
      autowire := globals.flag_autowire }

/-- The snapshot `ast_before_simplify`: the tree supplied by the caller, or a
clone of the tree. -/
def process_module_snapshot (ast : AstNode) (original_ast : Option AstNode) (env : Env) :
    AstNode × Env :=
  match original_ast with
  | some original => (original, env)
  | none => ast.clone env

/-- The block `if (flag_verify_dump_vlog) { ... }`: the oracle runs on a clone
of the tree. -/
def process_module_verify (g : Given) (c : Collaborators) (fuel : Nat) (globals : Globals)
    (env : Env) (ast : AstNode) : Except Failure (Env × Globals) :=
  if globals.flag_verify_dump_vlog then
    let clone := ast.clone env
    verify_dump_vlog g c fuel globals clone.2 clone.1
  else .ok (env, globals)

/-- The block `if (!defer) { ... }` or nothing: the tree as it is left and the
state of the lowering. -/
def process_module_defer (g : Given) (c : Collaborators) (fuel : Nat) (globals : Globals)
    (ast : AstNode) (defer : Bool) (current_module : Module) (env : Env) :
    Except Failure (AstNode × Lowering) :=
  if !defer then process_module_elaborate g c fuel globals ast current_module env
  else
    .ok (ast, { current_module := current_module, ignoreThisSignalsInInitial := [], env := env })

/-- The function `process_module(ast, defer, original_ast)`, `original_ast`
being `none` for `NULL`.  The budget `fuel` bounds the calls of the simplifier
and the depth of the Verilog dumps.  Log lines, the dumps by `dumpAst` and
`log_module` change nothing and are left out. -/
def process_module (g : Given) (c : Collaborators) (fuel : Nat) (globals : Globals) (env : Env)
    (ast : AstNode) (defer : Bool) (original_ast : Option AstNode) :
    Except Failure Processed :=
  if !(ast.type == AST_MODULE || ast.type == AST_INTERFACE) then .error .fatal
  else do
    let current_module := process_module_new c ast
    let snapshot := process_module_snapshot ast original_ast env
    let _ ← process_module_dump g c fuel globals globals.flag_dump_vlog1 ast
    let verified ← process_module_verify g c fuel globals snapshot.2 ast
    let done ← process_module_defer g c fuel verified.2 ast defer current_module verified.1
    pure
      { current_module := process_module_finish c verified.2 done.1 snapshot.1
          done.2.current_module
        ast := done.1
        env := done.2.env
        globals := verified.2 }

/-! ## The design and the entry points -/

/-- Modelled from the spec: the module registry of `RTLIL::Design` (its code is
not among the sources), a module being inserted, found, and removed under its
name; with the two public vectors `verilog_packages` and `verilog_globals`. -/
structure Design where
  modules_ : List Module
  verilog_packages : List AstNode
  verilog_globals : List AstNode

/-- Modelled from the spec: `design->has(name)`, existence by name. -/
def Design.has (design : Design) (name : Str) : Bool :=
  design.modules_.any (fun m => m.name == name)

/-- Modelled from the spec: `design->module(name)`, the module of that name
or `none` for `NULL`. -/
def Design.module (design : Design) (name : Str) : Option Module :=
  design.modules_.find? (fun m => m.name == name)

/-- Modelled from the spec: `design->add(module)`, insertion under the name of
the module. -/
def Design.add (design : Design) (added : Module) : Design :=
  { design with modules_ := design.modules_ ++ [added] }

/-- Modelled from the spec: `design->remove(module)`, the module of that name
leaves the registry. -/
def Design.remove (design : Design) (removed : Module) : Design :=
  { design with modules_ := design.modules_.filter (fun m => m.name != removed.name) }

/-- A change made through the pointer `design->module(name)`: the module of
that name is replaced by the changed one. -/
def Design.update (design : Design) (name : Str) (changed : Module) : Design :=
  { design with
    modules_ := design.modules_.map (fun m => if m.name == name then changed else m) }

/-- What a call of `derive` leaves behind: the returned name, the design, the
allocator and the global flags. -/
structure DeriveResult where
  modname : Str
  design : Design
  env : Env
  globals : Globals

/-- The branch of `derive` taken when the design has no module called
`modname`: the tree gets the name and is processed, the module is added and
checked. -/
def AstModule.derive_process (g : Given) (c : Collaborators) (fuel : Nat) (design : Design)
    (r : Derived) (new_ast : AstNode) : Except Failure (Processed × Design) := do
  let processed ← process_module g c fuel r.globals r.env new_ast false none
  let design := design.add processed.current_module
  match design.module r.modname with
  | none => .error .outOfRange
  | some added => do
    let _ ← c.check added
    pure (processed, design)

/-- The assignment `new_ast->str = modname`. -/
def AstNode.set_str : AstNode → Str → AstNode
  | .mk d cs attrs, str => .mk { d with str := str } cs attrs

/-- The method `AstModule::derive(design, parameters, mayfail)`, without
interfaces. -/
def AstModule.derive (g : Given) (c : Collaborators) (fuel : Nat) (m : AstModule) (env : Env)
    (globals : Globals) (internal_line_num : Int) (design : Design) (parameters : ParamDict) :
    Except Failure DeriveResult := do
  let r ← m.derive_common g env globals internal_line_num parameters
  if !design.has r.modname then do
    let p ← AstModule.derive_process g c fuel design r (r.new_ast.set_str r.modname)
    pure { modname := r.modname, design := p.2, env := p.1.env, globals := p.1.globals }
  else
    pure { modname := r.modname, design := design, env := r.env, globals := r.globals }

/-- The text `interf_info` of the interface-aware `derive`: the names of the
bound interface modules as `log_id` gives them, one after the other. -/
def derive_interf_info (g : Given) (interfaces : List (Str × Module)) : Str :=
  (interfaces.map (fun intf => c_str (g.log_id intf.2.name))).flatten

/-- The modport that applies to an interface port in `derive`: `none` for
`NULL`.  The interface module is used as an `AstModule`; its tree must be
there. -/
def derive_modport (modports : List (Str × Str)) (intf : Str × Module) :
    Except Failure (Option AstNode) :=
  if map_count modports intf.1 then
    match map_at modports intf.1 with
    | .error e => .error e
    | .ok interface_modport =>
      match intf.2.ast with
      | none => .error .outOfRange
      | some ast_node_of_interface => .ok (find_modport ast_node_of_interface interface_modport)
  else .ok none

/-- The loop of `derive` that explodes every interface port into the tree. -/
def derive_explode (g : Given) (modports : List (Str × Str)) :
    List (Str × Module) → AstNode → Env → Except Failure (AstNode × Env)
  | [], new_ast, env => .ok (new_ast, env)
  | intf :: rest, new_ast, env =>
    match derive_modport modports intf with
    | .error e => .error e
    | .ok modport =>
      let exploded := explode_interface_port g env new_ast intf.2.wires_ intf.1 modport
      derive_explode g modports rest exploded.1 exploded.2

/-- The loop of `derive` that takes the dummy port of every interface out of
the new module and adds the cell that records the binding; `log_error` when
the module has no wire of that name. -/
def derive_replace_ports (c : Collaborators) : List (Str × Module) → Module →
    Except Failure Module
  | [], changed => .ok changed
  | intf :: rest, changed =>
    if map_count changed.wires_ intf.1 then
      let changed := c.fixup_ports { changed with wires_ := map_erase changed.wires_ intf.1 }
      let new_subcell : Cell :=
        { name := intf.1, type := intf.2.name
          attributes := c.set_bool_attribute ([] : List (Str × Const)) (lit "\\is_interface") }
      derive_replace_ports c rest { changed with cells_ := changed.cells_ ++ [new_subcell] }
    else .error .fatal

/-- The branch of the interface-aware `derive` taken when the design has no
module called `modname`. -/
def AstModule.derive_elaborate (g : Given) (c : Collaborators) (fuel : Nat) (design : Design)
    (r : Derived) (interfaces : List (Str × Module)) (modports : List (Str × Str)) :
    Except Failure DeriveResult := do
  let exploded ← derive_explode g modports interfaces (r.new_ast.set_str r.modname) r.env
  let p ← AstModule.derive_process g c fuel design { r with env := exploded.2 } exploded.1
  match p.2.module r.modname with
  | none => .error .outOfRange
  | some added => do
    let changed ← derive_replace_ports c interfaces added
    let changed : Module :=
      if interfaces.length > 0 then
        { changed with
          attributes :=
            c.set_bool_attribute changed.attributes (lit "\\interfaces_replaced_in_module") }
      else changed
    pure { modname := r.modname, design := p.2.update r.modname changed, env := p.1.env,
           globals := p.1.globals }

/-- The method `AstModule::derive(design, parameters, interfaces, modports,
mayfail)`, with interfaces: the two dictionaries are given as the lists of
their entries in iteration order. -/
def AstModule.derive_with_interfaces (g : Given) (c : Collaborators) (fuel : Nat)
    (m : AstModule) (env : Env) (globals : Globals) (internal_line_num : Int) (design : Design)
    (parameters : ParamDict) (interfaces : List (Str × Module)) (modports : List (Str × Str)) :
    Except Failure DeriveResult := do
  let r ← m.derive_common g env globals internal_line_num parameters
  let interf_info := derive_interf_info g interfaces
  let has_interfaces := !interfaces.isEmpty
  let modname :=
    if has_interfaces then r.modname ++ (lit "$interfaces$" ++ interf_info) else r.modname
  if !design.has modname then
    AstModule.derive_elaborate g c fuel design { r with modname := modname } interfaces modports
  else
    pure { modname := modname, design := design, env := r.env, globals := r.globals }

/-- The arguments of `AST::process` after the design and the tree. -/
structure ProcessArguments where
  dump_ast1 : Bool
  dump_ast2 : Bool
  no_dump_ptr : Bool
  dump_vlog1 : Bool
  dump_vlog2 : Bool
  dump_rtlil : Bool
  nolatches : Bool
  nomeminit : Bool
  nomem2reg : Bool
  mem2reg : Bool
  noblackbox : Bool
  lib : Bool
  nowb : Bool
  noopt : Bool
  icells : Bool
  pwires : Bool
  nooverwrite : Bool
  overwrite : Bool
  defer : Bool
  autowire : Bool

/-- The state that the loop of `AST::process` carries: the design, the
allocator and the global flags. -/
structure ProcessState where
  design : Design
  env : Env
  globals : Globals

/-- The inner loop over the members of one package: each is cloned, renamed to
`<package>::<member without its first character>` and appended; `substr(1)`
throws for an empty name. -/
def process_package_members (package_name : Str) :
    List AstNode → List AstNode → Env → Except Failure (List AstNode × Env)
  | [], children, env => .ok (children, env)
  | o :: rest, children, env =>
    let cloned_node := o.clone env
    if cloned_node.1.data.str.length < 1 then .error .outOfRange
    else
      process_package_members package_name rest
        (children ++
          [cloned_node.1.set_str (package_name ++ lit "::" ++ cloned_node.1.data.str.drop 1)])
        cloned_node.2

/-- The loop over `design->verilog_packages`. -/
def process_packages :
    List AstNode → List AstNode → Env → Except Failure (List AstNode × Env)
  | [], children, env => .ok (children, env)
  | n :: rest, children, env =>
    match process_package_members n.data.str n.children children env with
    | .error e => .error e
    | .ok r => process_packages rest r.1 r.2

/-- The renaming of a module in `AST::process`: under `flag_icells` a name that
starts with backslash and dollar loses the backslash, and a deferred module
gets `$abstract` in front. -/
def process_name (flag_icells defer : Bool) (str : Str) : Str :=
  let str := if flag_icells && str.take 2 == lit "\\$" then str.drop 1 else str
  if defer then lit "$abstract" ++ str else str

/-- The block `if (design->has((*it)->str)) { ... }` of `AST::process`: the
fatal error, `none` for `continue`, or the design to go on with. -/
def process_existing (c : Collaborators) (nooverwrite overwrite : Bool) (design : Design)
    (str : Str) : Except Failure (Option Design) :=
  if design.has str then
    match design.module str with
    | none => .error .outOfRange
    | some existing_mod =>
      if !nooverwrite && !overwrite && !c.get_blackbox_attribute existing_mod then
        .error .fatal
      else if nooverwrite then .ok none
      else .ok (some (design.remove existing_mod))
  else .ok (some design)

/-- The body of the loop of `AST::process` for a module or an interface. -/
def process_definition (g : Given) (c : Collaborators) (fuel : Nat)
    (args : ProcessArguments) (child : AstNode) (state : ProcessState) :
    Except Failure (AstNode × ProcessState) := do
  let globals_clones := cloneChildren state.design.verilog_globals state.env
  let with_packages ← process_packages state.design.verilog_packages
    (child.children ++ globals_clones.1) globals_clones.2
  let str := process_name state.globals.flag_icells args.defer child.data.str
  let child1 : AstNode := .mk { child.data with str := str } with_packages.1 child.attributes
  let existing ← process_existing c args.nooverwrite args.overwrite state.design str
  match existing with
  | none => pure (child1, { state with env := with_packages.2 })
  | some design => do
    let p ← process_module g c fuel state.globals with_packages.2 child1 args.defer none
    pure (p.ast, { design := design.add p.current_module, env := p.env, globals := p.globals })

/-- The loop of `AST::process` over the children of the design root. -/
def process_children (g : Given) (c : Collaborators) (fuel : Nat) (args : ProcessArguments) :
    List AstNode → ProcessState → Except Failure (List AstNode × ProcessState)
  | [], state => .ok ([], state)
  | child :: rest, state =>
    if child.type == AST_MODULE || child.type == AST_INTERFACE then
      match process_definition g c fuel args child state with
      | .error e => .error e
      | .ok r =>
        match process_children g c fuel args rest r.2 with
        | .error e => .error e
        | .ok rs => .ok (r.1 :: rs.1, rs.2)
    else
      let cloned := child.clone state.env
      let design : Design :=
        if child.type == AST_PACKAGE then
          { state.design with verilog_packages := state.design.verilog_packages ++ [cloned.1] }
        else
          { state.design with verilog_globals := state.design.verilog_globals ++ [cloned.1] }
      match process_children g c fuel args rest
          { state with design := design, env := cloned.2 } with
      | .error e => .error e
      | .ok rs => .ok (child :: rs.1, rs.2)

/-- The function `AST::process(design, ast, ...)`: the global flags are set
from the arguments, the root must be an `AST_DESIGN`, and the loop runs over
its children.  The result is the root as it is left and the state. -/
def process (g : Given) (c : Collaborators) (fuel : Nat) (design : Design) (env : Env)
    (globals : Globals) (ast : AstNode) (args : ProcessArguments) :
    Except Failure (AstNode × ProcessState) :=
  let globals : Globals :=
    { globals with
      current_ast := some ast.addr
      flag_dump_ast1 := args.dump_ast1
      flag_dump_ast2 := args.dump_ast2
      flag_no_dump_ptr := args.no_dump_ptr
      flag_dump_vlog1 := args.dump_vlog1
      flag_dump_vlog2 := args.dump_vlog2
      flag_dump_rtlil := args.dump_rtlil
      flag_nolatches := args.nolatches
      flag_nomeminit := args.nomeminit
      flag_nomem2reg := args.nomem2reg
      flag_mem2reg := args.mem2reg
      flag_noblackbox := args.noblackbox
      flag_lib := args.lib
      flag_nowb := args.nowb
      flag_noopt := args.noopt
      flag_icells := args.icells
      flag_pwires := args.pwires
      flag_autowire := args.autowire }
  if ast.type != AST_DESIGN then .error .fatal
  else
    match process_children g c fuel args ast.children
        { design := design, env := env, globals := globals } with
    | .error e => .error e
    | .ok r => .ok (.mk ast.data r.1 ast.attributes, r.2)

/-! ## Definitions used to state the properties -/

/-- The state pushed for bit `j` of the value `v`: `S1` when the bit is set,
`S0` when it is clear. -/
def bitState (v j : Nat) : State := if v.testBit j then S1 else S0

/-- The eight states of one character, least significant bit first. -/
def byteBits (c : Byte) : List State := (List.range 8).map (bitState c.val)

/-- The groups of eight bits of a list of characters, one group after the
other in the order of the list. -/
def packedBits : List Byte → List State
  | [] => []
  | c :: rest => byteBits c ++ packedBits rest

/-- The 64-bit result of reading the `w`-bit pattern `v` as a two-complement
number: the value itself when bit `w - 1` is clear, and `v - 2 ^ w` reduced
modulo `2 ^ 64` when it is set. -/
def signExtend64 (w v : Nat) : Nat :=
  ((if v.testBit (w - 1) then (v : Int) - 2 ^ w else (v : Int)) % 2 ^ 64).toNat

/-- The characters that may stand in a plain identifier: an ASCII letter, `_`,
`$`, a digit that is not the first character, and `.` in a hierarchical name;
`i` is the position of the character. -/
def plainChar (is_hierarchical_name : Bool) (i : Nat) (c : Byte) : Bool :=
  (decide (65 ≤ c.val) && decide (c.val ≤ 90))
    || (decide (97 ≤ c.val) && decide (c.val ≤ 122))
    || decide (c.val = 95)
    || decide (c.val = 36)
    || (decide (48 ≤ c.val) && decide (c.val ≤ 57) && decide (i ≠ 0))
    || (is_hierarchical_name && decide (c.val = 46))

/-- Every character of a text is a plain character, the first one standing at
position `i`. -/
def allPlainFrom (is_hierarchical_name : Bool) : List Byte → Nat → Bool
  | [], _ => true
  | c :: rest, i =>
    plainChar is_hierarchical_name i c && allPlainFrom is_hierarchical_name rest (i + 1)

/-- The text `txt` with one leading backslash removed when `txt` has more than
one character. -/
def stripBackslash (txt : Str) : Str :=
  match txt with
  | c :: d :: rest => if c = 92 then d :: rest else txt
  | _ => txt

/-! ## Concrete values -/

/-- An environment: line 1 of an unnamed file, free addresses from 100 on. -/
def exampleEnv : Env :=
  { current_filename := [], line_num := 1, next_addr := 100,
    hashidx_count := hashidx_count_init, mkhash_xorshift := fun x => x }

/-- The environment `exampleEnv` after `k` allocations of addresses. -/
def exampleEnvAt (k : Nat) : Env := { exampleEnv with next_addr := 100 + k }

/-- A wire node with every flag clear, at address 100. -/
def exampleWire : AstNode := (AstNode.new exampleEnv AST_WIRE none none none).1

/-- A wire node at address 101 that differs from `exampleWire` in the flag
`is_wand` (and in nothing that `equals` reads). -/
def exampleWand : AstNode :=
  match (AstNode.new (exampleEnvAt 1) AST_WIRE none none none).1 with
  | .mk d cs attrs => .mk { d with is_wand := true } cs attrs

/-- A wire node at address 102 that differs from `exampleWire` in the flag
`is_wor` (and in nothing that `equals` reads). -/
def exampleWor : AstNode :=
  match (AstNode.new (exampleEnvAt 2) AST_WIRE none none none).1 with
  | .mk d cs attrs => .mk { d with is_wor := true } cs attrs

/-- The payload of a childless `AST_REDUCE_OR` node. -/
def exampleOrData : NodeData := (AstNode.new exampleEnv AST_REDUCE_OR none none none).1.data

/-- The payload of a childless `AST_REDUCE_BOOL` node. -/
def exampleBoolData : NodeData :=
  (AstNode.new (exampleEnvAt 1) AST_REDUCE_BOOL none none none).1.data

/-- An identifier leaf at address 100. -/
def exampleLeaf : AstNode := (AstNode.new exampleEnv AST_IDENTIFIER none none none).1

/-- A constant leaf at address 101, used as an attribute value. -/
def exampleAttrValue : AstNode := (AstNode.new (exampleEnvAt 1) AST_CONSTANT none none none).1

/-- A wire at address 102 whose only child is `exampleLeaf` and whose only
attribute value is `exampleAttrValue`. -/
def exampleTree : AstNode :=
  match (AstNode.new (exampleEnvAt 2) AST_WIRE (some exampleLeaf) none none).1 with
  | .mk d cs _ => .mk d cs [([1], exampleAttrValue)]

/-! ## Definitions used to state the properties of the re-emitter -/

/-- The attribute prefix that `dumpVlog` prints for a node before the text of
its kind; `dump` stands for the recursive calls. -/
def attribute_prefix (g : Given) (dump : Dumper) (node : AstNode) (indent : Str)
    (inGenerate : Bool) : Except Failure Str :=
  dumpVlog_attributes g dump (sorted_attributes node.attributes) indent inGenerate node.type

/-- Ascending order of the names of two attribute entries. -/
def attr_lt (a b : Str × AstNode) : Prop := str_lt a.1 b.1 = true

/-- The text of a resolved range as the spec gives it: `[r]` for a single bit
with one child, else the two bounds, swapped when the flag is set. -/
def range_text (d : NodeData) (nchildren : Nat) : Str :=
  if d.range_left = d.range_right ∧ nchildren = 1 then
    lit "[" ++ fmt_d d.range_right ++ lit "]"
  else if d.range_swapped then
    lit "[" ++ fmt_d d.range_right ++ lit ":" ++ fmt_d d.range_left ++ lit "]"
  else
    lit "[" ++ fmt_d d.range_left ++ lit ":" ++ fmt_d d.range_right ++ lit "]"

/-- The bounds `hi`, `lo` are the expansion of `[base +: width]`:
`hi = SUB(ADD(base, width), c1)` and `lo = ADD(base2, c0)` (first and second
children), with `base` equal to `base2` under `equals`, `c1` a constant read
as 1 and `c0` a constant read as 0. -/
def positive_indexed (g : Given) (hi lo base width : AstNode) : Prop :=
  ∃ sum c1 base2 c0,
    hi.type = AST_SUB ∧ hi.children.get? 0 = some sum ∧ hi.children.get? 1 = some c1
      ∧ sum.type = AST_ADD ∧ sum.children.get? 0 = some base ∧ sum.children.get? 1 = some width
      ∧ lo.type = AST_ADD ∧ lo.children.get? 0 = some base2 ∧ lo.children.get? 1 = some c0
      ∧ base.equals base2 g.equals_orAndBoolEqual g.equals_id2AstMustEqual = true
      ∧ c1.type = AST_CONSTANT ∧ c1.asInt false = some 1
      ∧ c0.type = AST_CONSTANT ∧ c0.asInt false = some 0

/-- The bounds `hi`, `lo` are the expansion of `[base -: width]`:
`hi = ADD(base, c0)` and `lo = SUB(ADD(base2, c1), width)`, with the same
side conditions. -/
def negative_indexed (g : Given) (hi lo base width : AstNode) : Prop :=
  ∃ c0 sum base2 c1,
    hi.type = AST_ADD ∧ hi.children.get? 0 = some base ∧ hi.children.get? 1 = some c0
      ∧ lo.type = AST_SUB ∧ lo.children.get? 0 = some sum ∧ lo.children.get? 1 = some width
      ∧ sum.type = AST_ADD ∧ sum.children.get? 0 = some base2 ∧ sum.children.get? 1 = some c1
      ∧ base.equals base2 g.equals_orAndBoolEqual g.equals_id2AstMustEqual = true
      ∧ c1.type = AST_CONSTANT ∧ c1.asInt false = some 1
      ∧ c0.type = AST_CONSTANT ∧ c0.asInt false = some 0

/-- The node has a first and a second child. -/
def has_two_children (n : AstNode) : Prop :=
  ∃ a b, n.children.get? 0 = some a ∧ n.children.get? 1 = some b

/-- The operands that `is_expanded_indexed_part_select` may read are there: if
the node is an `AST_ADD` or `AST_SUB` it has two children, and so has its first
child if that is an `AST_ADD`. -/
def operands_present (n : AstNode) : Prop :=
  (n.type = AST_ADD ∨ n.type = AST_SUB) →
    has_two_children n ∧
      ∀ s, n.children.get? 0 = some s → s.type = AST_ADD → has_two_children s

/-- The unary operator kinds. -/
def isUnaryOperator (type : AstNodeType) : Bool :=
  type == AST_BIT_NOT || type == AST_REDUCE_AND || type == AST_REDUCE_OR
    || type == AST_REDUCE_XOR || type == AST_REDUCE_XNOR || type == AST_REDUCE_BOOL
    || type == AST_POS || type == AST_NEG || type == AST_LOGIC_NOT

/-- The binary operator kinds. -/
def isBinaryOperator (type : AstNodeType) : Bool :=
  type == AST_BIT_AND || type == AST_BIT_OR || type == AST_BIT_XOR || type == AST_BIT_XNOR
    || type == AST_SHIFT_LEFT || type == AST_SHIFT_RIGHT || type == AST_SHIFT_SLEFT
    || type == AST_SHIFT_SRIGHT || type == AST_LT || type == AST_LE || type == AST_EQ
    || type == AST_NE || type == AST_EQX || type == AST_NEX || type == AST_GE || type == AST_GT
    || type == AST_ADD || type == AST_SUB || type == AST_MUL || type == AST_DIV
    || type == AST_MOD || type == AST_POW || type == AST_LOGIC_AND || type == AST_LOGIC_OR

/-! ## Definitions used to state the properties of interfaces and derivation -/

/-- The name of the wire made for the interface wire called `name`. -/
def interface_wire_name (g : Given) (intfname name : Str) : Str :=
  intfname ++ lit "." ++ c_str (g.log_id name)

/-- The node `n` is the wire made for the interface wire `w` (name and width)
under the instance name `intfname`, with the given directions: an `AST_WIRE`
of that name whose single child is an `AST_RANGE` over the two constants
`width - 1` and `0` built by `mkconst_int` as signed constants of the default
width. -/
def is_interface_wire (g : Given) (intfname : Str) (w : Str × Int) (n : AstNode)
    (is_input is_output : Bool) : Prop :=
  n.type = AST_WIRE ∧ n.data.str = interface_wire_name g intfname w.1
    ∧ n.data.is_input = is_input ∧ n.data.is_output = is_output
    ∧ ∃ range hi lo e1 e2, n.children = [range] ∧ range.type = AST_RANGE
        ∧ range.children = [hi, lo]
        ∧ hi = (AstNode.mkconst_int e1 (to_uint32 (w.2 - 1)) true g.mkconst_int_width).1
        ∧ lo = (AstNode.mkconst_int e2 0 true g.mkconst_int_width).1

/-- The test of the search in a modport: an `AST_MODPORTMEMBER` called `name`. -/
def is_member_named (name : Str) (ch : AstNode) : Bool :=
  ch.type == AST_MODPORTMEMBER && ch.data.str == name

/-- The base name of a module: its name with a leading `$abstract` removed. -/
def base_name (name : Str) : Str :=
  if (lit "$abstract").isPrefixOf name then name.drop 9 else name

/-- Two lists of nodes agree position by position on the kind, on the name and
on whether there is a child. -/
def same_heads : List AstNode → List AstNode → Prop
  | [], [] => True
  | a :: l, b :: m =>
    a.type = b.type ∧ a.data.str = b.data.str ∧ (a.children = [] ↔ b.children = [])
      ∧ same_heads l m
  | _, _ => False

/-- The mangled name that the spec gives for the base name `b`, the info string
`p` and the number of supplied parameters. -/
def mangled_name (g : Given) (b p : Str) (supplied : Nat) : Str :=
  if supplied = 0 then b
  else if p.length ≤ 60 then lit "$paramod" ++ b ++ p
  else lit "$paramod$" ++ g.sha1 p ++ b

/-! ## Concrete values for the re-emitter, interfaces and derivation -/

/-- Stand-ins for the given parts: the default arguments `false`, `AST_NONE`,
`true` (for `dumpFileLine`) and 32 (for `width`), no addresses in dumps, a
constant read as the unsigned number of its lowest 32 bits and printed as its
bits (most significant first), and simple texts for the other library
functions. -/
def exampleGiven : Given :=
  { flag_no_dump_ptr := true
    dumpVlog_inGenerate := false
    dumpVlog_parentType := AST_NONE
    dumpAst_dumpFileLine := true
    id2vl_is_hierarchical_name := false
    equals_orAndBoolEqual := false
    equals_id2AstMustEqual := false
    mkconst_int_width := 32
    as_int := fun bits =>
      Int.ofNat ((bits.take 32).foldr (fun b acc => 2 * acc + (if b == S1 then 1 else 0)) 0)
    as_verilog_string := fun bits => (bits.reverse.map dumpAst_bit).flatten
    hash := fun d => d.hashidx_
    fmt_e := fun _ => lit "0.000000e+00"
    fmt_p := fun _ => lit "0x0"
    log_id := fun s => if s.head? == some 92 then s.drop 1 else s
    log_signal := fun c => (c.bits.reverse.map dumpAst_bit).flatten
    sha1 := fun s => fmt_d s.length
    stod := fun _ => 0 }

/-- The stand-ins of `exampleGiven` with the default `inGenerate` of `dumpVlog`
set to `true`. -/
def exampleGivenInGenerate : Given := { exampleGiven with dumpVlog_inGenerate := true }

/-- A node of the given kind, name and children at address `100 + k`, every
other field as the constructor leaves it. -/
def exampleNode (k : Nat) (type : AstNodeType) (str : Str) (children : List AstNode) :
    AstNode :=
  match (AstNode.new (exampleEnvAt k) type none none none).1 with
  | .mk d _ attrs => .mk { d with str := str } children attrs

/-- The identifier `x`. -/
def exampleX : AstNode := exampleNode 0 AST_IDENTIFIER (lit "\\x") []

/-- The identifier `w`. -/
def exampleW : AstNode := exampleNode 1 AST_IDENTIFIER (lit "\\w") []

/-- The 32-bit constant 1. -/
def exampleOne : AstNode := (AstNode.mkconst_int (exampleEnvAt 2) 1 false 32).1

/-- The 32-bit constant 0. -/
def exampleZero : AstNode := (AstNode.mkconst_int (exampleEnvAt 3) 0 false 32).1

/-- An empty generate block. -/
def exampleInnerGenblock : AstNode := exampleNode 4 AST_GENBLOCK [] []

/-- A case node of the shape that `dumpTransformedIf` prints as `if (x)`, whose
taken branch is the empty generate block. -/
def exampleIf : AstNode :=
  exampleNode 5 AST_CASE []
    [exampleNode 6 AST_REDUCE_BOOL [] [exampleX],
     exampleNode 7 AST_COND [] [exampleOne, exampleInnerGenblock]]

/-- A generate block around `exampleIf`. -/
def exampleOuterGenblock : AstNode := exampleNode 8 AST_GENBLOCK [] [exampleIf]

/-- The sum `x + w`. -/
def exampleSum : AstNode := exampleNode 9 AST_ADD [] [exampleX, exampleW]

/-- The upper bound `(x + w) - 1` of an expanded `[x +: w]`. -/
def exampleHi : AstNode := exampleNode 10 AST_SUB [] [exampleSum, exampleOne]

/-- The lower bound `x + 0` of an expanded `[x +: w]`. -/
def exampleLo : AstNode := exampleNode 11 AST_ADD [] [exampleX, exampleZero]

/-- The range with the bounds `exampleHi` and `exampleLo`, not resolved. -/
def exampleIndexedRange : AstNode := exampleNode 12 AST_RANGE [] [exampleHi, exampleLo]

/-- The resolved range `[7:0]`, without children. -/
def exampleResolvedRange : AstNode :=
  match exampleNode 13 AST_RANGE [] [] with
  | .mk d cs attrs => .mk { d with range_valid := true, range_left := 7, range_right := 0 } cs attrs

/-- A wire with the attributes `b` and `a`, in this order. -/
def exampleWireBA : AstNode :=
  match exampleNode 14 AST_WIRE (lit "\\v") [] with
  | .mk d cs _ => .mk d cs [(lit "\\b", exampleOne), (lit "\\a", exampleZero)]

/-- The same wire with the attributes in the order `a`, `b`. -/
def exampleWireAB : AstNode :=
  match exampleNode 14 AST_WIRE (lit "\\v") [] with
  | .mk d cs _ => .mk d cs [(lit "\\a", exampleZero), (lit "\\b", exampleOne)]

/-- The modport `mp` that lists the member `x` as an output. -/
def exampleModport : AstNode :=
  exampleNode 15 AST_MODPORT (lit "\\mp")
    [match exampleNode 16 AST_MODPORTMEMBER (lit "\\x") [] with
     | .mk d cs attrs => .mk { d with is_output := true } cs attrs]

/-- The wires of an interface: `x` of width 8 and `y` of width 1. -/
def exampleInterfaceWires : List (Str × Int) := [(lit "\\x", 8), (lit "\\y", 1)]

/-- An empty module `m`. -/
def exampleModuleTree : AstNode := exampleNode 17 AST_MODULE (lit "\\m") []

/-- The module template `M` with the parameter `W` whose default is 1. -/
def exampleTemplate : AstModule :=
  { name := lit "\\M"
    ast := exampleNode 18 AST_MODULE (lit "\\M")
      [exampleNode 19 AST_PARAMETER (lit "\\W") [exampleOne]]
    nolatches := false, nomeminit := false, nomem2reg := false, mem2reg := false,
    noblackbox := false, lib := false, nowb := false, noopt := false, icells := false,
    pwires := false, autowire := false }

/-- Global flags, all clear. -/
def exampleGlobals : Globals :=
  { flag_dump_ast1 := false, flag_dump_ast2 := false, flag_no_dump_ptr := false,
    flag_dump_vlog1 := false, flag_dump_vlog2 := false, flag_dump_rtlil := false,
    flag_nolatches := false, flag_nomeminit := false, flag_nomem2reg := false,
    flag_mem2reg := false, flag_noblackbox := false, flag_lib := false, flag_nowb := false,
    flag_noopt := false, flag_icells := false, flag_pwires := false, flag_autowire := false,
    flag_verify_dump_vlog := false, current_ast := none }

/-- The binding `W = 2` as a two-bit constant. -/
def exampleBinding : ParamDict := [(lit "\\W", Const.ofBits [S0, S1])]

/-! ## Concrete values for the elaboration pipeline -/

/-- Stand-ins for the collaborators: a simplifier that changes nothing, a
lowering that records a wire as a wire of width 1 and every other child as a
cell named after it with its kind as the type, no log file, and simple
conversions of attributes. -/
def exampleCollaborators : Collaborators :=
  { simplify := fun _ _ ast env => .ok (false, ast, env)
    genRTLIL := fun _ node state =>
      .ok { state with
        current_module :=
          if node.type == AST_WIRE then
            { state.current_module with
              wires_ := state.current_module.wires_ ++ [(node.data.str, 1)] }
          else
            { state.current_module with
              cells_ := state.current_module.cells_ ++
                [{ name := node.data.str, type := type2str node.type, attributes := [] }] } }
    sort_and_unify := fun sig => sig
    fixup_ports := fun m => m
    check := fun _ => .ok ()
    const_of_string := fun s =>
      { flags := CONST_FLAG_STRING, bits := (AstNode.mkconst_str exampleEnv s).1.bits }
    set_bool_attribute := fun attributes name => map_assign attributes name (Const.ofBits [S1])
    get_bool_attribute := fun attributes name =>
      match attributes.lookup name with
      | some value => value.bits.any (fun bit => bit == S1)
      | none => false
    get_blackbox_attribute := fun m =>
      match m.attributes.lookup (lit "\\blackbox") with
      | some value => value.bits.any (fun bit => bit == S1)
      | none => false
    frontend_verilog_yyparse := fun _ env => ([], env)
    frontend_verilog_yyget_lineno := 1
    log_files := 0
    design_hash := 0
    getpid := 0 }

/-- The global flags of `exampleGlobals` in library mode. -/
def exampleGlobalsLib : Globals := { exampleGlobals with flag_lib := true }

/-- A node like `exampleNode` with the two direction flags given. -/
def examplePort (k : Nat) (type : AstNodeType) (str : Str) (is_input is_output : Bool) :
    AstNode :=
  match exampleNode k type str [] with
  | .mk d cs attrs => .mk { d with is_input := is_input, is_output := is_output } cs attrs

/-- A module with an input wire `a`, an output wire `b` and a parameter `W`
whose default is 1. -/
def exampleBlackbox : AstNode :=
  exampleNode 20 AST_MODULE (lit "\\bb")
    [examplePort 21 AST_WIRE (lit "\\a") true false,
     examplePort 22 AST_WIRE (lit "\\b") false true,
     exampleNode 23 AST_PARAMETER (lit "\\W") [exampleOne]]

/-- A module with an initial block `i`, an assignment `s` and a wire `w`
that is not a port, in this order. -/
def exampleOrdered : AstNode :=
  exampleNode 24 AST_MODULE (lit "\\ord")
    [exampleNode 25 AST_INITIAL (lit "i") [],
     exampleNode 26 AST_ASSIGN (lit "s") [],
     exampleNode 27 AST_WIRE (lit "\\w") []]

/-- A child that a blackbox module keeps: a port wire, a parameter, or a cell
of type `$specify2`, `$specify3` or `$specrule`. -/
def blackbox_keeps (child : AstNode) : Bool :=
  (child.type == AST_WIRE && (child.data.is_input || child.data.is_output))
    || child.type == AST_PARAMETER || process_module_is_specify child

/-- How a kept child `old` shows among the children of the reduced module: a
parameter keeps its own fields (the name among them) and has a constant of
value 0 as its only child; every other kept child is unchanged. -/
def blackbox_kept (old new : AstNode) : Prop :=
  if old.type = AST_PARAMETER then
    new.data = old.data
      ∧ ∃ zero, new.children = [zero] ∧ zero.type = AST_CONSTANT
          ∧ zero.asInt false = some 0 ∧ zero.data.integer = 0
  else new = old

/-- The lowering of the nodes of a list, each once, from the first to the
last. -/
def lower_each (c : Collaborators) (globals : Globals) :
    List AstNode → Lowering → Except Failure Lowering
  | [], state => .ok state
  | node :: rest, state =>
    match c.genRTLIL globals node state with
    | .error e => .error e
    | .ok state1 => lower_each c globals rest state1

/-- The order in which the spec lowers the children: the wires and memories,
then the children that are neither wire, memory nor initial block, then the
initial blocks, each group in declaration order. -/
def lowering_order (children : List AstNode) : List AstNode :=
  children.filter (fun n => n.type == AST_WIRE || n.type == AST_MEMORY)
    ++ children.filter
        (fun n => !(n.type == AST_WIRE || n.type == AST_MEMORY) && !(n.type == AST_INITIAL))
    ++ children.filter (fun n => n.type == AST_INITIAL)

/-- The collaborators leave the attributes of the module alone: lowering and
`fixup_ports` do not change them, and `set_bool_attribute` changes the named
attribute only. -/
def keeps_attributes (c : Collaborators) : Prop :=
  (∀ globals node state state1, c.genRTLIL globals node state = .ok state1 →
      state1.current_module.attributes = state.current_module.attributes)
    ∧ (∀ m, (c.fixup_ports m).attributes = m.attributes)
    ∧ (∀ attributes name other, other ≠ name →
        (c.set_bool_attribute attributes name).lookup other = attributes.lookup other)

/-- The arguments of `AST::process` all `false`. -/
def exampleArguments : ProcessArguments :=
  { dump_ast1 := false, dump_ast2 := false, no_dump_ptr := false, dump_vlog1 := false,
    dump_vlog2 := false, dump_rtlil := false, nolatches := false, nomeminit := false,
    nomem2reg := false, mem2reg := false, noblackbox := false, lib := false, nowb := false,
    noopt := false, icells := false, pwires := false, nooverwrite := false,
    overwrite := false, defer := false, autowire := false }

/-- A module of the design called `name` with the given attributes, without
wires, cells and stored tree. -/
def exampleStored (name : Str) (attributes : List (Str × Const)) : Module :=
  { name := name, attributes := attributes, wires_ := [], cells_ := [], ast := none,
    nolatches := false, nomeminit := false, nomem2reg := false, mem2reg := false,
    noblackbox := false, lib := false, nowb := false, noopt := false, icells := false,
    pwires := false, autowire := false }

/-- A design whose only module is called `m` and has no attribute. -/
def exampleDesign : Design :=
  { modules_ := [exampleStored (lit "\\m") []], verilog_packages := [], verilog_globals := [] }

/-- A design whose only module is called `m` and has the attribute `blackbox`
set. -/
def exampleDesignBlackbox : Design :=
  { modules_ := [exampleStored (lit "\\m") [(lit "\\blackbox", Const.ofBits [S1])]]
    verilog_packages := [], verilog_globals := [] }

/-- A design without modules. -/
def exampleDesignEmpty : Design :=
  { modules_ := [], verilog_packages := [], verilog_globals := [] }

/-- A design root whose only child is the module `m` of `exampleModuleTree`. -/
def exampleRoot : AstNode := exampleNode 30 AST_DESIGN [] [exampleModuleTree]

/-! ## Definitions used to state the properties of the specializer -/

/-- A module template `top` with the two wires `a` and `b`, which stand for
two interface ports. -/
def exampleTemplateTop : AstModule :=
  { exampleTemplate with
    name := lit "\\top"
    ast := exampleNode 31 AST_MODULE (lit "\\top")
      [exampleNode 32 AST_WIRE (lit "\\a") [], exampleNode 33 AST_WIRE (lit "\\b") []] }

/-- The interface binding of port `a` to the module `ab` and of port `b` to the
module `c`. -/
def exampleInterfacesAbC : List (Str × Module) :=
  [(lit "\\a", exampleStored (lit "\\ab") []), (lit "\\b", exampleStored (lit "\\c") [])]

/-- The interface binding of port `a` to the module `a` and of port `b` to the
module `bc`. -/
def exampleInterfacesABc : List (Str × Module) :=
  [(lit "\\a", exampleStored (lit "\\a") []), (lit "\\b", exampleStored (lit "\\bc") [])]

/-- A design whose only module is called `\top$interfaces$abc`. -/
def exampleDesignTop : Design :=
  { modules_ := [exampleStored (lit "\\top$interfaces$abc") []]
    verilog_packages := [], verilog_globals := [] }

/-! ## Definitions used to state the properties of the comparison -/

mutual
/-- A tree without the parts that the comparison is said not to read: every
node reached through `children` with no attributes, an empty file name, the
line 0 and the real value 0; every other field is kept. -/
def AstNode.without_unread : AstNode → AstNode
  | .mk d cs _ =>
    .mk { d with filename := [], linenum := 0, realvalue := 0 } (without_unreadList cs) []
/-- The trees of a list without the parts that the comparison is said not to
read. -/
def without_unreadList : List AstNode → List AstNode
  | [] => []
  | c :: cs => AstNode.without_unread c :: without_unreadList cs
end

/-- A childless `AST_REALVALUE` node as the constructor makes it in the
environment `env`, with the real value `r`. -/
def real_node (env : Env) (r : Rat) : AstNode :=
  match (AstNode.new env AST_REALVALUE none none none).1 with
  | .mk d cs attrs => .mk { d with realvalue := r } cs attrs

mutual
/-- The pairs of corresponding nodes of two trees: the two roots, then
position by position the nodes of their children and of their attribute
values, in the order of `AstNode.allNodes`. -/
def AstNode.correspondingNodes : AstNode → AstNode → List (AstNode × AstNode)
  | .mk a cs attrs, b =>
    (.mk a cs attrs, b)
      :: (correspondingList cs b.children ++ correspondingAttrs attrs b.attributes)
/-- The pairs of corresponding nodes of two lists of trees. -/
def correspondingList : List AstNode → List AstNode → List (AstNode × AstNode)
  | [], _ => []
  | _ :: _, [] => []
  | c :: cs, c2 :: cs2 => AstNode.correspondingNodes c c2 ++ correspondingList cs cs2
/-- The pairs of corresponding nodes of two attribute lists. -/
def correspondingAttrs :
    List (Str × AstNode) → List (Str × AstNode) → List (AstNode × AstNode)
  | [], _ => []
  | _ :: _, [] => []
  | (_, v) :: attrs, (_, v2) :: attrs2 =>
    AstNode.correspondingNodes v v2 ++ correspondingAttrs attrs attrs2
end

/-- A tree with a cross-reference: the module `r` at address 140 with the wire
`exampleWire` (address 100) and an identifier at address 141 whose `id2ast`
is the address of that wire. -/
def exampleResolved : AstNode :=
  exampleNode 40 AST_MODULE (lit "\\r")
    [exampleWire,
     match exampleNode 41 AST_IDENTIFIER (lit "\\w") [] with
     | .mk d cs attrs => .mk { d with id2ast := some 100 } cs attrs]

/-! ## Definitions used to state the properties of the oracle and of the entry points -/

/-- The name of the file that `verify_dump_vlog` writes the Verilog text to
and reads it back from. -/
def dump_file_name (g : Given) (c : Collaborators) (ast : AstNode) : Str :=
  lit "/tmp/yosysVerifyDump" ++ lit "/"
    ++ id2vl ast.data.str g.id2vl_is_hierarchical_name ++ lit "_"
    ++ (fmt_u c.design_hash ++ lit "_" ++ fmt_u c.getpid) ++ lit ".v"

/-- The attributes of the module under construction right after the
assignment of `src`: the one entry `src` with the text `<file>:<line>` of the
tree. -/
def src_entry (c : Collaborators) (ast : AstNode) : List (Str × Const) :=
  [(lit "\\src", c.const_of_string (c_str ast.data.filename ++ lit ":" ++ fmt_d ast.data.linenum))]

/-- The stand-ins of `exampleCollaborators` with a parser that reads every
text as the one tree `reread`. -/
def exampleParser (reread : AstNode) : Collaborators :=
  { exampleCollaborators with frontend_verilog_yyparse := fun _ env => ([reread], env) }

/-- The attribute steps of `process_module_prepare` taken together: the value
of `blackbox_module` and the attributes of the tree after the steps on
`whitebox`, `lib_whitebox`, `blackbox`, `whitebox` again and `noblackbox`,
started with the value `blackbox_module` of the scan of the children. -/
def process_module_classified (globals : Globals) (blackbox_module : Bool)
    (attributes : List (Str × AstNode)) : Except Failure (Bool × List (Str × AstNode)) := do
  let attributes ← process_module_whitebox globals attributes
  let blackbox1 ← process_module_blackbox blackbox_module attributes
  let blackbox2 ← process_module_not_whitebox blackbox1 attributes
  process_module_noblackbox blackbox2 attributes

/-- A child that does not stand in the way of a blackbox: a port wire, an
`AST_PARAMETER`, an `AST_LOCALPARAM`, or an `AST_CELL` whose first child is an
`AST_CELLTYPE` named `$specify2`, `$specify3` or `$specrule`. -/
def declaration_child (child : AstNode) : Prop :=
  (child.type = AST_WIRE ∧ (child.data.is_input = true ∨ child.data.is_output = true))
    ∨ child.type = AST_PARAMETER
    ∨ child.type = AST_LOCALPARAM
    ∨ (child.type = AST_CELL ∧ ∃ first rest, child.children = first :: rest
        ∧ first.type = AST_CELLTYPE
        ∧ (first.data.str = lit "$specify2" ∨ first.data.str = lit "$specify3"
            ∨ first.data.str = lit "$specrule"))

/-- A module or an interface. -/
def is_definition (n : AstNode) : Bool :=
  n.type == AST_MODULE || n.type == AST_INTERFACE

/-- A package. -/
def is_package (n : AstNode) : Bool :=
  n.type == AST_PACKAGE

/-- A global: a child of the design root that is neither a module, an
interface nor a package. -/
def is_global (n : AstNode) : Bool :=
  !is_definition n && !is_package n

/-- The node `n` is a clone of the tree `t`: what `t.clone()` returns in some
state of the allocator. -/
def is_clone (n t : AstNode) : Prop :=
  ∃ env, n = (t.clone env).1

/-- The members of the packages of a list, each with the name of its package,
in order. -/
def package_members : List AstNode → List (Str × AstNode)
  | [] => []
  | p :: rest => p.children.map (fun m => (p.data.str, m)) ++ package_members rest

/-- The node `n` is a clone of the member `pm.2` of the package called `pm.1`,
renamed to `<package name>::<member name without its first character>`. -/
def is_member_clone (n : AstNode) (pm : Str × AstNode) : Prop :=
  ∃ env, n = (pm.2.clone env).1.set_str (pm.1 ++ lit "::" ++ pm.2.data.str.drop 1)

/-- The arguments of `AST::process` all `false` but `defer`. -/
def exampleArgumentsDefer : ProcessArguments := { exampleArguments with defer := true }

/-- The package `P` with the member `k`, a local parameter of value 1. -/
def examplePackage : AstNode :=
  exampleNode 42 AST_PACKAGE (lit "\\P") [exampleNode 43 AST_LOCALPARAM (lit "\\k") [exampleOne]]

/-- The global local parameter `G` of value 0. -/
def exampleGlobal : AstNode := exampleNode 44 AST_LOCALPARAM (lit "\\G") [exampleZero]

/-- A design root with the module `m` first, then the package `P` and the
global `G`. -/
def exampleRootLate : AstNode :=
  exampleNode 45 AST_DESIGN [] [exampleModuleTree, examplePackage, exampleGlobal]

/-- A design root with the package `P` and the global `G` first, then the
module `m`. -/
def exampleRootEarly : AstNode :=
  exampleNode 45 AST_DESIGN [] [examplePackage, exampleGlobal, exampleModuleTree]

/-! ## Concrete values for the case statement and the memory -/

/-- A case node on `|x` whose first branch matches the constant 0 and holds an
empty block. -/
def exampleCaseZero : AstNode :=
  exampleNode 46 AST_CASE []
    [exampleNode 6 AST_REDUCE_BOOL [] [exampleX],
     exampleNode 47 AST_COND [] [exampleZero, exampleNode 48 AST_BLOCK [] []]]

/-- A memory `mem` with the range `[7:0]` and the flag `is_logic` set. -/
def exampleMemory : AstNode :=
  match exampleNode 49 AST_MEMORY (lit "\\mem") [exampleResolvedRange] with
  | .mk d cs attrs => .mk { d with is_logic := true } cs attrs

/-- The same memory with the flag `is_reg` set as well. -/
def exampleMemoryReg : AstNode :=
  match exampleNode 49 AST_MEMORY (lit "\\mem") [exampleResolvedRange] with
  | .mk d cs attrs => .mk { d with is_logic := true, is_reg := true } cs attrs

/-! ## Copying preserves equality -/

theorem cloneChildren_length : ∀ (cs : List AstNode) (env : Env),
    (cloneChildren cs env).1.length = cs.length
  | [], _ => by simp [cloneChildren]
  | c :: cs, env => by
    simp [cloneChildren, cloneChildren_length cs]

mutual
theorem equals_clone_left : ∀ (t : AstNode) (env : Env) (o i : Bool),
    AstNode.equals (t.clone env).1 t o i = true
  | .mk d cs attrs, env, o, i => by
    have h1 := equalsChildren_clone_left cs (AstNode.new env AST_NONE none none none).2 o i
    have h2 := cloneChildren_length cs (AstNode.new env AST_NONE none none none).2
    simp [AstNode.clone, AstNode.equals, h1, h2]
theorem equalsChildren_clone_left : ∀ (cs : List AstNode) (env : Env) (o i : Bool),
    equalsChildren (cloneChildren cs env).1 cs o i = true
  | [], env, o, i => by simp [cloneChildren, equalsChildren]
  | c :: cs, env, o, i => by
    have h1 := equals_clone_left c env o i
    have h2 := equalsChildren_clone_left cs (AstNode.clone c env).2 o i
    simp [cloneChildren, equalsChildren, h1, h2]
end

mutual
theorem equals_clone_right : ∀ (t : AstNode) (env : Env) (o i : Bool),
    AstNode.equals t (t.clone env).1 o i = true
  | .mk d cs attrs, env, o, i => by
    have h1 := equalsChildren_clone_right cs (AstNode.new env AST_NONE none none none).2 o i
    have h2 := cloneChildren_length cs (AstNode.new env AST_NONE none none none).2
    simp [AstNode.clone, AstNode.equals, h1, h2]
theorem equalsChildren_clone_right : ∀ (cs : List AstNode) (env : Env) (o i : Bool),
    equalsChildren cs (cloneChildren cs env).1 o i = true
  | [], env, o, i => by simp [cloneChildren, equalsChildren]
  | c :: cs, env, o, i => by
    have h1 := equals_clone_right c env o i
    have h2 := equalsChildren_clone_right cs (AstNode.clone c env).2 o i
    simp [cloneChildren, equalsChildren, h1, h2]
end

/-- Claim C1: for every tree `T` and every state of the allocator, the tree
returned by `T.clone()` compares equal to `T` under `equals` with
`orAndBoolEqual = false` and `id2AstMustEqual = false`, whichever of the two is
the receiver.  The method is `const`: `T` is a value here and the call returns
only the copy. -/
theorem C1_clone_equals (t : AstNode) (env : Env) :
    AstNode.equals (t.clone env).1 t false false = true
      ∧ AstNode.equals t (t.clone env).1 false false = true :=
  ⟨equals_clone_left t env false false, equals_clone_right t env false false⟩

/-! ## The integer builder -/

theorem shiftOutBits_eq : ∀ (n v : Nat) (acc : List State),
    shiftOutBits n v acc = acc ++ (List.range n).map (bitState v)
  | 0, v, acc => by simp [shiftOutBits]
  | n + 1, v, acc => by
    rw [shiftOutBits, shiftOutBits_eq n (v / 2), List.range_succ_eq_map, List.map_cons,
      List.map_map, List.append_assoc]
    congr 1
    simp only [List.singleton_append, List.cons.injEq]
    constructor
    · simp only [bitState, Nat.testBit_zero]
      rcases Nat.mod_two_eq_zero_or_one v with h | h <;> simp [h]
    · apply List.map_congr_left
      intro j _
      simp [bitState, Nat.testBit_succ]

theorem bitState_eq_S1 (v j : Nat) : (bitState v j == S1) = v.testBit j := by
  unfold bitState
  cases v.testBit j <;> simp

theorem mkconst_int_bits (env : Env) (v : Nat) (s : Bool) (w : Int) :
    (AstNode.mkconst_int env v s w).1.bits = (List.range w.toNat).map (bitState v) := by
  simp [AstNode.mkconst_int, AstNode.new, AstNode.bits, AstNode.data, shiftOutBits_eq]

theorem mkconst_int_type (env : Env) (v : Nat) (s : Bool) (w : Int) :
    (AstNode.mkconst_int env v s w).1.type = AST_CONSTANT := by
  simp [AstNode.mkconst_int, AstNode.new, AstNode.type, AstNode.data]

theorem mkconst_int_data (env : Env) (v : Nat) (s : Bool) (w : Int) :
    (AstNode.mkconst_int env v s w).1.data =
      { (AstNode.new env AST_CONSTANT none none none).1.data with
        integer := v, is_signed := s, bits := (List.range w.toNat).map (bitState v),
        range_valid := true, range_left := w - 1, range_right := 0 } := by
  simp [AstNode.mkconst_int, AstNode.new, AstNode.data, shiftOutBits_eq]

/-- Claim C4: for every 32-bit value `v`, flag `s` and width `w >= 0`,
`mkconst_int(v, s, w)` is an `AST_CONSTANT` node whose bit vector has exactly
`w` entries, entry `i` being bit `i` of `v` (least significant bit first) and
every entry being `0` or `1`, with `is_signed = s`, `range_valid = true`,
`range_left = w - 1`, `range_right = 0` and the cached `integer` equal to `v`. -/
theorem C4_mkconst_int_canonical (env : Env) (v : Nat) (s : Bool) (w : Int)
    (_hv : v < 2 ^ 32) (hw : 0 ≤ w) :
    let node := (AstNode.mkconst_int env v s w).1
    node.type = AST_CONSTANT
      ∧ (node.bits.length : Int) = w
      ∧ (∀ i : Nat, (i : Int) < w →
          node.bits.get? i = some (if v.testBit i then S1 else S0))
      ∧ (∀ b ∈ node.bits, b = S0 ∨ b = S1)
      ∧ node.data.is_signed = s
      ∧ node.data.range_valid = true
      ∧ node.data.range_left = w - 1
      ∧ node.data.range_right = 0
      ∧ node.data.integer = v := by
  intro node
  have hb : node.bits = (List.range w.toNat).map (bitState v) := mkconst_int_bits env v s w
  have hd := mkconst_int_data env v s w
  refine ⟨mkconst_int_type env v s w, ?_, ?_, ?_, ?_, ?_, ?_, ?_, ?_⟩
  · rw [hb]; simp; omega
  · intro i hi
    rw [hb]
    have : i < w.toNat := by omega
    simp [List.getElem?_map, List.getElem?_range this, bitState]
  · intro b hbm
    rw [hb] at hbm
    simp only [List.mem_map, List.mem_range] at hbm
    obtain ⟨j, _, rfl⟩ := hbm
    unfold bitState
    split <;> simp
  · rw [hd]
  · rw [hd]
  · rw [hd]
  · rw [hd]
  · rw [hd]

/-- Witness of C4: the 8-bit signed constant 5. -/
theorem C4_witness :
    (AstNode.mkconst_int exampleEnv 5 true 8).1.bits = [S1, S0, S1, S0, S0, S0, S0, S0]
      ∧ ((AstNode.mkconst_int exampleEnv 5 true 8).1.bits.length : Int) = 8
      ∧ (AstNode.mkconst_int exampleEnv 5 true 8).1.data.range_left = 8 - 1
      ∧ (AstNode.mkconst_int exampleEnv 5 true 8).1.data.integer = 5 :=
  have h := C4_mkconst_int_canonical exampleEnv 5 true 8 (by decide) (by decide)
  ⟨by decide, h.2.1, h.2.2.2.2.2.2.1, h.2.2.2.2.2.2.2.2⟩

/-- Counterexample to C5 as stated: for the signed constant built from
`v = 2 ^ 31` with width 33, bit 31 of `v` is set but bit 32 of the result is
`0`, not the sign bit. -/
theorem C5_counterexample :
    Nat.testBit (2 ^ 31) 31 = true
      ∧ (AstNode.mkconst_int exampleEnv (2 ^ 31) true 33).1.bits.get? 32 = some S0
      ∧ (AstNode.mkconst_int exampleEnv (2 ^ 31) true 33).1.bits.get? 32
          ≠ some (if Nat.testBit (2 ^ 31) 31 then S1 else S0) := by
  decide

/-- Claim C5, amended: for every requested width `w > 32` and every 32-bit
value `v`, the bits at positions `32 .. w - 1` of `mkconst_int(v, is_signed, w)`
are all `0`, whatever `is_signed` is: the value is zero-extended. -/
theorem C5_mkconst_int_high_bits_zero (env : Env) (v : Nat) (s : Bool) (w : Int)
    (hv : v < 2 ^ 32) (_hw : 32 < w) (i : Nat) (hlo : 32 ≤ i) (hhi : (i : Int) < w) :
    (AstNode.mkconst_int env v s w).1.bits.get? i = some S0 := by
  rw [mkconst_int_bits]
  have : i < w.toNat := by omega
  have h2 : v.testBit i = false := by
    apply Nat.testBit_eq_false_of_lt
    calc v < 2 ^ 32 := hv
      _ ≤ 2 ^ i := Nat.pow_le_pow_right (by decide) hlo
  simp [List.getElem?_map, List.getElem?_range this, bitState, h2]

/-- Witness of the amended C5: bit 40 of a signed 48-bit constant. -/
theorem C5_witness :
    (AstNode.mkconst_int exampleEnv (2 ^ 32 - 1) true 48).1.bits.get? 40 = some S0 :=
  C5_mkconst_int_high_bits_zero exampleEnv (2 ^ 32 - 1) true 48 (by decide) (by decide) 40
    (by decide) (by decide)

/-! ## Reading an integer constant back -/

/-- The loop of `asInt` succeeds when the bit vector is long enough, and sets
exactly the bits of the positions it visits that hold `S1`. -/
theorem asInt_loop_spec (bits : List State) : ∀ (k i ret : Nat), i + k ≤ bits.length →
    ∃ r, asInt_loop bits k i ret = some r ∧
      ∀ p, r.testBit p =
        (ret.testBit p || (decide (i ≤ p) && decide (p < i + k) && (bits.getD p S0 == S1)))
  | 0, i, ret, _ => by
    refine ⟨ret, rfl, fun p => ?_⟩
    by_cases h : i ≤ p <;> simp [h]
  | k + 1, i, ret, h => by
    have hi : i < bits.length := by omega
    obtain ⟨r, hr, hp⟩ := asInt_loop_spec bits k (i + 1)
      (if bits[i] == S1 then ret ||| (1 <<< i) else ret) (by omega)
    refine ⟨r, ?_, fun p => ?_⟩
    · simp only [asInt_loop, List.get?_eq_getElem?, List.getElem?_eq_getElem hi]
      exact hr
    · rw [hp p]
      by_cases hpi : p = i
      · subst hpi
        by_cases hb : bits[p] = S1
        · simp [hb, Nat.one_shiftLeft, Nat.testBit_two_pow_self, List.getD_eq_getElem?_getD,
            List.getElem?_eq_getElem hi]
        · simp [hb, List.getD_eq_getElem?_getD, List.getElem?_eq_getElem hi]
      · have e1 : (decide (i + 1 ≤ p) && decide (p < i + 1 + k)) =
            (decide (i ≤ p) && decide (p < i + (k + 1))) := by
          by_cases h1 : i ≤ p <;> by_cases h2 : p < i + (k+1) <;> simp [h1, h2] <;> omega
        rw [e1]
        by_cases hb : bits[i] = S1
        · have : (2 ^ i).testBit p = false := Nat.testBit_two_pow_of_ne (Ne.symm hpi)
          simp [hb, Nat.one_shiftLeft, this]
        · simp [hb]

theorem signExtend64_eq (w v : Nat) (hw : w ≤ 64) (hv : v < 2 ^ w) :
    signExtend64 w v = if v.testBit (w - 1) then 2 ^ 64 - 2 ^ w + v else v := by
  have hle : 2 ^ w ≤ 2 ^ 64 := Nat.pow_le_pow_right (by decide) hw
  have hX : ((2 : Int) ^ w) = ((2 ^ w : Nat) : Int) := by push_cast; rfl
  unfold signExtend64
  rw [hX]
  generalize (2 ^ w : Nat) = X at *
  norm_num at hle ⊢
  split <;> omega

theorem two_pow_split (w : Nat) (hw : w ≤ 64) :
    2 ^ 64 - 2 ^ w = 2 ^ w * (2 ^ (64 - w) - 1) := by
  have hpw : (2:Nat) ^ w * 2 ^ (64 - w) = 2 ^ 64 := by
    rw [← Nat.pow_add]; congr 1; omega
  rw [Nat.mul_sub, hpw, Nat.mul_one]

/-- The bit vector built by `bitsAsConst(64, s)` from the node of
`mkconst_int(v, s, w)`, for a width up to 64. -/
theorem bitsAsConst_mkconst_int (env : Env) (v : Nat) (s : Bool) (w : Nat)
    (hw1 : 1 ≤ w) (hw : w ≤ 64) :
    ((AstNode.mkconst_int env v s (w : Int)).1.bitsAsConst 64 s).bits =
      (List.range w).map (bitState v)
        ++ List.replicate (64 - w) (if s then bitState v (w - 1) else S0) := by
  have hlast : ((List.range w).map (bitState v)).getLastD S0 = bitState v (w - 1) := by
    obtain ⟨k, rfl⟩ : ∃ k, w = k + 1 := ⟨w - 1, by omega⟩
    rw [List.range_succ, List.map_append, List.map_singleton, List.getLastD_concat]
    simp
  have hne : ((List.range w).map (bitState v)).isEmpty = false := by
    cases w with
    | zero => omega
    | succ k => simp [List.range_succ]
  unfold AstNode.bitsAsConst
  simp only [mkconst_int_bits, Int.toNat_ofNat, List.length_map, List.length_range, Const.ofBits]
  have h1 : ¬ ((64 : Int) ≥ 0 ∧ (64 : Int) < (w : Int)) := by omega
  rw [if_neg h1]
  by_cases h64 : w = 64
  · subst h64
    simp
  · have h2 : (64 : Int) ≥ 0 ∧ (64 : Int) > (w : Int) := by omega
    simp only [List.length_map, List.length_range]
    rw [if_pos h2, hlast, hne]
    cases s <;> simp

theorem asInt_mkconst_int (env : Env) (v : Nat) (s : Bool) (w : Nat)
    (hw1 : 1 ≤ w) (hw : w ≤ 64) (hv : v < 2 ^ w) :
    (AstNode.mkconst_int env v s (w : Int)).1.asInt s =
      some (if s then signExtend64 w v else v) := by
  have hty := mkconst_int_type env v s (w : Int)
  have hbits := bitsAsConst_mkconst_int env v s w hw1 hw
  unfold AstNode.asInt
  simp only [hty, beq_self_eq_true, if_true]
  rw [hbits]
  generalize hB : (List.range w).map (bitState v)
        ++ List.replicate (64 - w) (if s then bitState v (w - 1) else S0) = B
  have hlen : B.length = 64 := by
    rw [← hB]; simp; omega
  obtain ⟨r, hr, hp⟩ := asInt_loop_spec B 64 0 0 (by omega)
  rw [hr]
  congr 1
  apply Nat.eq_of_testBit_eq
  intro p
  rw [hp p]
  simp only [Nat.zero_testBit, Bool.false_or, Nat.zero_le, decide_True, Bool.true_and,
    Nat.zero_add]
  have hget : B.getD p S0 =
      if p < w then bitState v p
      else if p < 64 then (if s then bitState v (w - 1) else S0) else S0 := by
    rw [← hB]
    by_cases h1 : p < w
    · rw [List.getD_append _ _ _ _ (by simpa using h1)]
      simp [h1, List.getD_eq_getElem?_getD, List.getElem?_range h1]
    · rw [List.getD_append_right _ _ _ _ (by simpa using h1)]
      simp only [h1, if_false, List.length_map, List.length_range]
      by_cases h2 : p < 64
      · have : p - w < 64 - w := by omega
        simp [h2, List.getD_eq_getElem?_getD, List.getElem?_replicate, this]
      · have : ¬ (p - w < 64 - w) := by omega
        simp [h2, List.getD_eq_getElem?_getD, List.getElem?_replicate, this]
  rw [hget]
  have hhigh : ∀ q, w ≤ q → v.testBit q = false := fun q hq =>
    Nat.testBit_lt_two_pow (Nat.lt_of_lt_of_le hv (Nat.pow_le_pow_right (by decide) hq))
  have hsx : s = true → v.testBit (w - 1) = true →
      (signExtend64 w v).testBit p =
        if p < w then v.testBit p else decide (p < 64) := by
    intro _ htop
    rw [signExtend64_eq w v hw hv, if_pos htop, two_pow_split w hw,
      Nat.testBit_mul_pow_two_add _ hv, Nat.testBit_two_pow_sub_one]
    by_cases h1 : p < w
    · simp [h1]
    · simp only [h1, if_false]
      congr 1
      apply propext
      omega
  cases s with
  | false =>
    simp only [Bool.false_eq_true, if_false]
    by_cases h1 : p < w
    · have h64 : p < 64 := by omega
      simp [h1, h64, bitState_eq_S1]
    · simp [h1, hhigh p (by omega)]
  | true =>
    simp only [if_true]
    by_cases htop : v.testBit (w - 1) = true
    · rw [hsx rfl htop]
      by_cases h1 : p < w
      · have h64 : p < 64 := by omega
        simp [h1, h64, bitState_eq_S1]
      · by_cases h2 : p < 64
        · simp [h1, h2, bitState, htop]
        · simp [h1, h2]
    · have hs : signExtend64 w v = v := by
        rw [signExtend64_eq w v hw hv, if_neg htop]
      rw [hs]
      by_cases h1 : p < w
      · have h64 : p < 64 := by omega
        simp [h1, h64, bitState_eq_S1]
      · by_cases h2 : p < 64
        · simp [h1, h2, bitState, htop, hhigh p (by omega)]
        · simp [h1, h2, hhigh p (by omega)]

/-- Claim C3: for every width `w` with `1 <= w <= 32`, every value `v < 2 ^ w`
and either flag `s`, `asInt(s)` applied to `mkconst_int(v, s, w)` returns `v`
when `s` is false and the 64-bit sign extension of the `w`-bit value `v` when
`s` is true. -/
theorem C3_asInt_mkconst_int (env : Env) (v : Nat) (s : Bool) (w : Nat)
    (hw1 : 1 ≤ w) (hw : w ≤ 32) (hv : v < 2 ^ w) :
    (AstNode.mkconst_int env v s (w : Int)).1.asInt s =
      some (if s then signExtend64 w v else v) :=
  asInt_mkconst_int env v s w hw1 (by omega) hv

/-- Witness of C3: the 8-bit pattern 200 reads back as 200 when unsigned and
as `2 ^ 64 - 56` when signed. -/
theorem C3_witness :
    (AstNode.mkconst_int exampleEnv 200 false (8 : Nat)).1.asInt false = some 200
      ∧ (AstNode.mkconst_int exampleEnv 200 true (8 : Nat)).1.asInt true
          = some 18446744073709551560 :=
  ⟨C3_asInt_mkconst_int exampleEnv 200 false 8 (by decide) (by decide) (by decide),
    (C3_asInt_mkconst_int exampleEnv 200 true 8 (by decide) (by decide) (by decide)).trans
      (by decide)⟩

/-! ## The string builder -/

theorem packedBits_append (l1 l2 : List Byte) :
    packedBits (l1 ++ l2) = packedBits l1 ++ packedBits l2 := by
  induction l1 with
  | nil => rfl
  | cons c l ih => simp [packedBits, ih]

theorem packedBits_length (l : List Byte) : (packedBits l).length = 8 * l.length := by
  induction l with
  | nil => rfl
  | cons c l ih => simp [packedBits, byteBits, ih]; omega

theorem packedBits_getD : ∀ (l : List Byte) (i j : Nat), i < l.length → j < 8 →
    (packedBits l).getD (8 * i + j) S0 = bitState (l.getD i 0).val j
  | [], i, j, hi, _ => by simp at hi
  | c :: l, 0, j, _, hj => by
    rw [packedBits, List.getD_append _ _ _ _ (by simpa [byteBits] using hj)]
    simp [byteBits, List.getD_eq_getElem?_getD, List.getElem?_range hj]
  | c :: l, i + 1, j, hi, hj => by
    have e : 8 * (i + 1) + j = 8 + (8 * i + j) := by omega
    rw [packedBits, e, List.getD_append_right _ _ _ _ (by simp [byteBits])]
    have e2 : 8 + (8 * i + j) - (byteBits c).length = 8 * i + j := by simp [byteBits]
    rw [e2, packedBits_getD l i j (by simpa using hi) hj]
    simp

theorem mkconst_str_loop_eq (str : Str) : ∀ (k i : Nat) (data : List State),
    i + k = str.length →
    mkconst_str_loop str k i data = data ++ packedBits (str.take k).reverse
  | 0, i, data, _ => by simp [mkconst_str_loop, packedBits]
  | k + 1, i, data, h => by
    have hk : k < str.length := by omega
    have e : str.length - i - 1 = k := by omega
    rw [mkconst_str_loop, e, mkconst_str_loop_eq str k (i + 1) _ (by omega), shiftOutBits_eq]
    have ht : str.take (k + 1) = str.take k ++ [str.getD k 0] := by
      rw [List.take_succ]
      simp [List.getD_eq_getElem?_getD, List.getElem?_eq_getElem hk]
    rw [ht, List.reverse_append, List.reverse_singleton, packedBits_append]
    simp [packedBits, byteBits]

theorem mkconst_str_bits (env : Env) (s : Str) :
    (AstNode.mkconst_str env s).1.bits = packedBits s.reverse := by
  have h := mkconst_str_loop_eq s s.length 0 [] (by simp)
  simp [AstNode.mkconst_str, AstNode.mkconst_bits, AstNode.new, AstNode.bits, AstNode.data, h]

/-- Claim C6: for every string `s` of length `n`, `mkconst_str(s)` packs the
bytes 8 bits per character with the first character in the most significant
byte: for `i < n` and `j < 8`, bit `8 * i + j` of the result is bit `j` of the
byte `s[n - 1 - i]`; the node has `is_string = true`, `is_signed = false` and
`str = s`. -/
theorem C6_mkconst_str_packing (env : Env) (s : Str) (i j : Nat)
    (hi : i < s.length) (hj : j < 8) :
    (AstNode.mkconst_str env s).1.bits.get? (8 * i + j) =
        some (if (s.getD (s.length - 1 - i) 0).val.testBit j then S1 else S0)
      ∧ (AstNode.mkconst_str env s).1.data.is_string = true
      ∧ (AstNode.mkconst_str env s).1.data.is_signed = false
      ∧ (AstNode.mkconst_str env s).1.data.str = s := by
  refine ⟨?_, ?_, ?_, ?_⟩
  · have hb := mkconst_str_bits env s
    have hlen : 8 * i + j < (packedBits s.reverse).length := by
      rw [packedBits_length, List.length_reverse]; omega
    have hg := packedBits_getD s.reverse i j (by simpa using hi) hj
    rw [hb, List.get?_eq_getElem?, List.getElem?_eq_getElem hlen]
    rw [List.getD_eq_getElem?_getD, List.getElem?_eq_getElem hlen] at hg
    simp only [Option.getD_some] at hg
    rw [hg]
    have hr : s.reverse.getD i 0 = s.getD (s.length - 1 - i) 0 := by
      have h1 : i < s.reverse.length := by simpa using hi
      have h2 : s.length - 1 - i < s.length := by omega
      simp [List.getD_eq_getElem?_getD, List.getElem?_eq_getElem h1,
        List.getElem?_eq_getElem h2, List.getElem_reverse]
    rw [hr]; rfl
  · simp [AstNode.mkconst_str, AstNode.mkconst_bits, AstNode.new, AstNode.data]
  · simp [AstNode.mkconst_str, AstNode.mkconst_bits, AstNode.new, AstNode.data]
  · simp [AstNode.mkconst_str, AstNode.mkconst_bits, AstNode.new, AstNode.data]

/-- Witness of C6: in the constant of the two-character string `ab`, bit 9 is
bit 1 of the first character `a` (code 97), which is clear. -/
theorem C6_witness :
    (AstNode.mkconst_str exampleEnv [97, 98]).1.bits.get? (8 * 1 + 1) = some S0
      ∧ (AstNode.mkconst_str exampleEnv [97, 98]).1.data.str = [97, 98] :=
  have h := C6_mkconst_str_packing exampleEnv [97, 98] 1 1 (by decide) (by decide)
  ⟨h.1.trans (by decide), h.2.2.2⟩

/-! ## What the comparison reads -/

/-- The comparison of two nodes spelled out: `equals` holds exactly when the
kinds agree (up to the relaxation), the cross-references agree when required,
every compared field agrees and the children compare equal. -/
theorem equals_mk_iff (a b : NodeData) (cs cs2 : List AstNode)
    (at1 at2 : List (Str × AstNode)) (o i : Bool) :
    AstNode.equals (.mk a cs at1) (.mk b cs2 at2) o i = true ↔
      ((a.type = b.type ∨ (o = true ∧ isOrOrBool a.type = true ∧ isOrOrBool b.type = true))
        ∧ (i = true → a.id2ast = b.id2ast)
        ∧ cs.length = cs2.length
        ∧ a.str = b.str ∧ a.bits = b.bits
        ∧ a.is_input = b.is_input ∧ a.is_output = b.is_output
        ∧ a.is_logic = b.is_logic ∧ a.is_reg = b.is_reg
        ∧ a.is_signed = b.is_signed ∧ a.is_string = b.is_string
        ∧ a.range_valid = b.range_valid ∧ a.range_swapped = b.range_swapped
        ∧ a.port_id = b.port_id ∧ a.range_left = b.range_left
        ∧ a.range_right = b.range_right ∧ a.integer = b.integer
        ∧ equalsChildren cs cs2 o i = true) := by
  unfold AstNode.equals
  by_cases h1 : a.type = b.type <;> cases i <;> cases o <;> simp [h1]

mutual
theorem equals_comparedPairs : ∀ (a b : AstNode) (o i : Bool),
    AstNode.equals a b o i = true →
    ∀ pr ∈ AstNode.comparedPairs a b, AstNode.equals pr.1 pr.2 o i = true
  | .mk a cs at1, .mk b cs2 at2, o, i, h, pr, hpr => by
    simp only [AstNode.comparedPairs, AstNode.children, List.mem_cons] at hpr
    rcases hpr with rfl | hpr
    · exact h
    · have hc := ((equals_mk_iff a b cs cs2 at1 at2 o i).1 h).2.2.2.2.2.2.2.2.2.2.2.2.2.2.2.2.2
      exact equalsChildren_comparedPairs cs cs2 o i hc pr hpr
theorem equalsChildren_comparedPairs : ∀ (cs cs2 : List AstNode) (o i : Bool),
    equalsChildren cs cs2 o i = true →
    ∀ pr ∈ comparedPairsList cs cs2, AstNode.equals pr.1 pr.2 o i = true
  | [], _, _, _, _, pr, hpr => by simp [comparedPairsList] at hpr
  | _ :: _, [], _, _, _, pr, hpr => by simp [comparedPairsList] at hpr
  | c :: cs, c2 :: cs2, o, i, h, pr, hpr => by
    simp only [equalsChildren] at h
    have h1 : AstNode.equals c c2 o i = true := by
      cases hh : AstNode.equals c c2 o i
      · simp [hh] at h
      · rfl
    have h2 : equalsChildren cs cs2 o i = true := by simpa [h1] using h
    simp only [comparedPairsList, List.mem_append] at hpr
    rcases hpr with hpr | hpr
    · exact equals_comparedPairs c c2 o i h1 pr hpr
    · exact equalsChildren_comparedPairs cs cs2 o i h2 pr hpr
end

theorem equals_data (x y : AstNode) (o i : Bool) (h : AstNode.equals x y o i = true) :
    (x.type = y.type ∨ (o = true ∧ isOrOrBool x.type = true ∧ isOrOrBool y.type = true))
      ∧ x.data.is_input = y.data.is_input ∧ x.data.is_output = y.data.is_output
      ∧ x.data.is_logic = y.data.is_logic ∧ x.data.is_reg = y.data.is_reg
      ∧ x.data.is_signed = y.data.is_signed ∧ x.data.is_string = y.data.is_string := by
  cases x with
  | mk a cs at1 =>
    cases y with
    | mk b cs2 at2 =>
      have h2 := (equals_mk_iff a b cs cs2 at1 at2 o i).1 h
      simp only [AstNode.type, AstNode.data]
      tauto

theorem isOrOrBool_iff (t : AstNodeType) :
    isOrOrBool t = true ↔ (t = AST_REDUCE_OR ∨ t = AST_REDUCE_BOOL) := by
  unfold isOrOrBool
  simp
  tauto

/-- Counterexample to C7 as stated: two wire nodes that differ in the flag
`is_wand` are reported equal, and so are two that differ in the flag `is_wor`. -/
theorem C7_counterexample :
    (exampleWire.data.is_wand ≠ exampleWand.data.is_wand
      ∧ AstNode.equals exampleWire exampleWand false false = true)
    ∧ (exampleWire.data.is_wor ≠ exampleWor.data.is_wor
      ∧ AstNode.equals exampleWire exampleWor false false = true) := by
  decide

/-- Claim C7, amended: `equals` returns true only if the two trees agree on the
flags `is_signed`, `is_string`, `is_reg` and `is_logic` at the root and at every
pair of corresponding descendants; the flags `is_wand` and `is_wor` are not
compared. -/
theorem C7_equals_compared_flags (a b : AstNode) (o i : Bool)
    (h : AstNode.equals a b o i = true) :
    ∀ pr ∈ AstNode.comparedPairs a b,
      pr.1.data.is_signed = pr.2.data.is_signed
        ∧ pr.1.data.is_string = pr.2.data.is_string
        ∧ pr.1.data.is_reg = pr.2.data.is_reg
        ∧ pr.1.data.is_logic = pr.2.data.is_logic := by
  intro pr hpr
  have h2 := equals_data pr.1 pr.2 o i (equals_comparedPairs a b o i h pr hpr)
  tauto

/-- Witness of the amended C7: the two wires that differ only in `is_wand`. -/
theorem C7_witness :
    AstNode.equals exampleWire exampleWand false false = true
      ∧ exampleWire.data.is_signed = exampleWand.data.is_signed
      ∧ exampleWire.data.is_logic = exampleWand.data.is_logic :=
  have h := C7_equals_compared_flags exampleWire exampleWand false false (by decide)
    (exampleWire, exampleWand) (by simp [exampleWire, AstNode.new, AstNode.comparedPairs])
  ⟨by decide, h.1, h.2.2.2⟩

/-- Claim C8: the only kind relaxation in `equals` is between `AST_REDUCE_OR`
and `AST_REDUCE_BOOL`.  If `equals` returns true, every pair of corresponding
nodes (at any depth) whose kinds differ has both kinds among these two and
`orAndBoolEqual` is true; with `orAndBoolEqual = false` a kind difference at
any pair of corresponding nodes makes `equals` false; and two nodes of these
two kinds that agree on every other compared field and on their children are
equal when `orAndBoolEqual` is true. -/
theorem C8_equals_kind_relaxation :
    (∀ (a b : AstNode) (o i : Bool), AstNode.equals a b o i = true →
        ∀ pr ∈ AstNode.comparedPairs a b, pr.1.type ≠ pr.2.type →
          o = true
            ∧ (pr.1.type = AST_REDUCE_OR ∨ pr.1.type = AST_REDUCE_BOOL)
            ∧ (pr.2.type = AST_REDUCE_OR ∨ pr.2.type = AST_REDUCE_BOOL))
    ∧ (∀ (a b : AstNode) (i : Bool),
        (∃ pr ∈ AstNode.comparedPairs a b, pr.1.type ≠ pr.2.type) →
          AstNode.equals a b false i = false)
    ∧ (∀ (a b : NodeData) (cs cs2 : List AstNode) (at1 at2 : List (Str × AstNode)) (i : Bool),
        (a.type = AST_REDUCE_OR ∨ a.type = AST_REDUCE_BOOL) →
        (b.type = AST_REDUCE_OR ∨ b.type = AST_REDUCE_BOOL) →
        (i = true → a.id2ast = b.id2ast) →
        cs.length = cs2.length →
        a.str = b.str → a.bits = b.bits →
        a.is_input = b.is_input → a.is_output = b.is_output →
        a.is_logic = b.is_logic → a.is_reg = b.is_reg →
        a.is_signed = b.is_signed → a.is_string = b.is_string →
        a.range_valid = b.range_valid → a.range_swapped = b.range_swapped →
        a.port_id = b.port_id → a.range_left = b.range_left →
        a.range_right = b.range_right → a.integer = b.integer →
        equalsChildren cs cs2 true i = true →
        AstNode.equals (.mk a cs at1) (.mk b cs2 at2) true i = true) := by
  have part1 : ∀ (a b : AstNode) (o i : Bool), AstNode.equals a b o i = true →
        ∀ pr ∈ AstNode.comparedPairs a b, pr.1.type ≠ pr.2.type →
          o = true
            ∧ (pr.1.type = AST_REDUCE_OR ∨ pr.1.type = AST_REDUCE_BOOL)
            ∧ (pr.2.type = AST_REDUCE_OR ∨ pr.2.type = AST_REDUCE_BOOL) := by
    intro a b o i h pr hpr hne
    have h2 := (equals_data pr.1 pr.2 o i (equals_comparedPairs a b o i h pr hpr)).1
    rcases h2 with h2 | ⟨ho, h3, h4⟩
    · exact absurd h2 hne
    · exact ⟨ho, (isOrOrBool_iff _).1 h3, (isOrOrBool_iff _).1 h4⟩
  refine ⟨part1, ?_, ?_⟩
  · intro a b i ⟨pr, hpr, hne⟩
    cases hh : AstNode.equals a b false i
    · rfl
    · have := (part1 a b false i hh pr hpr hne).1
      simp at this
  · intro a b cs cs2 at1 at2 i ha hb hid hlen h1 h2 h3 h4 h5 h6 h7 h8 h9 h10 h11 h12 h13 h14 hc
    rw [equals_mk_iff]
    exact ⟨Or.inr ⟨rfl, (isOrOrBool_iff _).2 ha, (isOrOrBool_iff _).2 hb⟩, hid, hlen, h1, h2,
      h3, h4, h5, h6, h7, h8, h9, h10, h11, h12, h13, h14, hc⟩

/-- Witness of C8: a childless `AST_REDUCE_OR` node and a childless
`AST_REDUCE_BOOL` node are equal with the relaxation and unequal without. -/
theorem C8_witness :
    AstNode.equals (.mk exampleOrData [] []) (.mk exampleBoolData [] []) true false = true
      ∧ AstNode.equals (.mk exampleOrData [] []) (.mk exampleBoolData [] []) false false
          = false :=
  ⟨C8_equals_kind_relaxation.2.2 exampleOrData exampleBoolData [] [] [] [] false
      (Or.inl (by decide)) (Or.inr (by decide)) (by decide) rfl (by decide) (by decide)
      (by decide) (by decide) (by decide) (by decide) (by decide) (by decide) (by decide)
      (by decide) (by decide) (by decide) (by decide) (by decide) (by decide),
    C8_equals_kind_relaxation.2.1 (.mk exampleOrData [] []) (.mk exampleBoolData [] []) false
      ⟨(.mk exampleOrData [] [], .mk exampleBoolData [] []),
        by simp [AstNode.comparedPairs], by decide⟩⟩

/-! ## Containment -/

mutual
theorem contains_iff : ∀ (t : AstNode) (p : Nat),
    t.contains p = true ↔ ∃ n ∈ t.ownedNodes, n.addr = p
  | .mk d cs attrs, p => by
    simp only [AstNode.contains, AstNode.ownedNodes, List.mem_cons]
    by_cases h : d.addr = p
    · simp only [h, beq_self_eq_true, if_true, true_iff]
      exact ⟨.mk d cs attrs, Or.inl rfl, h⟩
    · have hb : (d.addr == p) = false := by simpa using h
      simp only [hb, Bool.false_eq_true, if_false]
      rw [containsChildren_iff cs p]
      constructor
      · rintro ⟨n, hn, hp⟩
        exact ⟨n, Or.inr hn, hp⟩
      · rintro ⟨n, hn | hn, hp⟩
        · subst hn
          exact absurd hp h
        · exact ⟨n, hn, hp⟩
theorem containsChildren_iff : ∀ (cs : List AstNode) (p : Nat),
    containsChildren cs p = true ↔ ∃ n ∈ ownedNodesList cs, n.addr = p
  | [], p => by simp [containsChildren, ownedNodesList]
  | c :: cs, p => by
    simp only [containsChildren, ownedNodesList, List.mem_append]
    by_cases h : c.contains p = true
    · simp only [h, if_true, true_iff]
      obtain ⟨n, hn, hp⟩ := (contains_iff c p).1 h
      exact ⟨n, Or.inl hn, hp⟩
    · have hb : c.contains p = false := by simpa using h
      simp only [hb, Bool.false_eq_true, if_false]
      rw [containsChildren_iff cs p]
      constructor
      · rintro ⟨n, hn, hp⟩
        exact ⟨n, Or.inr hn, hp⟩
      · rintro ⟨n, hn | hn, hp⟩
        · exact absurd ((contains_iff c p).2 ⟨n, hn, hp⟩) h
        · exact ⟨n, hn, hp⟩
end

mutual
theorem ownedNodes_subset_allNodes : ∀ (t : AstNode) (n : AstNode),
    n ∈ t.ownedNodes → n ∈ t.allNodes
  | .mk d cs attrs, n, h => by
    simp only [AstNode.ownedNodes, List.mem_cons] at h
    simp only [AstNode.allNodes, List.mem_cons, List.mem_append]
    rcases h with h | h
    · exact Or.inl h
    · exact Or.inr (Or.inl (ownedNodesList_subset_allNodesList cs n h))
theorem ownedNodesList_subset_allNodesList : ∀ (cs : List AstNode) (n : AstNode),
    n ∈ ownedNodesList cs → n ∈ allNodesList cs
  | [], n, h => by simp [ownedNodesList] at h
  | c :: cs, n, h => by
    simp only [ownedNodesList, List.mem_append] at h
    simp only [allNodesList, List.mem_append]
    rcases h with h | h
    · exact Or.inl (ownedNodes_subset_allNodes c n h)
    · exact Or.inr (ownedNodesList_subset_allNodesList cs n h)
end

/-- Claim C9: `contains` is reachability over owned children only.
`T.contains(n)` is true exactly when the address `n` is the address of `T`
itself or of a descendant of `T` through `children` edges; and in a tree whose
nodes all have different addresses, a node that is reachable only through an
attribute value is reported as not contained. -/
theorem C9_contains_children_only (t : AstNode) :
    (∀ p : Nat, t.contains p = true ↔ ∃ n ∈ t.ownedNodes, n.addr = p)
      ∧ ((t.allNodes.map AstNode.addr).Nodup →
          ∀ n ∈ t.allNodes, n ∉ t.ownedNodes → t.contains n.addr = false) := by
  refine ⟨contains_iff t, ?_⟩
  intro hnd n hn hnot
  cases hc : t.contains n.addr
  · rfl
  · obtain ⟨m, hm, hp⟩ := (contains_iff t n.addr).1 hc
    have hmn : m = n :=
      List.inj_on_of_nodup_map hnd (ownedNodes_subset_allNodes t m hm) hn hp
    rw [hmn] at hm
    exact absurd hm hnot

/-- Witness of C9: in `exampleTree` the child leaf is contained and the
attribute value is not. -/
theorem C9_witness :
    (exampleTree.allNodes.map AstNode.addr).Nodup
      ∧ exampleTree.contains exampleLeaf.addr = true
      ∧ exampleTree.contains exampleAttrValue.addr = false :=
  ⟨by decide,
    ((C9_contains_children_only exampleTree).1 exampleLeaf.addr).2
      ⟨exampleLeaf, by
        simp [exampleTree, exampleLeaf, AstNode.new, AstNode.ownedNodes, ownedNodesList], rfl⟩,
    (C9_contains_children_only exampleTree).2 (by decide) exampleAttrValue
      (by simp [exampleTree, exampleAttrValue, AstNode.new, AstNode.allNodes, allNodesList,
        allNodesAttrs])
      (by simp [exampleTree, exampleAttrValue, exampleLeaf, exampleEnv, exampleEnvAt,
        AstNode.new, AstNode.ownedNodes, ownedNodesList])⟩

/-! ## Identifier escaping -/

theorem id2vl_loop_cons (t : Str) (h : Bool) (c : Byte) (rest : List Byte) (i : Nat) :
    id2vl_loop t h (c :: rest) i =
      if plainChar h i c then id2vl_loop t h rest (i + 1) else [92] ++ t ++ [32] := by
  cases h <;>
    simp only [id2vl_loop, plainChar, Bool.and_eq_true, Bool.or_eq_true, decide_eq_true_eq,
      beq_iff_eq, gt_iff_lt, Bool.false_and, Bool.true_and, Bool.and_true, Bool.and_false,
      Bool.or_false, Bool.false_eq_true, if_false, or_false] <;>
    split_ifs <;> first | rfl | (exfalso; omega)

theorem id2vl_loop_eq (t : Str) (h : Bool) : ∀ (rest : List Byte) (i : Nat),
    id2vl_loop t h rest i = if allPlainFrom h rest i then t else [92] ++ t ++ [32]
  | [], i => by simp [id2vl_loop, allPlainFrom]
  | c :: rest, i => by
    rw [id2vl_loop_cons, id2vl_loop_eq t h rest (i + 1)]
    by_cases hp : plainChar h i c = true <;> simp [allPlainFrom, hp]

theorem id2vl_strip (txt : Str) :
    (if txt.length > 1 && txt.head? == some 92 then txt.drop 1 else txt) = stripBackslash txt := by
  match txt with
  | [] => simp [stripBackslash]
  | [c] => simp [stripBackslash]
  | c :: d :: rest =>
    by_cases hc : c = 92 <;> simp [stripBackslash, hc]

/-- Claim C10: let `t` be `txt` with one leading backslash removed when `txt`
has more than one character.  `id2vl(txt, h)` returns `t` unchanged exactly
when every character of `t` is an ASCII letter, `_`, `$`, a digit that is not
the first character, or (only when `h` is true) `.`; in every other case it
returns a backslash, then `t`, then one space. -/
theorem C10_id2vl_escaping (txt : Str) (h : Bool) :
    (id2vl txt h = stripBackslash txt ↔ allPlainFrom h (stripBackslash txt) 0 = true)
      ∧ (id2vl txt h = stripBackslash txt
          ∨ id2vl txt h = [92] ++ stripBackslash txt ++ [32])
      ∧ id2vl txt h =
          (if allPlainFrom h (stripBackslash txt) 0 then stripBackslash txt
           else [92] ++ stripBackslash txt ++ [32]) := by
  have e : id2vl txt h =
      (if allPlainFrom h (stripBackslash txt) 0 then stripBackslash txt
       else [92] ++ stripBackslash txt ++ [32]) := by
    unfold id2vl
    simp only [id2vl_strip]
    exact id2vl_loop_eq _ h _ 0
  refine ⟨?_, ?_, e⟩
  · rw [e]
    by_cases hp : allPlainFrom h (stripBackslash txt) 0 = true
    · simp [hp]
    · simp only [hp, if_false, iff_false, Bool.false_eq_true]
      intro hcon
      have := congrArg List.length hcon
      simp at this
      omega
  · rw [e]
    by_cases hp : allPlainFrom h (stripBackslash txt) 0 = true <;> simp [hp]

/-! ## The Verilog re-emitter: one step of `dumpVlog` -/

theorem dumpVlog_succ (g : Given) (fuel : Nat) (node : AstNode) (indent : Str)
    (inGenerate : Bool) (parentType : AstNodeType) (P B : Str)
    (hgen : (needGenerate node.type && !inGenerate) = false)
    (hP : attribute_prefix g (AstNode.dumpVlog g fuel) node indent inGenerate = .ok P)
    (hB : dumpVlog_switch g (AstNode.dumpVlog g fuel) node indent inGenerate parentType = .ok B) :
    node.dumpVlog g (fuel + 1) indent inGenerate parentType = .ok (P ++ B) := by
  unfold attribute_prefix at hP
  rw [AstNode.dumpVlog]
  simp only [hgen, Bool.false_eq_true, if_false]
  rw [hP, hB]
  rfl

theorem elemAt_eq (v : List AstNode) (i : Nat) (c : AstNode) (h : v.get? i = some c) :
    elemAt v i = .ok c := by
  unfold elemAt
  rw [h]

theorem elemAt_ok_iff (v : List AstNode) (i : Nat) (c : AstNode) :
    elemAt v i = .ok c ↔ v.get? i = some c := by
  unfold elemAt
  cases v.get? i <;> simp

theorem except_bind_ok_iff {ε α β : Type} (x : Except ε α) (f : α → Except ε β) (b : β) :
    (x >>= f) = .ok b ↔ ∃ a, x = .ok a ∧ f a = .ok b := by
  cases x <;> simp [bind, Except.bind]

theorem indexed_part_select_test_iff (g : Given) (base base2 one zero : AstNode) :
    indexed_part_select_test g base base2 one zero = true ↔
      (base.equals base2 g.equals_orAndBoolEqual g.equals_id2AstMustEqual = true
        ∧ one.type = AST_CONSTANT ∧ one.asInt false = some 1
        ∧ zero.type = AST_CONSTANT ∧ zero.asInt false = some 0) := by
  unfold indexed_part_select_test
  simp [and_assoc]

theorem indexed_part_select_negative_not_add (g : Given) (hi lo base width : AstNode) :
    indexed_part_select_negative g hi lo ≠ .ok (some (base, width, true)) := by
  unfold indexed_part_select_negative
  intro h
  split at h
  · simp only [except_bind_ok_iff] at h
    obtain ⟨r0, _, h⟩ := h
    split at h
    · simp only [except_bind_ok_iff] at h
      obtain ⟨_, _, _, _, _, _, _, _, _, _, h⟩ := h
      simp only [pure, Except.pure, Except.ok.injEq] at h
      split at h <;> simp at h
    · simp [pure, Except.pure] at h
  · simp [pure, Except.pure] at h

/-! ## Resolved ranges -/

theorem dumpVlog_switch_range_valid (g : Given) (dump : Dumper) (node : AstNode) (indent : Str)
    (inGenerate : Bool) (parentType : AstNodeType)
    (ht : node.type = AST_RANGE) (hv : node.data.range_valid = true) :
    dumpVlog_switch g dump node indent inGenerate parentType
      = .ok (range_text node.data node.children.length) := by
  simp only [dumpVlog_switch, ht, hv, if_true, range_text]
  by_cases h1 : node.data.range_left = node.data.range_right
  · by_cases h2 : node.children.length = 1
    · simp [h1, h2, pure, Except.pure]
    · by_cases h3 : node.data.range_swapped = true <;> simp [h1, h2, h3, pure, Except.pure]
  · by_cases h3 : node.data.range_swapped = true <;> simp [h1, h3, pure, Except.pure]

/-- Claim C13: for an `AST_RANGE` node with `range_valid` set, `dumpVlog`
prints, after the attribute prefix, the text made of the stored bounds
only: `[r]` when both bounds are `r` and the node has exactly one child, else
`[range_right:range_left]` when `range_swapped` is set and
`[range_left:range_right]` when it is not.  The node is an argument and the
result is a text, so the stored bounds are not changed. -/
theorem C13_resolved_range (g : Given) (fuel : Nat) (node : AstNode) (indent : Str)
    (inGenerate : Bool) (parentType : AstNodeType) (P : Str)
    (ht : node.type = AST_RANGE) (hv : node.data.range_valid = true)
    (hP : attribute_prefix g (AstNode.dumpVlog g fuel) node indent inGenerate = .ok P) :
    node.dumpVlog g (fuel + 1) indent inGenerate parentType
      = .ok (P ++ range_text node.data node.children.length) :=
  dumpVlog_succ g fuel node indent inGenerate parentType P _
    (by simp [ht, needGenerate]) hP
    (dumpVlog_switch_range_valid g (AstNode.dumpVlog g fuel) node indent inGenerate parentType ht hv)

theorem C13_witness :
    exampleResolvedRange.type = AST_RANGE
      ∧ exampleResolvedRange.data.range_valid = true
      ∧ exampleResolvedRange.dumpVlog exampleGiven 1 [] false AST_NONE = .ok (lit "[7:0]") :=
  ⟨rfl, rfl,
    (C13_resolved_range exampleGiven 0 exampleResolvedRange [] false AST_NONE [] rfl rfl
      (by decide)).trans (by decide)⟩

/-! ## Indexed part-selects -/

theorem is_expanded_positive_iff (g : Given) (hi lo base width : AstNode) :
    is_expanded_indexed_part_select g hi lo = .ok (some (base, width, true))
      ↔ positive_indexed g hi lo base width := by
  unfold is_expanded_indexed_part_select positive_indexed
  constructor
  · intro h
    split at h
    · rename_i hty
      simp only [except_bind_ok_iff, elemAt_ok_iff] at h
      obtain ⟨l0, hl0, h⟩ := h
      split at h
      · rename_i hc
        simp only [except_bind_ok_iff, elemAt_ok_iff] at h
        obtain ⟨b, hb, w, hw, one, hone, b2, hb2, zero, hzero, h⟩ := h
        simp only [pure, Except.pure, Except.ok.injEq] at h
        simp only [Bool.and_eq_true, beq_iff_eq] at hc hty
        split at h
        · rename_i htest
          simp only [Option.some.injEq, Prod.mk.injEq, and_true] at h
          obtain ⟨rfl, rfl⟩ := h
          have ht := (indexed_part_select_test_iff g _ _ _ _).1 htest
          exact ⟨l0, one, b2, zero, hty, hl0, hone, hc.1, hb, hw, hc.2, hb2, hzero, ht⟩
        · simp at h
      · exact absurd h (indexed_part_select_negative_not_add g hi lo base width)
    · exact absurd h (indexed_part_select_negative_not_add g hi lo base width)
  · rintro ⟨sum, c1, base2, c0, h1, h2, h3, h4, h5, h6, h7, h8, h9, h10⟩
    have e2 := (elemAt_ok_iff _ _ _).2 h2
    have e3 := (elemAt_ok_iff _ _ _).2 h3
    have e5 := (elemAt_ok_iff _ _ _).2 h5
    have e6 := (elemAt_ok_iff _ _ _).2 h6
    have e8 := (elemAt_ok_iff _ _ _).2 h8
    have e9 := (elemAt_ok_iff _ _ _).2 h9
    have ht := (indexed_part_select_test_iff g base base2 c1 c0).2 h10
    simp [h1, h4, h7, e2, e3, e5, e6, e8, e9, ht, bind, Except.bind, pure, Except.pure]

theorem indexed_part_select_negative_iff (g : Given) (hi lo base width : AstNode) :
    indexed_part_select_negative g hi lo = .ok (some (base, width, false))
      ↔ negative_indexed g hi lo base width := by
  unfold indexed_part_select_negative negative_indexed
  constructor
  · intro h
    split at h
    · rename_i hty
      simp only [except_bind_ok_iff, elemAt_ok_iff] at h
      obtain ⟨r0, hr0, h⟩ := h
      split at h
      · rename_i hc
        simp only [except_bind_ok_iff, elemAt_ok_iff] at h
        obtain ⟨b, hb, zero, hzero, b2, hb2, one, hone, w, hw, h⟩ := h
        simp only [pure, Except.pure, Except.ok.injEq] at h
        simp only [Bool.and_eq_true, beq_iff_eq] at hc hty
        split at h
        · rename_i htest
          simp only [Option.some.injEq, Prod.mk.injEq, and_true] at h
          obtain ⟨rfl, rfl⟩ := h
          have ht := (indexed_part_select_test_iff g _ _ _ _).1 htest
          exact ⟨zero, r0, b2, one, hty.1, hb, hzero, hty.2, hr0, hw, hc, hb2, hone, ht⟩
        · simp at h
      · simp [pure, Except.pure] at h
    · simp [pure, Except.pure] at h
  · rintro ⟨c0, sum, base2, c1, h1, h2, h3, h4, h5, h6, h7, h8, h9, h10⟩
    have e2 := (elemAt_ok_iff _ _ _).2 h2
    have e3 := (elemAt_ok_iff _ _ _).2 h3
    have e5 := (elemAt_ok_iff _ _ _).2 h5
    have e6 := (elemAt_ok_iff _ _ _).2 h6
    have e8 := (elemAt_ok_iff _ _ _).2 h8
    have e9 := (elemAt_ok_iff _ _ _).2 h9
    have ht := (indexed_part_select_test_iff g base base2 c1 c0).2 h10
    simp [h1, h4, h7, e2, e3, e5, e6, e8, e9, ht, bind, Except.bind, pure, Except.pure]

theorem is_expanded_negative_iff (g : Given) (hi lo base width : AstNode) :
    is_expanded_indexed_part_select g hi lo = .ok (some (base, width, false))
      ↔ negative_indexed g hi lo base width := by
  rw [← indexed_part_select_negative_iff]
  unfold is_expanded_indexed_part_select
  split
  · rename_i hty
    have hty2 : hi.type = AST_SUB := by simpa using hty
    have hneg : indexed_part_select_negative g hi lo = .ok none := by
      simp [indexed_part_select_negative, hty2, pure, Except.pure]
    constructor
    · intro h
      simp only [except_bind_ok_iff] at h
      obtain ⟨l0, _, h⟩ := h
      split at h
      · simp only [except_bind_ok_iff] at h
        obtain ⟨_, _, _, _, _, _, _, _, _, _, h⟩ := h
        simp only [pure, Except.pure, Except.ok.injEq] at h
        split at h <;> simp at h
      · exact h
    · intro h
      rw [hneg] at h
      simp at h
  · rfl

theorem dumpVlog_switch_binary_inv (g : Given) (dump : Dumper) (node : AstNode) (indent : Str)
    (inGenerate : Bool) (parentType : AstNodeType) (T : Str)
    (hop : node.type = AST_ADD ∨ node.type = AST_SUB)
    (h : dumpVlog_switch g dump node indent inGenerate parentType = .ok T) :
    ∃ a b A, node.children.get? 0 = some a ∧ node.children.get? 1 = some b
      ∧ dump a [] inGenerate node.type = .ok A := by
  rcases hop with ht | ht <;>
  · simp only [dumpVlog_switch, ht, except_bind_ok_iff, elemAt_ok_iff] at h
    obtain ⟨a, ha, A, hA, b, hb, _⟩ := h
    exact ⟨a, b, A, ha, hb, by rw [ht]; exact hA⟩

theorem dumpVlog_binary_inv (g : Given) (fuel : Nat) (node : AstNode) (indent : Str)
    (inGenerate : Bool) (parentType : AstNodeType) (T : Str)
    (hop : node.type = AST_ADD ∨ node.type = AST_SUB)
    (h : node.dumpVlog g fuel indent inGenerate parentType = .ok T) :
    ∃ f a b A, fuel = f + 1 ∧ node.children.get? 0 = some a ∧ node.children.get? 1 = some b
      ∧ a.dumpVlog g f [] inGenerate node.type = .ok A := by
  cases fuel with
  | zero => simp [AstNode.dumpVlog] at h
  | succ f =>
    have hgen : (needGenerate node.type && !inGenerate) = false := by
      rcases hop with ht | ht <;> simp [ht, needGenerate]
    rw [AstNode.dumpVlog] at h
    simp only [hgen, Bool.false_eq_true, if_false, except_bind_ok_iff] at h
    obtain ⟨_, _, B, hB, _⟩ := h
    obtain ⟨a, b, A, ha, hb, hA⟩ :=
      dumpVlog_switch_binary_inv g _ node indent inGenerate parentType B hop hB
    exact ⟨f, a, b, A, rfl, ha, hb, hA⟩

theorem operands_present_of_dumpVlog (g : Given) (fuel : Nat) (node : AstNode) (indent : Str)
    (inGenerate : Bool) (parentType : AstNodeType) (T : Str)
    (h : node.dumpVlog g fuel indent inGenerate parentType = .ok T) :
    operands_present node := by
  intro hop
  obtain ⟨f, a, b, A, _, ha, hb, hA⟩ :=
    dumpVlog_binary_inv g fuel node indent inGenerate parentType T hop h
  refine ⟨⟨a, b, ha, hb⟩, ?_⟩
  intro s hs hts
  rw [ha] at hs
  cases hs
  obtain ⟨_, a2, b2, _, _, ha2, hb2, _⟩ :=
    dumpVlog_binary_inv g f a [] inGenerate node.type A (Or.inl hts) hA
  exact ⟨a2, b2, ha2, hb2⟩

theorem indexed_part_select_negative_none (g : Given) (hi lo : AstNode)
    (hhi : operands_present hi) (hlo : operands_present lo)
    (hno : ∀ base width, ¬ negative_indexed g hi lo base width) :
    indexed_part_select_negative g hi lo = .ok none := by
  cases hr : indexed_part_select_negative g hi lo with
  | ok r =>
    cases r with
    | none => rfl
    | some x =>
      obtain ⟨base, width, add⟩ := x
      cases add with
      | true => exact absurd hr (indexed_part_select_negative_not_add g hi lo base width)
      | false =>
        exact absurd ((indexed_part_select_negative_iff g hi lo base width).1 hr)
          (hno base width)
  | error e =>
    exfalso
    unfold indexed_part_select_negative at hr
    split at hr
    · rename_i hty
      simp only [Bool.and_eq_true, beq_iff_eq] at hty
      obtain ⟨⟨a, b, ha, hb⟩, _⟩ := hhi (Or.inl hty.1)
      obtain ⟨⟨r0, w, hr0, hw⟩, hsum⟩ := hlo (Or.inr hty.2)
      have e1 := (elemAt_ok_iff _ _ _).2 ha
      have e2 := (elemAt_ok_iff _ _ _).2 hb
      have e3 := (elemAt_ok_iff _ _ _).2 hr0
      have e4 := (elemAt_ok_iff _ _ _).2 hw
      by_cases hr0t : r0.type = AST_ADD
      · obtain ⟨a2, b2, ha2, hb2⟩ := hsum r0 hr0 hr0t
        have e5 := (elemAt_ok_iff _ _ _).2 ha2
        have e6 := (elemAt_ok_iff _ _ _).2 hb2
        simp [e1, e2, e3, e4, e5, e6, hr0t, bind, Except.bind, pure, Except.pure] at hr
      · simp [e3, hr0t, bind, Except.bind, pure, Except.pure] at hr
    · simp [pure, Except.pure] at hr

theorem is_expanded_none (g : Given) (hi lo : AstNode)
    (hhi : operands_present hi) (hlo : operands_present lo)
    (hno : ∀ base width,
      ¬ positive_indexed g hi lo base width ∧ ¬ negative_indexed g hi lo base width) :
    is_expanded_indexed_part_select g hi lo = .ok none := by
  cases hr : is_expanded_indexed_part_select g hi lo with
  | ok r =>
    cases r with
    | none => rfl
    | some x =>
      obtain ⟨base, width, add⟩ := x
      cases add with
      | true =>
        exact absurd ((is_expanded_positive_iff g hi lo base width).1 hr) (hno base width).1
      | false =>
        exact absurd ((is_expanded_negative_iff g hi lo base width).1 hr) (hno base width).2
  | error e =>
    exfalso
    have hneg := indexed_part_select_negative_none g hi lo hhi hlo (fun b w => (hno b w).2)
    unfold is_expanded_indexed_part_select at hr
    split at hr
    · rename_i hty
      simp only [beq_iff_eq] at hty
      obtain ⟨⟨l0, one, hl0, hone⟩, hsum⟩ := hhi (Or.inr hty)
      have e1 := (elemAt_ok_iff _ _ _).2 hl0
      have e2 := (elemAt_ok_iff _ _ _).2 hone
      by_cases hc : (l0.type == AST_ADD && lo.type == AST_ADD) = true
      · simp only [Bool.and_eq_true, beq_iff_eq] at hc
        obtain ⟨a2, b2, ha2, hb2⟩ := hsum l0 hl0 hc.1
        obtain ⟨⟨a3, b3, ha3, hb3⟩, _⟩ := hlo (Or.inl hc.2)
        have e3 := (elemAt_ok_iff _ _ _).2 ha2
        have e4 := (elemAt_ok_iff _ _ _).2 hb2
        have e5 := (elemAt_ok_iff _ _ _).2 ha3
        have e6 := (elemAt_ok_iff _ _ _).2 hb3
        simp [e1, e2, e3, e4, e5, e6, hc.1, hc.2, bind, Except.bind, pure, Except.pure] at hr
      · simp [e1, hc, hneg, bind, Except.bind] at hr
    · rw [hneg] at hr
      cases hr

theorem print_range_children_two (g : Given) (dump : Dumper) (node hi lo : AstNode)
    (inGenerate : Bool) (hc : node.children = [hi, lo]) :
    print_range_children g dump node inGenerate =
      (is_expanded_indexed_part_select g hi lo).bind (fun sel =>
        match sel with
        | some (base_expr, width_expr, is_add) =>
          (dump base_expr [] inGenerate node.type).bind (fun b =>
            (dump width_expr [] inGenerate node.type).bind (fun w =>
              .ok (lit "[" ++ b ++ (if is_add then lit "+:" else lit "-:") ++ w ++ lit "]")))
        | none =>
          (dump hi [] inGenerate node.type).bind (fun a =>
            (dump lo [] inGenerate node.type).bind (fun b =>
              .ok (lit "[" ++ a ++ lit ":" ++ b ++ lit "]")))) := by
  unfold print_range_children
  simp only [hc, elemAt, List.length_cons, List.length_nil]
  simp only [List.get?, bind, pure, Except.pure]
  rfl

theorem dumpVlog_switch_range_unresolved (g : Given) (dump : Dumper) (node : AstNode)
    (indent : Str) (inGenerate : Bool) (parentType : AstNodeType)
    (ht : node.type = AST_RANGE) (hv : node.data.range_valid = false) :
    dumpVlog_switch g dump node indent inGenerate parentType
      = print_range_children g dump node inGenerate := by
  simp only [dumpVlog_switch, ht, hv, Bool.false_eq_true, if_false]

/-- Claim C12: for an `AST_RANGE` node with `range_valid` clear and the two
children `hi`, `lo`, `dumpVlog` prints after the attribute prefix `[base+:width]`
when the children are the expansion of a positive indexed part-select,
`[base-:width]` when they are the expansion of a negative one, and `[hi:lo]`
when they are neither and both can be rendered; the two patterns exclude each
other. -/
theorem C12_unresolved_range (g : Given) (fuel : Nat) (node hi lo : AstNode) (indent : Str)
    (inGenerate : Bool) (parentType : AstNodeType) (P : Str)
    (ht : node.type = AST_RANGE) (hv : node.data.range_valid = false)
    (hc : node.children = [hi, lo])
    (hP : attribute_prefix g (AstNode.dumpVlog g fuel) node indent inGenerate = .ok P) :
    (∀ base width B W, positive_indexed g hi lo base width →
        base.dumpVlog g fuel [] inGenerate AST_RANGE = .ok B →
        width.dumpVlog g fuel [] inGenerate AST_RANGE = .ok W →
        node.dumpVlog g (fuel + 1) indent inGenerate parentType
          = .ok (P ++ (lit "[" ++ B ++ lit "+:" ++ W ++ lit "]")))
    ∧ (∀ base width B W, negative_indexed g hi lo base width →
        base.dumpVlog g fuel [] inGenerate AST_RANGE = .ok B →
        width.dumpVlog g fuel [] inGenerate AST_RANGE = .ok W →
        node.dumpVlog g (fuel + 1) indent inGenerate parentType
          = .ok (P ++ (lit "[" ++ B ++ lit "-:" ++ W ++ lit "]")))
    ∧ (∀ A L,
        (∀ base width,
          ¬ positive_indexed g hi lo base width ∧ ¬ negative_indexed g hi lo base width) →
        hi.dumpVlog g fuel [] inGenerate AST_RANGE = .ok A →
        lo.dumpVlog g fuel [] inGenerate AST_RANGE = .ok L →
        node.dumpVlog g (fuel + 1) indent inGenerate parentType
          = .ok (P ++ (lit "[" ++ A ++ lit ":" ++ L ++ lit "]")))
    ∧ (∀ base width base2 width2,
        ¬ (positive_indexed g hi lo base width ∧ negative_indexed g hi lo base2 width2)) := by
  have hgen : (needGenerate node.type && !inGenerate) = false := by simp [ht, needGenerate]
  have hsw := dumpVlog_switch_range_unresolved g (AstNode.dumpVlog g fuel) node indent
    inGenerate parentType ht hv
  have hpr := print_range_children_two g (AstNode.dumpVlog g fuel) node hi lo inGenerate hc
  rw [ht] at hpr
  refine ⟨?_, ?_, ?_, ?_⟩
  · intro base width B W hpat hB hW
    apply dumpVlog_succ g fuel node indent inGenerate parentType P _ hgen hP
    rw [hsw, hpr, (is_expanded_positive_iff g hi lo base width).2 hpat]
    simp [Except.bind, hB, hW]
  · intro base width B W hpat hB hW
    apply dumpVlog_succ g fuel node indent inGenerate parentType P _ hgen hP
    rw [hsw, hpr, (is_expanded_negative_iff g hi lo base width).2 hpat]
    simp [Except.bind, hB, hW]
  · intro A L hno hA hL
    apply dumpVlog_succ g fuel node indent inGenerate parentType P _ hgen hP
    have h1 := operands_present_of_dumpVlog g fuel hi [] inGenerate AST_RANGE A hA
    have h2 := operands_present_of_dumpVlog g fuel lo [] inGenerate AST_RANGE L hL
    rw [hsw, hpr, is_expanded_none g hi lo h1 h2 hno]
    simp [Except.bind, hA, hL]
  · rintro base width base2 width2 ⟨⟨_, _, _, _, h1, _⟩, ⟨_, _, _, _, h2, _⟩⟩
    rw [h1] at h2
    cases h2

theorem C12_witness :
    exampleIndexedRange.type = AST_RANGE
      ∧ exampleIndexedRange.data.range_valid = false
      ∧ exampleIndexedRange.children = [exampleHi, exampleLo]
      ∧ positive_indexed exampleGiven exampleHi exampleLo exampleX exampleW
      ∧ exampleIndexedRange.dumpVlog exampleGiven 2 [] false AST_NONE
          = .ok (lit "[x+:w]") :=
  have hpat : positive_indexed exampleGiven exampleHi exampleLo exampleX exampleW :=
    ⟨exampleSum, exampleOne, exampleX, exampleZero, rfl, rfl, rfl, rfl, rfl, rfl, rfl, rfl, rfl,
      by decide, rfl, by decide, rfl, by decide⟩
  ⟨rfl, rfl, rfl, hpat,
    ((C12_unresolved_range exampleGiven 1 exampleIndexedRange exampleHi exampleLo [] false
      AST_NONE [] rfl rfl rfl (by decide)).1 exampleX exampleW (lit "x") (lit "w") hpat
      (by decide) (by decide)).trans (by decide)⟩

/-! ## Operators -/

theorem c_str_unary_txt (t : AstNodeType) : c_str (unary_txt t) = unary_txt t := by
  cases t <;> decide

theorem c_str_binary_txt (t : AstNodeType) : c_str (binary_txt t) = binary_txt t := by
  cases t <;> decide

theorem dumpVlog_switch_unary (g : Given) (dump : Dumper) (node : AstNode) (indent : Str)
    (inGenerate : Bool) (parentType : AstNodeType) (a : AstNode) (A : Str)
    (hop : isUnaryOperator node.type = true) (ha : node.children.get? 0 = some a)
    (hA : dump a [] inGenerate g.dumpVlog_parentType = .ok A) :
    dumpVlog_switch g dump node indent inGenerate parentType
      = .ok (unary_txt node.type ++ lit "(" ++ A ++ lit ")") := by
  have e0 := elemAt_eq _ _ _ ha
  cases ht : node.type <;> simp [ht, isUnaryOperator] at hop <;>
    simp only [dumpVlog_switch, ht, e0, hA, bind, Except.bind, pure, Except.pure,
      c_str_unary_txt]

theorem dumpVlog_switch_binary (g : Given) (dump : Dumper) (node : AstNode) (indent : Str)
    (inGenerate : Bool) (parentType : AstNodeType) (a b : AstNode) (A B : Str)
    (hop : isBinaryOperator node.type = true)
    (ha : node.children.get? 0 = some a) (hb : node.children.get? 1 = some b)
    (hA : dump a [] inGenerate node.type = .ok A)
    (hB : dump b [] inGenerate node.type = .ok B) :
    dumpVlog_switch g dump node indent inGenerate parentType
      = .ok (lit "(" ++ A ++ lit ")" ++ binary_txt node.type ++ lit "(" ++ B ++ lit ")") := by
  have e0 := elemAt_eq _ _ _ ha
  have e1 := elemAt_eq _ _ _ hb
  cases ht : node.type <;> simp [ht, isBinaryOperator] at hop <;>
    (rw [ht] at hA hB
     simp only [dumpVlog_switch, ht, e0, e1, hA, hB, bind, Except.bind, pure, Except.pure,
      c_str_binary_txt])

theorem dumpVlog_switch_ternary (g : Given) (dump : Dumper) (node : AstNode) (indent : Str)
    (inGenerate : Bool) (parentType : AstNodeType) (c a b : AstNode) (C A B : Str)
    (hop : node.type = AST_TERNARY)
    (hc : node.children.get? 0 = some c) (ha : node.children.get? 1 = some a)
    (hb : node.children.get? 2 = some b)
    (hC : dump c [] inGenerate AST_TERNARY = .ok C)
    (hA : dump a [] inGenerate AST_TERNARY = .ok A)
    (hB : dump b [] inGenerate AST_TERNARY = .ok B) :
    dumpVlog_switch g dump node indent inGenerate parentType
      = .ok (lit "(" ++ C ++ lit ") ? (" ++ A ++ lit ") : (" ++ B ++ lit ")") := by
  have e0 := elemAt_eq _ _ _ hc
  have e1 := elemAt_eq _ _ _ ha
  have e2 := elemAt_eq _ _ _ hb
  simp only [dumpVlog_switch, hop, e0, e1, e2, hA, hB, hC, bind, Except.bind, pure, Except.pure]

/-- Claim C15: after the attribute prefix `P` of the node, `dumpVlog` renders a
unary operator node with first child `a` as `op(a)`, a binary operator node with
children `a`, `b` as `(a)op(b)`, and a ternary node with children `c`, `a`, `b`
as `(c) ? (a) : (b)`, where each operand text is the rendering of the child;
the prefix is empty when the node has no attributes. -/
theorem C15_operators_parenthesized (g : Given) (fuel : Nat) (node : AstNode) (indent : Str)
    (inGenerate : Bool) (parentType : AstNodeType) (P : Str)
    (hP : attribute_prefix g (AstNode.dumpVlog g fuel) node indent inGenerate = .ok P) :
    (∀ a A, isUnaryOperator node.type = true → node.children.get? 0 = some a →
        a.dumpVlog g fuel [] inGenerate g.dumpVlog_parentType = .ok A →
        node.dumpVlog g (fuel + 1) indent inGenerate parentType
          = .ok (P ++ (unary_txt node.type ++ lit "(" ++ A ++ lit ")")))
    ∧ (∀ a b A B, isBinaryOperator node.type = true →
        node.children.get? 0 = some a → node.children.get? 1 = some b →
        a.dumpVlog g fuel [] inGenerate node.type = .ok A →
        b.dumpVlog g fuel [] inGenerate node.type = .ok B →
        node.dumpVlog g (fuel + 1) indent inGenerate parentType
          = .ok (P ++ (lit "(" ++ A ++ lit ")" ++ binary_txt node.type
              ++ lit "(" ++ B ++ lit ")")))
    ∧ (∀ c a b C A B, node.type = AST_TERNARY →
        node.children.get? 0 = some c → node.children.get? 1 = some a →
        node.children.get? 2 = some b →
        c.dumpVlog g fuel [] inGenerate AST_TERNARY = .ok C →
        a.dumpVlog g fuel [] inGenerate AST_TERNARY = .ok A →
        b.dumpVlog g fuel [] inGenerate AST_TERNARY = .ok B →
        node.dumpVlog g (fuel + 1) indent inGenerate parentType
          = .ok (P ++ (lit "(" ++ C ++ lit ") ? (" ++ A ++ lit ") : (" ++ B ++ lit ")")))
    ∧ (node.attributes = [] → P = []) := by
  refine ⟨?_, ?_, ?_, ?_⟩
  · intro a A hop ha hA
    have hgen : (needGenerate node.type && !inGenerate) = false := by
      cases ht : node.type <;> simp [ht, isUnaryOperator] at hop <;> simp [needGenerate]
    exact dumpVlog_succ g fuel node indent inGenerate parentType P _ hgen hP
      (dumpVlog_switch_unary g _ node indent inGenerate parentType a A hop ha hA)
  · intro a b A B hop ha hb hA hB
    have hgen : (needGenerate node.type && !inGenerate) = false := by
      cases ht : node.type <;> simp [ht, isBinaryOperator] at hop <;> simp [needGenerate]
    exact dumpVlog_succ g fuel node indent inGenerate parentType P _ hgen hP
      (dumpVlog_switch_binary g _ node indent inGenerate parentType a b A B hop ha hb hA hB)
  · intro c a b C A B hop hc ha hb hC hA hB
    have hgen : (needGenerate node.type && !inGenerate) = false := by
      simp [hop, needGenerate]
    exact dumpVlog_succ g fuel node indent inGenerate parentType P _ hgen hP
      (dumpVlog_switch_ternary g _ node indent inGenerate parentType c a b C A B hop hc ha hb
        hC hA hB)
  · intro hattr
    unfold attribute_prefix at hP
    rw [hattr] at hP
    cases hP
    rfl

theorem C15_witness :
    isBinaryOperator exampleSum.type = true
      ∧ exampleSum.dumpVlog exampleGiven 2 [] false AST_NONE = .ok (lit "(x)+(w)") :=
  ⟨rfl,
    ((C15_operators_parenthesized exampleGiven 1 exampleSum [] false AST_NONE []
      (by decide)).2.1 exampleX exampleW (lit "x") (lit "w") rfl rfl rfl (by decide)
      (by decide)).trans (by decide)⟩

/-! ## Attributes in ascending order of their names -/

theorem str_lt_irrefl : ∀ (a : Str), str_lt a a = false
  | [] => rfl
  | c :: s => by simp [str_lt, str_lt_irrefl s]

theorem str_lt_trans : ∀ (a b c : Str), str_lt a b = true → str_lt b c = true →
    str_lt a c = true
  | [], [], _, h, _ => by simp [str_lt] at h
  | [], _ :: _, [], _, h => by simp [str_lt] at h
  | [], _ :: _, _ :: _, _, _ => by simp [str_lt]
  | _ :: _, [], _, h, _ => by simp [str_lt] at h
  | _ :: _, _ :: _, [], _, h => by simp [str_lt] at h
  | x :: a, y :: b, z :: c, h1, h2 => by
    simp only [str_lt] at h1 h2 ⊢
    by_cases hxy : x < y
    · by_cases hyz : y < z
      · simp [lt_trans hxy hyz]
      · by_cases hzy : z < y
        · simp [hyz, hzy] at h2
        · have : y = z := le_antisymm (not_lt.1 hzy) (not_lt.1 hyz)
          subst this
          simp [hxy]
    · by_cases hyx : y < x
      · simp [hxy, hyx] at h1
      · have : x = y := le_antisymm (not_lt.1 hyx) (not_lt.1 hxy)
        subst this
        simp only [hxy, if_false] at h1
        by_cases hyz : x < z
        · simp [hyz]
        · by_cases hzy : z < x
          · simp [hyz, hzy] at h2
          · simp only [hyz, hzy, if_false] at h2 ⊢
            exact str_lt_trans a b c h1 h2

theorem str_lt_total : ∀ (a b : Str), str_lt a b = false → a ≠ b → str_lt b a = true
  | [], [], _, h => absurd rfl h
  | [], _ :: _, h, _ => by simp [str_lt] at h
  | _ :: _, [], _, _ => by simp [str_lt]
  | x :: a, y :: b, h1, h2 => by
    simp only [str_lt] at h1 ⊢
    by_cases hxy : x < y
    · simp [hxy] at h1
    · by_cases hyx : y < x
      · simp [hyx]
      · have : x = y := le_antisymm (not_lt.1 hyx) (not_lt.1 hxy)
        subst this
        simp only [hxy, if_false] at h1 ⊢
        exact str_lt_total a b h1 (fun e => h2 (by rw [e]))

theorem mem_map_emplace (k : Str) (v : AstNode) : ∀ (m : List (Str × AstNode)) (x : Str × AstNode),
    x ∈ map_emplace k v m → x = (k, v) ∨ x ∈ m
  | [], x, h => by simpa [map_emplace] using h
  | (k2, v2) :: rest, x, h => by
    simp only [map_emplace] at h
    split at h
    · simp only [List.mem_cons] at h ⊢
      exact h
    · split at h
      · exact Or.inr h
      · simp only [List.mem_cons] at h ⊢
        rcases h with h | h
        · exact Or.inr (Or.inl h)
        · rcases mem_map_emplace k v rest x h with h | h
          · exact Or.inl h
          · exact Or.inr (Or.inr h)

theorem map_emplace_sorted (k : Str) (v : AstNode) : ∀ (m : List (Str × AstNode)),
    m.Pairwise attr_lt → (map_emplace k v m).Pairwise attr_lt
  | [], _ => by simp [map_emplace]
  | (k2, v2) :: rest, h => by
    have hr := List.pairwise_cons.1 h
    simp only [map_emplace]
    split
    · rename_i hlt
      refine List.pairwise_cons.2 ⟨?_, h⟩
      intro x hx
      rcases List.mem_cons.1 hx with rfl | hx
      · exact hlt
      · exact str_lt_trans _ _ _ hlt (hr.1 x hx)
    · rename_i hnlt
      split
      · exact h
      · rename_i hne
        refine List.pairwise_cons.2 ⟨?_, map_emplace_sorted k v rest hr.2⟩
        intro x hx
        rcases mem_map_emplace k v rest x hx with rfl | hx
        · have hne2 : k ≠ k2 := by simpa using hne
          exact str_lt_total k k2 (by simpa using hnlt) hne2
        · exact hr.1 x hx

theorem map_emplace_perm (k : Str) (v : AstNode) : ∀ (m : List (Str × AstNode)),
    k ∉ m.map Prod.fst → (map_emplace k v m).Perm ((k, v) :: m)
  | [], _ => by simp [map_emplace]
  | (k2, v2) :: rest, h => by
    simp only [List.map_cons, List.mem_cons, not_or] at h
    simp only [map_emplace]
    split
    · exact List.Perm.refl _
    · have hne : (k == k2) = false := by simpa using h.1
      simp only [hne, Bool.false_eq_true, if_false]
      exact ((map_emplace_perm k v rest h.2).cons (k2, v2)).trans (List.Perm.swap _ _ _)

theorem foldl_emplace_sorted : ∀ (l m : List (Str × AstNode)),
    m.Pairwise attr_lt →
    (l.foldl (fun m kv => map_emplace kv.1 kv.2 m) m).Pairwise attr_lt
  | [], _, h => h
  | a :: l, m, h => foldl_emplace_sorted l _ (map_emplace_sorted a.1 a.2 m h)

theorem foldl_emplace_perm : ∀ (l m : List (Str × AstNode)),
    (l.map Prod.fst).Nodup → (∀ x ∈ l, x.1 ∉ m.map Prod.fst) →
    (l.foldl (fun m kv => map_emplace kv.1 kv.2 m) m).Perm (m ++ l)
  | [], m, _, _ => by simp
  | a :: l, m, hnd, hdis => by
    simp only [List.map_cons, List.nodup_cons] at hnd
    have ha : a.1 ∉ m.map Prod.fst := hdis a (List.mem_cons_self _ _)
    have hp := map_emplace_perm a.1 a.2 m ha
    have hdis2 : ∀ x ∈ l, x.1 ∉ (map_emplace a.1 a.2 m).map Prod.fst := by
      intro x hx hmem
      obtain ⟨y, hy, hyx⟩ := List.mem_map.1 hmem
      rcases mem_map_emplace a.1 a.2 m y hy with rfl | hy
      · exact hnd.1 (List.mem_map.2 ⟨x, hx, hyx.symm⟩)
      · exact hdis x (List.mem_cons_of_mem _ hx) (List.mem_map.2 ⟨y, hy, hyx⟩)
    simp only [List.foldl_cons]
    refine (foldl_emplace_perm l _ hnd.2 hdis2).trans ?_
    refine (List.Perm.append_right l hp).trans ?_
    simp only [List.cons_append]
    exact (List.perm_middle).symm

theorem sorted_attributes_sorted (attrs : List (Str × AstNode)) :
    (sorted_attributes attrs).Pairwise attr_lt :=
  foldl_emplace_sorted attrs [] List.Pairwise.nil

theorem sorted_attributes_perm (attrs : List (Str × AstNode))
    (hnd : (attrs.map Prod.fst).Nodup) : (sorted_attributes attrs).Perm attrs := by
  have h := foldl_emplace_perm attrs [] hnd (by simp)
  simpa [sorted_attributes] using h

theorem sorted_attributes_perm_eq (l1 l2 : List (Str × AstNode)) (hp : l1.Perm l2)
    (hnd : (l1.map Prod.fst).Nodup) : sorted_attributes l1 = sorted_attributes l2 := by
  have hnd2 : (l2.map Prod.fst).Nodup := (hp.map Prod.fst).nodup_iff.1 hnd
  have h1 := sorted_attributes_perm l1 hnd
  have h2 := sorted_attributes_perm l2 hnd2
  have hperm : (sorted_attributes l1).Perm (sorted_attributes l2) := h1.trans (hp.trans h2.symm)
  haveI : IsAntisymm (Str × AstNode) attr_lt :=
    ⟨fun a b hab hba => by
      have := str_lt_trans _ _ _ hab hba
      rw [str_lt_irrefl] at this
      cases this⟩
  exact List.eq_of_perm_of_sorted hperm (sorted_attributes_sorted l1) (sorted_attributes_sorted l2)

/-- Claim C14: the attributes are printed from a copy `sorted_attributes` that
is in strictly ascending order of the name and, the names being distinct, has
the same entries as the attributes; each entry is printed as one item
`(* name = value *)` before the rest; so two nodes of the same kind whose
attributes are the same entries in another order get the same attribute
prefix; and the prefix is the beginning of the text of a node that is not
wrapped into `generate`. -/
theorem C14_attributes_sorted (g : Given) (fuel : Nat) (indent : Str) (inGenerate : Bool) :
    (∀ node : AstNode, (sorted_attributes node.attributes).Pairwise attr_lt)
    ∧ (∀ node : AstNode, (node.attributes.map Prod.fst).Nodup →
        (sorted_attributes node.attributes).Perm node.attributes)
    ∧ (∀ (dump : Dumper) (type : AstNodeType) (name : Str) (value : AstNode)
        (rest : List (Str × AstNode)) (V R : Str),
        dump value [] inGenerate type = .ok V →
        dumpVlog_attributes g dump rest indent inGenerate type = .ok R →
        dumpVlog_attributes g dump ((name, value) :: rest) indent inGenerate type
          = .ok (c_str indent ++ lit "(* " ++ c_str (id2vl name g.id2vl_is_hierarchical_name)
              ++ lit " = " ++ V ++ lit " *)" ++ (if indent.isEmpty then [] else lit "\n")
              ++ R))
    ∧ (∀ n1 n2 : AstNode, n1.type = n2.type → n1.attributes.Perm n2.attributes →
        (n1.attributes.map Prod.fst).Nodup →
        attribute_prefix g (AstNode.dumpVlog g fuel) n1 indent inGenerate
          = attribute_prefix g (AstNode.dumpVlog g fuel) n2 indent inGenerate)
    ∧ (∀ (node : AstNode) (parentType : AstNodeType) (T : Str),
        (needGenerate node.type && !inGenerate) = false →
        node.dumpVlog g (fuel + 1) indent inGenerate parentType = .ok T →
        ∃ P B, attribute_prefix g (AstNode.dumpVlog g fuel) node indent inGenerate = .ok P
          ∧ T = P ++ B) := by
  refine ⟨fun node => sorted_attributes_sorted _, fun node h => sorted_attributes_perm _ h,
    ?_, ?_, ?_⟩
  · intro dump type name value rest V R hV hR
    unfold dumpVlog_attributes at hR ⊢
    rw [forEach]
    simp only [bind, Except.bind, pure, Except.pure] at hR ⊢
    rw [hV]
    simp only []
    rw [hR]
  · intro n1 n2 ht hp hnd
    unfold attribute_prefix
    rw [sorted_attributes_perm_eq _ _ hp hnd, ht]
  · intro node parentType T hgen hT
    rw [AstNode.dumpVlog] at hT
    simp only [hgen, Bool.false_eq_true, if_false] at hT
    unfold attribute_prefix
    cases hP : dumpVlog_attributes g (AstNode.dumpVlog g fuel)
        (sorted_attributes node.attributes) indent inGenerate node.type with
    | error e =>
      rw [hP] at hT
      cases hT
    | ok P =>
      rw [hP] at hT
      cases hB : dumpVlog_switch g (AstNode.dumpVlog g fuel) node indent inGenerate
          parentType with
      | error e =>
        rw [hB] at hT
        cases hT
      | ok B =>
        rw [hB] at hT
        cases hT
        exact ⟨P, B, rfl, rfl⟩

theorem C14_witness :
    exampleWireBA.attributes.map Prod.fst = [lit "\\b", lit "\\a"]
      ∧ exampleWireAB.attributes.map Prod.fst = [lit "\\a", lit "\\b"]
      ∧ attribute_prefix exampleGiven (AstNode.dumpVlog exampleGiven 1) exampleWireBA
          (lit "  ") false
        = attribute_prefix exampleGiven (AstNode.dumpVlog exampleGiven 1) exampleWireAB
          (lit "  ") false
      ∧ attribute_prefix exampleGiven (AstNode.dumpVlog exampleGiven 1) exampleWireAB
          (lit "  ") false
        = .ok (lit "  (* a = \x27d0 *)\n  (* b = \x27d1 *)\n") :=
  ⟨rfl, rfl,
    (C14_attributes_sorted exampleGiven 1 (lit "  ") false).2.2.2.1 exampleWireBA exampleWireAB
      rfl (List.Perm.swap _ _ _) (by decide),
    by decide⟩

/-! ## Generate wrapping -/

/-- Claim C11: a generate block that a transformed `if` separates from its
enclosing generate block is not wrapped exactly once.  `dumpTransformedIf`
renders the branches with the default `inGenerate`; when that default is
`false`, the inner block of `exampleOuterGenblock` opens a second `generate`
inside the open one, and when it is `true`, the block inside `exampleIf`,
rendered from outside a generate context, gets no `generate` at all. -/
theorem C11_generate_not_exactly_once (g : Given) :
    (g.dumpVlog_inGenerate = false →
      exampleOuterGenblock.dumpVlog g 6 [] false AST_NONE
        = .ok (lit "generate\n  begin\n    if (x)\n      generate\n        begin\n        end\n      endgenerate\n  end\nendgenerate\n"))
    ∧ (g.dumpVlog_inGenerate = true →
      exampleIf.dumpVlog g 4 [] false AST_NONE = .ok (lit "if (x)\n  begin\n  end\n")) := by
  obtain ⟨f1, ig, pt, f4, f5, f6, f7, f8, f9, f10, f11, f12, f13, f14, f15, f16, f17⟩ := g
  constructor
  · intro h
    simp only at h
    subst h
    rfl
  · intro h
    simp only at h
    subst h
    rfl

theorem C11_witness :
    exampleGiven.dumpVlog_inGenerate = false
      ∧ exampleOuterGenblock.dumpVlog exampleGiven 6 [] false AST_NONE
        = .ok (lit "generate\n  begin\n    if (x)\n      generate\n        begin\n        end\n      endgenerate\n  end\nendgenerate\n")
      ∧ exampleGivenInGenerate.dumpVlog_inGenerate = true
      ∧ exampleIf.dumpVlog exampleGivenInGenerate 4 [] false AST_NONE
        = .ok (lit "if (x)\n  begin\n  end\n") :=
  ⟨rfl, (C11_generate_not_exactly_once exampleGiven).1 rfl, rfl,
    (C11_generate_not_exactly_once exampleGivenInGenerate).2 rfl⟩

/-! ## Splitting a port type -/

theorem getline_segments_no_dot : ∀ (q segment : Str), q.count 46 = 0 →
    getline_segments segment q = if (segment ++ q).isEmpty then [] else [segment ++ q]
  | [], segment, _ => by simp [getline_segments]
  | c :: q, segment, h => by
    have hc : c ≠ 46 := by
      intro hc
      simp [hc] at h
    have hq : q.count 46 = 0 := by
      rw [List.count_cons] at h
      omega
    have hb : (c == (46 : Byte)) = false := by simpa using hc
    rw [getline_segments, hb, if_neg (by simp), getline_segments_no_dot q _ hq]
    simp

theorem getline_segments_dot : ∀ (p segment q : Str), p.count 46 = 0 →
    getline_segments segment (p ++ 46 :: q) = (segment ++ p) :: getline_segments [] q
  | [], segment, q, _ => by simp [getline_segments]
  | c :: p, segment, q, h => by
    have hc : c ≠ 46 := by
      intro hc
      simp [hc] at h
    have hp : p.count 46 = 0 := by
      rw [List.count_cons] at h
      omega
    have hb : (c == (46 : Byte)) = false := by simpa using hc
    rw [List.cons_append, getline_segments, hb, if_neg (by simp),
      getline_segments_dot p _ q hp]
    simp

/-- With exactly one dot that is not the last character, the two parts are
returned. -/
theorem split_modport_one_dot (p q : Str) (hp : p.count 46 = 0) (hq : q.count 46 = 0)
    (hne : q ≠ []) :
    split_modport_from_type (p ++ 46 :: q) = .ok (p, q) := by
  have hcount : (p ++ 46 :: q).count 46 = 1 := by
    rw [List.count_append, List.count_cons]
    simp [hp, hq]
  have hseg : getline_segments [] (p ++ 46 :: q) = [p, q] := by
    rw [getline_segments_dot p [] q hp, getline_segments_no_dot q [] hq]
    simp [hne]
  unfold split_modport_from_type
  simp [hcount, hseg]

/-- With a dot as the last character and no other dot, `seglist[1]` is not
there. -/
theorem split_modport_trailing_dot (p : Str) (hp : p.count 46 = 0) :
    split_modport_from_type (p ++ [46]) = .error .outOfRange := by
  have hcount : (p ++ [46]).count 46 = 1 := by
    rw [List.count_append]
    simp [hp]
  have hseg : getline_segments [] (p ++ [46]) = [p] := by
    rw [getline_segments_dot p [] [] hp]
    simp [getline_segments]
  unfold split_modport_from_type
  simp [hcount, hseg]

/-- Claim C16: `split_modport_from_type` ends in `log_error` exactly for the
texts with more than one dot, and returns the text and an empty modport name
for a text without a dot. -/
theorem C16_split_modport_fatal (s : Str) :
    (split_modport_from_type s = .error .fatal ↔ 1 < s.count 46)
      ∧ (s.count 46 = 0 → split_modport_from_type s = .ok (s, [])) := by
  unfold split_modport_from_type
  constructor
  · by_cases h0 : s.count 46 = 0
    · simp [h0]
    · by_cases h1 : s.count 46 = 1
      · simp only [h1]
        simp
        split <;> simp
      · have : 1 < s.count 46 := by omega
        simp [h0, h1, this]
  · intro h0
    simp [h0]

theorem C16_witness :
    split_modport_from_type (lit "a.b.c") = .error .fatal
      ∧ split_modport_from_type (lit "intf") = .ok (lit "intf", []) :=
  ⟨(C16_split_modport_fatal (lit "a.b.c")).1.2 (by decide),
    (C16_split_modport_fatal (lit "intf")).2 (by decide)⟩

/-- Claim C17: for a text with exactly one dot that is its last character,
`split_modport_from_type` reads `seglist[1]` of a one-element vector, since
`std::getline` gives no empty last segment; when something follows the only
dot, also when the dot is the first character, the result is the pair of the
text before and the text after the dot. -/
theorem C17_trailing_dot_out_of_range :
    (∀ p : Str, p.count 46 = 0 → split_modport_from_type (p ++ [46]) = .error .outOfRange)
      ∧ (∀ p q : Str, p.count 46 = 0 → q.count 46 = 0 → q ≠ [] →
          split_modport_from_type (p ++ 46 :: q) = .ok (p, q)) :=
  ⟨fun p hp => split_modport_trailing_dot p hp,
    fun p q hp hq hne => split_modport_one_dot p q hp hq hne⟩

theorem C17_witness :
    split_modport_from_type (lit "a.") = .error .outOfRange
      ∧ split_modport_from_type (lit ".") = .error .outOfRange
      ∧ split_modport_from_type (lit ".b") = .ok ([], lit "b")
      ∧ split_modport_from_type (lit "a.b") = .ok (lit "a", lit "b") :=
  ⟨C17_trailing_dot_out_of_range.1 (lit "a") (by decide),
    C17_trailing_dot_out_of_range.1 [] (by decide),
    C17_trailing_dot_out_of_range.2 [] (lit "b") (by decide) (by decide) (by decide),
    C17_trailing_dot_out_of_range.2 (lit "a") (lit "b") (by decide) (by decide) (by decide)⟩

/-! ## Exploding an interface port -/

theorem find_in_modport_eq_find : ∀ (cs : List AstNode) (name : Str),
    find_in_modport cs name = cs.find? (is_member_named name)
  | [], _ => rfl
  | ch :: rest, name => by
    rw [find_in_modport, List.find?_cons, find_in_modport_eq_find rest name]
    by_cases h1 : ch.type = AST_MODPORTMEMBER
    · by_cases h2 : ch.data.str = name
      · simp [is_member_named, h1, h2]
      · have h3 : (ch.data.str == name) = false := by simpa using h2
        simp [is_member_named, h1, h3]
    · have h3 : (ch.type == AST_MODPORTMEMBER) = false := by simpa using h1
      simp [is_member_named, h3]

theorem new_interface_wire_shape (g : Given) (env : Env) (intfname : Str) (w : Str × Int)
    (is_input is_output : Bool) :
    ∀ d cs attrs, (new_interface_wire g env w.2 (interface_wire_name g intfname w.1)).1
        = .mk d cs attrs →
      is_interface_wire g intfname w
        (.mk { d with is_input := is_input, is_output := is_output } cs attrs)
        is_input is_output := by
  intro d cs attrs h
  simp only [new_interface_wire, AstNode.new] at h
  cases h
  refine ⟨rfl, rfl, rfl, rfl, _, _, _, env, _, rfl, rfl, rfl, rfl, rfl⟩

theorem push_child_children (m c : AstNode) : (m.push_child c).children = m.children ++ [c] := by
  cases m
  rfl

theorem push_child_data (m c : AstNode) : (m.push_child c).data = m.data := by
  cases m
  rfl

theorem push_child_attributes (m c : AstNode) : (m.push_child c).attributes = m.attributes := by
  cases m
  rfl

theorem explode_none (g : Given) (intfname : Str) : ∀ (wires : List (Str × Int)) (env : Env)
    (m : AstNode),
    (explode_interface_port g env m wires intfname none).1.data = m.data
      ∧ (explode_interface_port g env m wires intfname none).1.attributes = m.attributes
      ∧ ∃ new, (explode_interface_port g env m wires intfname none).1.children
            = m.children ++ new
          ∧ List.Forall₂ (fun w n => is_interface_wire g intfname w n true true) wires new
  | [], env, m => ⟨rfl, rfl, [], by simp [explode_interface_port], List.Forall₂.nil⟩
  | w :: rest, env, m => by
    rw [explode_interface_port]
    cases hw : (new_interface_wire g env w.2 (intfname ++ lit "." ++ c_str (g.log_id w.1))).1 with
    | mk d cs attrs =>
      have hshape := new_interface_wire_shape g env intfname w true true d cs attrs hw
      simp only []
      obtain ⟨h1, h2, new, h3, h4⟩ := explode_none g intfname rest
        (new_interface_wire g env w.2 (intfname ++ lit "." ++ c_str (g.log_id w.1))).2
        (m.push_child (.mk { d with is_input := true, is_output := true } cs attrs))
      refine ⟨by rw [h1, push_child_data], by rw [h2, push_child_attributes], _ :: new, ?_,
        List.Forall₂.cons hshape h4⟩
      rw [h3, push_child_children, List.append_assoc]
      rfl

theorem explode_some (g : Given) (intfname : Str) (mp : AstNode) :
    ∀ (wires : List (Str × Int)) (env : Env) (m : AstNode),
    (explode_interface_port g env m wires intfname (some mp)).1.data = m.data
      ∧ (explode_interface_port g env m wires intfname (some mp)).1.attributes = m.attributes
      ∧ ∃ new, (explode_interface_port g env m wires intfname (some mp)).1.children
            = m.children ++ new
          ∧ List.Forall₂
              (fun w n => ∃ ch,
                mp.children.find? (is_member_named ([92] ++ c_str (g.log_id w.1))) = some ch
                  ∧ is_interface_wire g intfname w n ch.data.is_input ch.data.is_output)
              (wires.filter (fun w =>
                (mp.children.find? (is_member_named ([92] ++ c_str (g.log_id w.1)))).isSome))
              new
  | [], env, m => ⟨rfl, rfl, [], by simp [explode_interface_port], List.Forall₂.nil⟩
  | w :: rest, env, m => by
    rw [explode_interface_port]
    simp only [find_in_modport_eq_find]
    cases hf : mp.children.find? (is_member_named ([92] ++ c_str (g.log_id w.1))) with
    | none =>
      simp only [List.filter_cons, hf, Option.isSome_none, Bool.false_eq_true, if_false]
      exact explode_some g intfname mp rest _ m
    | some ch =>
      cases hw : (new_interface_wire g env w.2 (intfname ++ lit "." ++ c_str (g.log_id w.1))).1 with
      | mk d cs attrs =>
        have hshape := new_interface_wire_shape g env intfname w ch.data.is_input
          ch.data.is_output d cs attrs hw
        simp only [List.filter_cons, hf, Option.isSome_some, if_true]
        obtain ⟨h1, h2, new, h3, h4⟩ := explode_some g intfname mp rest
          (new_interface_wire g env w.2 (intfname ++ lit "." ++ c_str (g.log_id w.1))).2
          (m.push_child (.mk { d with is_input := ch.data.is_input,
                                      is_output := ch.data.is_output } cs attrs))
        refine ⟨by rw [h1, push_child_data], by rw [h2, push_child_attributes], _ :: new, ?_,
          List.Forall₂.cons ⟨ch, hf, hshape⟩ h4⟩
        rw [h3, push_child_children, List.append_assoc]
        rfl

/-- Claim C18: with a modport, `explode_interface_port` keeps the children of
the module tree and appends one wire for each interface wire for which the
modport has an `AST_MODPORTMEMBER` child called backslash plus the member
name, in the order of the interface wires and for no other wire; the wire is
named `<prefix>.<member>` and its `is_input` and `is_output` are those of the
first such child of the modport. -/
theorem C18_explode_with_modport (g : Given) (env : Env) (module_ast : AstNode)
    (wires : List (Str × Int)) (intfname : Str) (modport : AstNode) :
    ∃ new, (explode_interface_port g env module_ast wires intfname (some modport)).1.children
          = module_ast.children ++ new
      ∧ List.Forall₂
          (fun w n => ∃ ch,
            modport.children.find? (is_member_named ([92] ++ c_str (g.log_id w.1))) = some ch
              ∧ is_interface_wire g intfname w n ch.data.is_input ch.data.is_output)
          (wires.filter (fun w =>
            (modport.children.find? (is_member_named ([92] ++ c_str (g.log_id w.1)))).isSome))
          new :=
  (explode_some g intfname modport wires env module_ast).2.2

theorem C18_witness :
    (∃ new, (explode_interface_port exampleGiven exampleEnv exampleModuleTree
            exampleInterfaceWires (lit "p") (some exampleModport)).1.children
          = exampleModuleTree.children ++ new
      ∧ List.Forall₂
          (fun w n => ∃ ch,
            exampleModport.children.find?
                (is_member_named ([92] ++ c_str (exampleGiven.log_id w.1))) = some ch
              ∧ is_interface_wire exampleGiven (lit "p") w n ch.data.is_input ch.data.is_output)
          (exampleInterfaceWires.filter (fun w =>
            (exampleModport.children.find?
              (is_member_named ([92] ++ c_str (exampleGiven.log_id w.1)))).isSome))
          new)
      ∧ (explode_interface_port exampleGiven exampleEnv exampleModuleTree
            exampleInterfaceWires (lit "p") (some exampleModport)).1.children.map
          (fun n => (n.data.str, n.data.is_input, n.data.is_output))
        = [(lit "p.x", false, true)] :=
  ⟨C18_explode_with_modport exampleGiven exampleEnv exampleModuleTree exampleInterfaceWires
    (lit "p") exampleModport, by decide⟩

/-- Claim C19: without a modport, `explode_interface_port` changes nothing of
the module tree but its children, keeps the children it had and appends, in
the order of the interface wires, exactly one wire for each of them: an
`AST_WIRE` named `<prefix>.<member>` with `is_input` and `is_output` set and a
single `AST_RANGE` child over the constants `width - 1` and `0`. -/
theorem C19_explode_without_modport (g : Given) (env : Env) (module_ast : AstNode)
    (wires : List (Str × Int)) (intfname : Str) :
    (explode_interface_port g env module_ast wires intfname none).1.data = module_ast.data
      ∧ (explode_interface_port g env module_ast wires intfname none).1.attributes
          = module_ast.attributes
      ∧ ∃ new, (explode_interface_port g env module_ast wires intfname none).1.children
            = module_ast.children ++ new
          ∧ List.Forall₂ (fun w n => is_interface_wire g intfname w n true true) wires new :=
  explode_none g intfname wires env module_ast

theorem C19_witness :
    (∃ new, (explode_interface_port exampleGiven exampleEnv exampleModuleTree
            exampleInterfaceWires (lit "p") none).1.children
          = exampleModuleTree.children ++ new
      ∧ List.Forall₂ (fun w n => is_interface_wire exampleGiven (lit "p") w n true true)
          exampleInterfaceWires new)
      ∧ (explode_interface_port exampleGiven exampleEnv exampleModuleTree
            exampleInterfaceWires (lit "p") none).1.children.map
          (fun n => (n.data.str, n.data.is_input, n.data.is_output))
        = [(lit "p.x", true, true), (lit "p.y", true, true)]
      ∧ (explode_interface_port exampleGiven exampleEnv exampleModuleTree
            exampleInterfaceWires (lit "p") none).1.children.map
          (fun n => n.children.map (fun r => r.children.map (fun c => c.asInt true)))
        = [[[some 7, some 0]], [[some 0, some 0]]] :=
  ⟨(C19_explode_without_modport exampleGiven exampleEnv exampleModuleTree
    exampleInterfaceWires (lit "p")).2.2, by decide, by decide⟩

/-! ## The name of a derived module -/

theorem clone_head (t : AstNode) (env : Env) :
    (t.clone env).1.type = t.type ∧ (t.clone env).1.data.str = t.data.str
      ∧ ((t.clone env).1.children = [] ↔ t.children = []) := by
  cases t with
  | mk d cs attrs =>
    refine ⟨by simp [AstNode.clone, AstNode.type, AstNode.data],
      by simp [AstNode.clone, AstNode.data], ?_⟩
    have hl := cloneChildren_length cs (AstNode.new env AST_NONE none none none).2
    simp only [AstNode.clone, AstNode.children]
    constructor
    · intro h
      rw [h] at hl
      exact List.length_eq_zero.1 hl.symm
    · intro h
      subst h
      exact List.length_eq_zero.1 hl

theorem cloneChildren_same_heads : ∀ (cs : List AstNode) (env : Env),
    same_heads (cloneChildren cs env).1 cs
  | [], _ => by simp [cloneChildren, same_heads]
  | c :: cs, env => by
    obtain ⟨h1, h2, h3⟩ := clone_head c env
    simp only [cloneChildren, same_heads]
    exact ⟨h1, h2, h3, cloneChildren_same_heads cs _⟩

theorem take_beq_eq_isPrefixOf : ∀ (p name : Str),
    (name.take p.length == p) = p.isPrefixOf name
  | [], name => by simp
  | a :: p, [] => by simp [List.isPrefixOf]
  | a :: p, b :: name => by
    have ih := take_beq_eq_isPrefixOf p name
    simp only [List.length_cons, List.take_succ_cons, List.isPrefixOf]
    rw [← ih]
    by_cases hab : a = b
    · subst hab
      by_cases h2 : List.take p.length name = p
      · simp [h2]
      · have h3 : (List.take p.length name == p) = false := by simpa using h2
        simp [h2, h3]
    · have h1 : (a == b) = false := by simpa using hab
      have h2 : ¬ b = a := fun e => hab e.symm
      simp [h1, h2]

theorem stripped_name_eq (name : Str) :
    (if name.take 9 == lit "$abstract" then name.drop 9 else name) = base_name name := by
  have h := take_beq_eq_isPrefixOf (lit "$abstract") name
  have hl : (lit "$abstract").length = 9 := by decide
  rw [hl] at h
  unfold base_name
  rw [h]

theorem lookup_map_erase_self {α : Type} (key : Str) : ∀ (m : List (Str × α)),
    (map_erase m key).lookup key = none
  | [] => rfl
  | (k, v) :: rest => by
    unfold map_erase
    rw [List.filter_cons]
    by_cases h : k = key
    · subst h
      simpa [map_erase] using lookup_map_erase_self k rest
    · have h2 : (key == k) = false := by simpa using fun e => h e.symm
      simp only [bne_iff_ne, ne_eq, h, not_false_eq_true, decide_True, if_true, List.lookup_cons,
        h2]
      exact lookup_map_erase_self key rest

theorem lookup_map_erase_ne {α : Type} (key other : Str) (hne : other ≠ key) :
    ∀ (m : List (Str × α)), (map_erase m key).lookup other = m.lookup other
  | [] => rfl
  | (k, v) :: rest => by
    unfold map_erase
    rw [List.filter_cons]
    by_cases h : k = key
    · subst h
      have h2 : (other == k) = false := by simpa using hne
      simpa [List.lookup_cons, h2, map_erase] using lookup_map_erase_ne k other hne rest
    · simp only [bne_iff_ne, ne_eq, h, not_false_eq_true, decide_True, if_true, List.lookup_cons]
      cases (other == k)
      · exact lookup_map_erase_ne key other hne rest
      · rfl

theorem lookup_map_assign_self {α : Type} (key : Str) (value : α) : ∀ (m : List (Str × α)),
    (map_assign m key value).lookup key = some value
  | [] => by simp [map_assign, List.lookup_cons]
  | (k, v) :: rest => by
    unfold map_assign
    by_cases h : k = key
    · subst h
      simp [List.lookup_cons]
    · have h1 : (k == key) = false := by simpa using h
      have h2 : (key == k) = false := by simpa using fun e => h e.symm
      simp only [h1, Bool.false_eq_true, if_false, List.lookup_cons, h2]
      exact lookup_map_assign_self key value rest

theorem lookup_map_assign_ne {α : Type} (key other : Str) (value : α) (hne : other ≠ key) :
    ∀ (m : List (Str × α)), (map_assign m key value).lookup other = m.lookup other
  | [] => by
    have h2 : (other == key) = false := by simpa using hne
    simp [map_assign, List.lookup_cons, h2]
  | (k, v) :: rest => by
    unfold map_assign
    by_cases h : k = key
    · subst h
      have h2 : (other == k) = false := by simpa using hne
      simp [List.lookup_cons, h2]
    · have h1 : (k == key) = false := by simpa using h
      simp only [h1, Bool.false_eq_true, if_false, List.lookup_cons]
      cases (other == k)
      · exact lookup_map_assign_ne key other value hne rest
      · rfl

theorem map_at_of_lookup {α : Type} (m : List (Str × α)) (key : Str) (value : α)
    (h : m.lookup key = some value) : map_at m key = .ok value := by
  unfold map_at
  rw [h]

theorem map_count_of_lookup {α : Type} (m : List (Str × α)) (key : Str) (value : α)
    (h : m.lookup key = some value) : map_count m key = true := by
  unfold map_count
  rw [h]
  rfl

/-! ## The attribute steps of the pipeline -/

/-- Counterexample to C26 as stated: with library mode and no-whitebox both
off, a `lib_whitebox` attribute is removed and no `whitebox` attribute is made;
in library mode (no-whitebox off) it is converted into a `whitebox`
attribute. -/
theorem C26_counterexample :
    (exampleGlobals.flag_lib = false ∧ exampleGlobals.flag_nowb = false
      ∧ (process_module_whitebox exampleGlobals [(lit "\\lib_whitebox", exampleOne)]).map
          (fun a => (map_count a (lit "\\whitebox"), map_count a (lit "\\lib_whitebox")))
        = .ok (false, false))
    ∧ (exampleGlobalsLib.flag_lib = true ∧ exampleGlobalsLib.flag_nowb = false
      ∧ (process_module_whitebox exampleGlobalsLib [(lit "\\lib_whitebox", exampleOne)]).map
          (fun a => (map_count a (lit "\\whitebox"), map_count a (lit "\\lib_whitebox")))
        = .ok (true, false)) := by
  decide

/-- Claim C26, amended: a `lib_whitebox` attribute with value `n` is consumed
in every case; it becomes the `whitebox` attribute (with value `n`) when
library mode is on and no-whitebox is off, and it is removed without being
converted when library mode is off or no-whitebox is on, the `whitebox`
attribute then being what it was, or absent under no-whitebox.  No other
attribute changes. -/
theorem C26_lib_whitebox (globals : Globals) (attributes : List (Str × AstNode)) (n : AstNode)
    (hn : attributes.lookup (lit "\\lib_whitebox") = some n) :
    ∃ result, process_module_whitebox globals attributes = .ok result
      ∧ result.lookup (lit "\\lib_whitebox") = none
      ∧ (globals.flag_lib = true ∧ globals.flag_nowb = false →
          result.lookup (lit "\\whitebox") = some n)
      ∧ (globals.flag_lib = false ∨ globals.flag_nowb = true →
          result.lookup (lit "\\whitebox")
            = if globals.flag_nowb then none else attributes.lookup (lit "\\whitebox"))
      ∧ ∀ other, other ≠ lit "\\lib_whitebox" → other ≠ lit "\\whitebox" →
          result.lookup other = attributes.lookup other := by
  have hne : lit "\\lib_whitebox" ≠ lit "\\whitebox" := by decide
  have hne2 : lit "\\whitebox" ≠ lit "\\lib_whitebox" := by decide
  -- the attributes after the no-whitebox block
  obtain ⟨a1, ha1, hl1, hw1, ho1⟩ : ∃ a1 : List (Str × AstNode),
      (if globals.flag_nowb && map_count attributes (lit "\\whitebox") then
        map_erase attributes (lit "\\whitebox") else attributes) = a1
      ∧ a1.lookup (lit "\\lib_whitebox") = some n
      ∧ a1.lookup (lit "\\whitebox")
          = (if globals.flag_nowb then none else attributes.lookup (lit "\\whitebox"))
      ∧ ∀ other, other ≠ lit "\\whitebox" → a1.lookup other = attributes.lookup other := by
    refine ⟨_, rfl, ?_, ?_, ?_⟩
    · split
      · rw [lookup_map_erase_ne _ _ hne, hn]
      · exact hn
    · cases hnowb : globals.flag_nowb
      · simp
      · cases hc : map_count attributes (lit "\\whitebox")
        · simp only [Bool.true_and, Bool.false_eq_true, if_false, if_true]
          unfold map_count at hc
          cases hl : attributes.lookup (lit "\\whitebox") with
          | none => rfl
          | some v => rw [hl] at hc; cases hc
        · simp only [Bool.true_and, if_true]
          exact lookup_map_erase_self _ _
    · intro other ho
      split
      · exact lookup_map_erase_ne _ _ ho _
      · rfl
  have hcount : map_count a1 (lit "\\lib_whitebox") = true := map_count_of_lookup _ _ _ hl1
  unfold process_module_whitebox
  simp only [ha1, hcount, if_true]
  by_cases hcase : (!globals.flag_lib || globals.flag_nowb) = true
  · simp only [hcase, if_true]
    refine ⟨_, rfl, lookup_map_erase_self _ _, ?_, ?_, ?_⟩
    · rintro ⟨h1, h2⟩
      rw [h1, h2] at hcase
      cases hcase
    · intro _
      rw [lookup_map_erase_ne _ _ hne2, hw1]
    · intro other h1 h2
      rw [lookup_map_erase_ne _ _ h1, ho1 other h2]
  · have hcase2 : (!globals.flag_lib || globals.flag_nowb) = false := by simpa using hcase
    simp only [hcase2, Bool.false_eq_true, if_false]
    obtain ⟨a2, ha2, hl2, ho2⟩ : ∃ a2 : List (Str × AstNode),
        (if map_count a1 (lit "\\whitebox") then map_erase a1 (lit "\\whitebox") else a1) = a2
        ∧ a2.lookup (lit "\\lib_whitebox") = some n
        ∧ ∀ other, other ≠ lit "\\whitebox" → a2.lookup other = a1.lookup other := by
      refine ⟨_, rfl, ?_, ?_⟩
      · split
        · rw [lookup_map_erase_ne _ _ hne, hl1]
        · exact hl1
      · intro other ho
        split
        · exact lookup_map_erase_ne _ _ ho _
        · rfl
    simp only [ha2, map_at_of_lookup _ _ _ hl2]
    refine ⟨_, rfl, lookup_map_erase_self _ _, ?_, ?_, ?_⟩
    · intro _
      rw [lookup_map_erase_ne _ _ hne2, lookup_map_assign_self]
    · intro h
      exfalso
      rcases h with h | h <;> simp [h] at hcase2
    · intro other h1 h2
      rw [lookup_map_erase_ne _ _ h1, lookup_map_assign_ne _ _ _ h2, ho2 other h2, ho1 other h2]

theorem C26_witness :
    ∃ result, process_module_whitebox exampleGlobalsLib
        [(lit "\\lib_whitebox", exampleOne), (lit "\\keep", exampleZero)] = .ok result
      ∧ result.lookup (lit "\\lib_whitebox") = none
      ∧ result.lookup (lit "\\whitebox") = some exampleOne
      ∧ result.lookup (lit "\\keep") = some exampleZero :=
  (C26_lib_whitebox exampleGlobalsLib
    [(lit "\\lib_whitebox", exampleOne), (lit "\\keep", exampleZero)] exampleOne rfl).imp
    (fun _ h => ⟨h.1, h.2.1, h.2.2.1 ⟨rfl, rfl⟩,
      (h.2.2.2.2 (lit "\\keep") (by decide) (by decide)).trans rfl⟩)

/-- Counterexample to C27 as stated: a module without children is implicitly a
blackbox, and with a `blackbox` attribute of value 0 the classification after
the blackbox-attribute step is still `true`, not the truth value `false` of
the attribute. -/
theorem C27_counterexample :
    process_module_classify exampleGlobals exampleModuleTree = true
      ∧ exampleZero.asBool = some false
      ∧ process_module_blackbox true [(lit "\\blackbox", exampleZero)] = .ok true := by
  decide

/-- Claim C27, amended: when the module carries a constant-valued `blackbox`
attribute and is not implicitly classified as a blackbox, the classification
right after the blackbox-attribute step is the truth value of the attribute
(some bit is 1); when the module is implicitly a blackbox, the step does not
read the attribute and the classification stays `true`, also for an attribute
of value 0. -/
theorem C27_blackbox_attribute_step (attributes : List (Str × AstNode)) (n : AstNode)
    (hn : attributes.lookup (lit "\\blackbox") = some n) (hc : n.type = AST_CONSTANT) :
    process_module_blackbox false attributes = .ok (n.bits.any (fun bit => bit == S1))
      ∧ n.asBool = some (n.bits.any (fun bit => bit == S1))
      ∧ process_module_blackbox true attributes = .ok true := by
  refine ⟨?_, ?_, ?_⟩
  · unfold process_module_blackbox
    simp only [Bool.not_false, Bool.true_and, map_count_of_lookup _ _ _ hn, if_true,
      map_at_of_lookup _ _ _ hn, process_module_attribute_bool, AstNode.asBool, hc, bne_self_eq_false,
      Bool.false_eq_true, if_false, beq_self_eq_true]
  · simp [AstNode.asBool, hc]
  · simp [process_module_blackbox]

theorem C27_witness :
    process_module_blackbox false [(lit "\\blackbox", exampleOne)] = .ok true
      ∧ process_module_blackbox false [(lit "\\blackbox", exampleZero)] = .ok false
      ∧ process_module_blackbox true [(lit "\\blackbox", exampleZero)] = .ok true :=
  ⟨(C27_blackbox_attribute_step [(lit "\\blackbox", exampleOne)] exampleOne rfl rfl).1.trans
      (by decide),
    (C27_blackbox_attribute_step [(lit "\\blackbox", exampleZero)] exampleZero rfl rfl).1.trans
      (by decide),
    (C27_blackbox_attribute_step [(lit "\\blackbox", exampleZero)] exampleZero rfl rfl).2.2⟩

/-! ## Blackbox reduction -/

theorem asInt_mkconst_int_zero (env : Env) :
    (AstNode.mkconst_int env 0 false 0).1.asInt false = some 0 := by
  have hb : (AstNode.mkconst_int env 0 false 0).1.bits = [] := by
    rw [mkconst_int_bits]
    rfl
  have ht := mkconst_int_type env 0 false 0
  unfold AstNode.asInt
  simp only [ht, beq_self_eq_true, if_true, AstNode.bitsAsConst, hb]
  rfl

theorem process_module_new_children_kept : ∀ (children : List AstNode) (env : Env),
    List.Forall₂ blackbox_kept (children.filter blackbox_keeps)
      (process_module_new_children children env).1
  | [], _ => List.Forall₂.nil
  | child :: rest, env => by
    rw [process_module_new_children, List.filter_cons]
    by_cases h1 : (child.type == AST_WIRE && (child.data.is_input || child.data.is_output)) = true
    · have hk : blackbox_keeps child = true := by simp [blackbox_keeps, h1]
      have hnp : child.type ≠ AST_PARAMETER := by
        intro hp
        simp [hp] at h1
      simp only [h1, hk, if_true]
      exact List.Forall₂.cons (by simp [blackbox_kept, hnp])
        (process_module_new_children_kept rest env)
    · by_cases h2 : (child.type == AST_PARAMETER) = true
      · have hk : blackbox_keeps child = true := by simp [blackbox_keeps, h2]
        have hp : child.type = AST_PARAMETER := by simpa using h2
        simp only [h1, h2, hk, if_true, Bool.false_eq_true, if_false]
        refine List.Forall₂.cons ?_ (process_module_new_children_kept rest _)
        simp only [blackbox_kept, hp, if_true]
        cases child with
        | mk d cs attrs =>
          refine ⟨rfl, _, rfl, mkconst_int_type env 0 false 0, asInt_mkconst_int_zero env, ?_⟩
          rw [mkconst_int_data]
      · by_cases h3 : process_module_is_specify child = true
        · have hk : blackbox_keeps child = true := by simp [blackbox_keeps, h3]
          have hnp : child.type ≠ AST_PARAMETER := by
            intro hp
            simp [hp] at h2
          simp only [h1, h2, h3, hk, if_true, Bool.false_eq_true, if_false]
          exact List.Forall₂.cons (by simp [blackbox_kept, hnp])
            (process_module_new_children_kept rest env)
        · have hk : blackbox_keeps child = false := by
            simp only [blackbox_keeps]
            simp only [Bool.not_eq_true] at h1 h2 h3
            simp [h1, h2, h3]
          simp only [h1, h2, h3, hk, Bool.false_eq_true, if_false]
          exact process_module_new_children_kept rest env

theorem process_module_reduce_shape (g : Given) (ast : AstNode) (env : Env) :
    ∃ attributes env1, process_module_reduce g ast env
        = (.mk ast.data (process_module_new_children ast.children env).1 attributes, env1)
      ∧ map_count attributes (lit "\\blackbox") = true := by
  cases ast with
  | mk d children attributes =>
    simp only [process_module_reduce, AstNode.data, AstNode.children]
    generalize (if map_count
        (if map_count attributes (lit "\\whitebox") = true then
          map_erase attributes (lit "\\whitebox") else attributes)
        (lit "\\lib_whitebox") = true then
      map_erase
        (if map_count attributes (lit "\\whitebox") = true then
          map_erase attributes (lit "\\whitebox") else attributes)
        (lit "\\lib_whitebox")
      else
        (if map_count attributes (lit "\\whitebox") = true then
          map_erase attributes (lit "\\whitebox") else attributes)) = a
    by_cases h : map_count a (lit "\\blackbox") = true
    · simp only [h, Bool.not_true, Bool.false_eq_true, if_false]
      exact ⟨_, _, rfl, h⟩
    · simp only [Bool.not_eq_true] at h
      simp only [h, Bool.not_false, if_true]
      exact ⟨_, _, rfl, map_count_of_lookup _ _ _ (lookup_map_assign_self _ _ _)⟩

/-- Claim C25: the block that reduces a blackbox module leaves the fields of
the module node, makes its children the children that are port wires,
parameters or specify cells, in their order, a parameter having a constant of
value 0 as its only child and the other kept children being unchanged, and
leaves the tree with a `blackbox` attribute; `process_module` runs this block
on the tree exactly when the classification after the attribute steps is
`true`. -/
theorem C25_blackbox_reduction (g : Given) (ast : AstNode) (env : Env) :
    (process_module_reduce g ast env).1.data = ast.data
      ∧ List.Forall₂ blackbox_kept (ast.children.filter blackbox_keeps)
          (process_module_reduce g ast env).1.children
      ∧ map_count (process_module_reduce g ast env).1.attributes (lit "\\blackbox") = true
      ∧ ∀ (globals : Globals) (implicit blackbox1 blackbox2 : Bool)
          (attributes kept : List (Str × AstNode)),
          process_module_whitebox globals ast.attributes = .ok attributes →
          process_module_blackbox implicit attributes = .ok blackbox1 →
          process_module_not_whitebox blackbox1 attributes = .ok blackbox2 →
          process_module_noblackbox blackbox2 attributes = .ok (true, kept) →
          process_module_prepare g globals implicit ast env
            = .ok (process_module_reduce g (.mk ast.data ast.children kept) env) := by
  obtain ⟨attrs, env1, hr, hb⟩ := process_module_reduce_shape g ast env
  refine ⟨?_, ?_, ?_, ?_⟩
  · rw [hr]
    rfl
  · rw [hr]
    exact process_module_new_children_kept ast.children env
  · rw [hr]
    exact hb
  · intro globals implicit blackbox1 blackbox2 attrs kept h1 h2 h3 h4
    simp only [process_module_prepare, h1, h2, h3, h4, bind, Except.bind, pure, Except.pure,
      if_true]

theorem C25_witness :
    List.Forall₂ blackbox_kept (exampleBlackbox.children.filter blackbox_keeps)
        (process_module_reduce exampleGiven exampleBlackbox exampleEnv).1.children
      ∧ (process_module exampleGiven exampleCollaborators 1 exampleGlobals exampleEnv
            exampleBlackbox false none).map
          (fun p => (p.ast.children.map (fun child => (child.data.str, child.type)),
            p.ast.children.map (fun child => child.children.map (fun v => v.asInt false)),
            map_count p.ast.attributes (lit "\\blackbox"),
            map_count p.current_module.attributes (lit "\\blackbox")))
        = .ok ([(lit "\\a", AST_WIRE), (lit "\\b", AST_WIRE), (lit "\\W", AST_PARAMETER)],
            [[], [], [some 0]], true, true) :=
  ⟨(C25_blackbox_reduction exampleGiven exampleBlackbox exampleEnv).2.1, by decide⟩

/-! ## Lowering in three passes -/

theorem process_module_lower_eq (c : Collaborators) (globals : Globals) (test : AstNode → Bool) :
    ∀ (children : List AstNode) (state : Lowering),
      process_module_lower c globals test children state
        = lower_each c globals (children.filter test) state
  | [], _ => rfl
  | node :: rest, state => by
    rw [process_module_lower, List.filter_cons]
    cases h : test node
    · simp only [Bool.false_eq_true, if_false]
      exact process_module_lower_eq c globals test rest state
    · simp only [if_true, lower_each]
      cases c.genRTLIL globals node state with
      | error e => rfl
      | ok state1 => exact process_module_lower_eq c globals test rest state1

theorem lower_each_append (c : Collaborators) (globals : Globals) :
    ∀ (l1 l2 : List AstNode) (state : Lowering),
      lower_each c globals (l1 ++ l2) state
        = (lower_each c globals l1 state).bind (lower_each c globals l2)
  | [], _, _ => rfl
  | node :: rest, l2, state => by
    rw [List.cons_append, lower_each, lower_each]
    cases c.genRTLIL globals node state with
    | error e => rfl
    | ok state1 => exact lower_each_append c globals rest l2 state1

theorem lowering_order_perm : ∀ (children : List AstNode),
    (lowering_order children).Perm children
  | [] => List.Perm.refl _
  | node :: rest => by
    have ih := lowering_order_perm rest
    unfold lowering_order at ih ⊢
    simp only [List.filter_cons]
    by_cases h1 : (node.type == AST_WIRE || node.type == AST_MEMORY) = true
    · have h3 : (node.type == AST_INITIAL) = false := by
        cases ht : node.type <;> simp [ht] at h1 ⊢
      simp only [h1, h3, if_true, Bool.not_true, Bool.false_and, Bool.false_eq_true, if_false,
        List.cons_append]
      exact List.Perm.cons _ ih
    · simp only [Bool.not_eq_true] at h1
      by_cases h3 : (node.type == AST_INITIAL) = true
      · simp only [h1, h3, if_true, Bool.not_true, Bool.and_false, Bool.false_eq_true, if_false]
        exact List.perm_middle.trans (List.Perm.cons _ ih)
      · simp only [Bool.not_eq_true] at h3
        simp only [h1, h3, Bool.not_false, Bool.and_self, if_true, Bool.false_eq_true, if_false]
        refine List.Perm.trans ?_ (List.Perm.cons _ ih)
        simp only [List.append_assoc, List.cons_append]
        exact List.perm_middle

theorem process_module_lowering_eq (c : Collaborators) (globals : Globals) (ast : AstNode)
    (current_module : Module) (env : Env) (attributes : List (Str × Const))
    (ha : process_module_attributes ast.attributes current_module.attributes = .ok attributes) :
    process_module_lowering c globals ast current_module env
        = ((lower_each c globals
              (ast.children.filter (fun n => n.type == AST_WIRE || n.type == AST_MEMORY)
                ++ ast.children.filter (fun n =>
                    !(n.type == AST_WIRE || n.type == AST_MEMORY) && !(n.type == AST_INITIAL)))
              { current_module := { current_module with attributes := attributes }
                ignoreThisSignalsInInitial := []
                env := env }).bind
            (fun state2 =>
              lower_each c globals (ast.children.filter (fun n => n.type == AST_INITIAL))
                { state2 with
                  ignoreThisSignalsInInitial :=
                    c.sort_and_unify state2.ignoreThisSignalsInInitial })).map
          (fun state3 => { state3 with ignoreThisSignalsInInitial := [] }) := by
  have e2 : process_module_second_pass
      = fun n => !(n.type == AST_WIRE || n.type == AST_MEMORY) && !(n.type == AST_INITIAL) := by
    funext n
    simp only [process_module_second_pass, bne, Bool.not_or]
  have e1 : process_module_first_pass
      = fun n => n.type == AST_WIRE || n.type == AST_MEMORY := rfl
  have e3 : process_module_third_pass = fun n => n.type == AST_INITIAL := rfl
  simp only [process_module_lowering, ha, process_module_lower_eq, lower_each_append, e1, e2,
    e3, bind, Except.bind, pure, Except.pure, Except.map]
  cases lower_each c globals
      (ast.children.filter (fun n => n.type == AST_WIRE || n.type == AST_MEMORY))
      { current_module := { current_module with attributes := attributes }
        ignoreThisSignalsInInitial := [], env := env } with
  | error e => rfl
  | ok state1 =>
    simp only []
    cases lower_each c globals
        (ast.children.filter (fun n =>
          !(n.type == AST_WIRE || n.type == AST_MEMORY) && !(n.type == AST_INITIAL)))
        state1 with
    | error e => rfl
    | ok state2 => rfl

/-- Claim C29: once the attributes are stored, `process_module` lowers the
children in the order `lowering_order`: all wires and memories, then all
children that are neither wire, memory nor initial block, then (after
`sort_and_unify`) all initial blocks, each group in declaration order.  That
order holds every child exactly once, and in it no initial block comes before
a child that is not one. -/
theorem C29_three_passes (c : Collaborators) (globals : Globals) (ast : AstNode)
    (current_module : Module) (env : Env) (attributes : List (Str × Const))
    (ha : process_module_attributes ast.attributes current_module.attributes = .ok attributes) :
    process_module_lowering c globals ast current_module env
        = ((lower_each c globals
              (ast.children.filter (fun n => n.type == AST_WIRE || n.type == AST_MEMORY)
                ++ ast.children.filter (fun n =>
                    !(n.type == AST_WIRE || n.type == AST_MEMORY) && !(n.type == AST_INITIAL)))
              { current_module := { current_module with attributes := attributes }
                ignoreThisSignalsInInitial := []
                env := env }).bind
            (fun state2 =>
              lower_each c globals (ast.children.filter (fun n => n.type == AST_INITIAL))
                { state2 with
                  ignoreThisSignalsInInitial :=
                    c.sort_and_unify state2.ignoreThisSignalsInInitial })).map
          (fun state3 => { state3 with ignoreThisSignalsInInitial := [] })
      ∧ (lowering_order ast.children).Perm ast.children
      ∧ ∀ (before after : List AstNode) (node : AstNode),
          lowering_order ast.children = before ++ node :: after →
          node.type = AST_INITIAL → ∀ later ∈ after, later.type = AST_INITIAL := by
  refine ⟨?_, lowering_order_perm _, ?_⟩
  · exact process_module_lowering_eq c globals ast current_module env attributes ha
  · intro before after node hsplit hinit later hlater
    unfold lowering_order at hsplit
    -- the node is an initial block, so it stands in the last group
    have hnot : ∀ x ∈ ast.children.filter (fun n => n.type == AST_WIRE || n.type == AST_MEMORY)
        ++ ast.children.filter (fun n =>
            !(n.type == AST_WIRE || n.type == AST_MEMORY) && !(n.type == AST_INITIAL)),
        x.type ≠ AST_INITIAL := by
      intro x hx
      rcases List.mem_append.1 hx with h | h
      · have := (List.mem_filter.1 h).2
        intro e
        simp [e] at this
      · have := (List.mem_filter.1 h).2
        intro e
        simp [e] at this
    have hall : ∀ x ∈ ast.children.filter (fun n => n.type == AST_INITIAL),
        x.type = AST_INITIAL := by
      intro x hx
      simpa using (List.mem_filter.1 hx).2
    rcases List.append_eq_append_iff.1 hsplit with ⟨a', h1, h2⟩ | ⟨c', h1, h2⟩
    · -- the split point lies in the last group
      have : later ∈ ast.children.filter (fun n => n.type == AST_INITIAL) := by
        rw [h2]
        exact List.mem_append_right _ (List.mem_cons_of_mem _ hlater)
      exact hall later this
    · cases c' with
      | nil =>
        simp only [List.nil_append] at h2
        have : later ∈ ast.children.filter (fun n => n.type == AST_INITIAL) := by
          rw [← h2]
          exact List.mem_cons_of_mem _ hlater
        exact hall later this
      | cons x xs =>
        exfalso
        simp only [List.cons_append, List.cons.injEq] at h2
        have hx : node ∈ ast.children.filter
            (fun n => n.type == AST_WIRE || n.type == AST_MEMORY)
          ++ ast.children.filter (fun n =>
              !(n.type == AST_WIRE || n.type == AST_MEMORY) && !(n.type == AST_INITIAL)) := by
          rw [h1, ← h2.1]
          exact List.mem_append_right _ (List.mem_cons_self _ _)
        exact hnot node hx hinit

theorem C29_witness :
    process_module_attributes exampleOrdered.attributes
        (process_module_new exampleCollaborators exampleOrdered).attributes
      = .ok (process_module_new exampleCollaborators exampleOrdered).attributes
      ∧ exampleOrdered.children.map (fun n => n.data.str) = [lit "i", lit "s", lit "\\w"]
      ∧ (lowering_order exampleOrdered.children).map (fun n => n.data.str)
        = [lit "\\w", lit "s", lit "i"]
      ∧ (process_module_lowering exampleCollaborators exampleGlobals exampleOrdered
            (process_module_new exampleCollaborators exampleOrdered) exampleEnv).map
          (fun state => (state.current_module.wires_.map Prod.fst,
            state.current_module.cells_.map (fun cell => cell.name)))
        = .ok ([lit "\\w"], [lit "s", lit "i"]) :=
  ⟨by decide, by decide, by decide,
    (congrArg (Except.map (fun state => (state.current_module.wires_.map Prod.fst,
        state.current_module.cells_.map (fun cell => cell.name))))
      (C29_three_passes exampleCollaborators exampleGlobals exampleOrdered
        (process_module_new exampleCollaborators exampleOrdered) exampleEnv
        (process_module_new exampleCollaborators exampleOrdered).attributes
        (by decide)).1).trans (by decide)⟩

/-! ## The run of `process_module` -/

theorem Design.has_eq_isSome (design : Design) (name : Str) :
    design.has name = (design.module name).isSome := by
  unfold Design.has Design.module
  induction design.modules_ with
  | nil => rfl
  | cons m rest ih =>
    rw [List.any_cons, List.find?_cons]
    cases m.name == name
    · simpa using ih
    · rfl

theorem Design.has_of_module (design : Design) (name : Str) (found : Module)
    (h : design.module name = some found) : design.has name = true := by
  rw [Design.has_eq_isSome, h]
  rfl

theorem Design.module_name (design : Design) (name : Str) (found : Module)
    (h : design.module name = some found) : found.name = name := by
  unfold Design.module at h
  have := List.find?_some h
  simpa using this

theorem Design.has_remove (design : Design) (name : Str) (found : Module)
    (h : design.module name = some found) : (design.remove found).has name = false := by
  have hn := Design.module_name design name found h
  unfold Design.has Design.remove
  simp only [List.any_filter, hn]
  induction design.modules_ with
  | nil => rfl
  | cons m rest ih =>
    rw [List.any_cons, ih]
    cases hm : m.name == name
    · simp
    · have : m.name = name := by simpa using hm
      simp [this]

theorem process_definition_eq (g : Given) (c : Collaborators) (fuel : Nat)
    (args : ProcessArguments) (child : AstNode) (state : ProcessState)
    (with_packages : List AstNode × Env)
    (hpk : process_packages state.design.verilog_packages
      (child.children ++ (cloneChildren state.design.verilog_globals state.env).1)
      (cloneChildren state.design.verilog_globals state.env).2 = .ok with_packages) :
    process_definition g c fuel args child state
      = match process_existing c args.nooverwrite args.overwrite state.design
            (process_name state.globals.flag_icells args.defer child.data.str) with
        | .error e => .error e
        | .ok none =>
          .ok (.mk { child.data with
                      str := process_name state.globals.flag_icells args.defer child.data.str }
                with_packages.1 child.attributes, { state with env := with_packages.2 })
        | .ok (some design) =>
          (process_module g c fuel state.globals with_packages.2
              (.mk { child.data with
                      str := process_name state.globals.flag_icells args.defer child.data.str }
                with_packages.1 child.attributes) args.defer none).map
            (fun p => (p.ast,
              { design := design.add p.current_module, env := p.env, globals := p.globals })) := by
  simp only [process_definition, hpk, bind, Except.bind, pure, Except.pure, Except.map]
  cases process_existing c args.nooverwrite args.overwrite state.design
      (process_name state.globals.flag_icells args.defer child.data.str) with
  | error e => rfl
  | ok existing =>
    cases existing with
    | none => rfl
    | some design => rfl

/-- Counterexample to C30 as stated: with neither policy supplied, the module
`m` of the tree is processed although the design already has a module `m`,
because that module has the blackbox attribute: no error is raised, the
existing module (the one without a stored tree) is removed and the new one is
inserted. -/
theorem C30_counterexample :
    exampleArguments.nooverwrite = false ∧ exampleArguments.overwrite = false
      ∧ exampleDesignBlackbox.has (lit "\\m") = true
      ∧ exampleDesignBlackbox.modules_.map (fun m => (m.name, m.ast.isSome))
          = [(lit "\\m", false)]
      ∧ (process exampleGiven exampleCollaborators 1 exampleDesignBlackbox exampleEnv
            exampleGlobals exampleRoot exampleArguments).map
          (fun r => r.2.design.modules_.map (fun m => (m.name, m.ast.isSome)))
        = .ok [(lit "\\m", true)] := by
  decide

/-- Claim C30, amended: for a module whose name the design already has,
`AST::process` raises the fatal re-definition error exactly when neither
no-overwrite nor overwrite is supplied and the existing module has no blackbox
attribute; with no-overwrite the existing module is kept and the new
definition is skipped; in the remaining cases (overwrite without
no-overwrite, or an existing blackbox module without no-overwrite) the
existing module is removed and the module made from the new definition is
inserted. -/
theorem C30_redefinition_policy (g : Given) (c : Collaborators) (fuel : Nat)
    (args : ProcessArguments) (child : AstNode) (state : ProcessState) (existing_mod : Module)
    (with_packages : List AstNode × Env)
    (hex : state.design.module
      (process_name state.globals.flag_icells args.defer child.data.str) = some existing_mod)
    (hpk : process_packages state.design.verilog_packages
      (child.children ++ (cloneChildren state.design.verilog_globals state.env).1)
      (cloneChildren state.design.verilog_globals state.env).2 = .ok with_packages) :
    (process_existing c args.nooverwrite args.overwrite state.design
          (process_name state.globals.flag_icells args.defer child.data.str) = .error .fatal
        ↔ (args.nooverwrite = false ∧ args.overwrite = false
            ∧ c.get_blackbox_attribute existing_mod = false))
      ∧ (args.nooverwrite = false → args.overwrite = false →
          c.get_blackbox_attribute existing_mod = false →
          process_definition g c fuel args child state = .error .fatal)
      ∧ (args.nooverwrite = true →
          ∃ child1, process_definition g c fuel args child state
            = .ok (child1, { state with env := with_packages.2 }))
      ∧ (args.nooverwrite = false →
          (args.overwrite = true ∨ c.get_blackbox_attribute existing_mod = true) →
          (state.design.remove existing_mod).has
              (process_name state.globals.flag_icells args.defer child.data.str) = false
            ∧ process_definition g c fuel args child state
              = (process_module g c fuel state.globals with_packages.2
                  (.mk { child.data with
                          str := process_name state.globals.flag_icells args.defer
                            child.data.str }
                    with_packages.1 child.attributes) args.defer none).map
                  (fun p => (p.ast,
                    { design := (state.design.remove existing_mod).add p.current_module
                      env := p.env, globals := p.globals }))) := by
  have hhas := Design.has_of_module _ _ _ hex
  have hstep : process_existing c args.nooverwrite args.overwrite state.design
      (process_name state.globals.flag_icells args.defer child.data.str)
      = if (!args.nooverwrite && !args.overwrite && !c.get_blackbox_attribute existing_mod)
          = true then .error .fatal
        else if args.nooverwrite = true then .ok none
        else .ok (some (state.design.remove existing_mod)) := by
    simp only [process_existing, hhas, hex, if_true]
  refine ⟨?_, ?_, ?_, ?_⟩
  · rw [hstep]
    cases args.nooverwrite <;> cases args.overwrite <;>
      cases c.get_blackbox_attribute existing_mod <;> simp
  · intro h1 h2 h3
    rw [process_definition_eq g c fuel args child state with_packages hpk, hstep]
    simp [h1, h2, h3]
  · intro h1
    refine ⟨.mk { child.data with
        str := process_name state.globals.flag_icells args.defer child.data.str }
      with_packages.1 child.attributes, ?_⟩
    rw [process_definition_eq g c fuel args child state with_packages hpk, hstep]
    simp only [h1, Bool.not_true, Bool.false_and, Bool.false_eq_true, if_false, if_true]
  · intro h1 h2
    refine ⟨Design.has_remove _ _ _ hex, ?_⟩
    have hcond : (!args.nooverwrite && !args.overwrite
        && !c.get_blackbox_attribute existing_mod) = false := by
      rcases h2 with h | h <;> simp [h]
    rw [process_definition_eq g c fuel args child state with_packages hpk, hstep,
      if_neg (by rw [hcond]; decide), if_neg (by rw [h1]; decide)]

theorem C30_witness :
    exampleDesign.has (lit "\\m") = true
      ∧ process_definition exampleGiven exampleCollaborators 1 exampleArguments exampleModuleTree
          { design := exampleDesign, env := exampleEnv, globals := exampleGlobals }
        = .error .fatal
      ∧ (process exampleGiven exampleCollaborators 1 exampleDesign exampleEnv exampleGlobals
          exampleRoot exampleArguments).map (fun _ => ()) = .error .fatal
      ∧ (process exampleGiven exampleCollaborators 1 exampleDesign exampleEnv exampleGlobals
          exampleRoot { exampleArguments with nooverwrite := true }).map
          (fun r => r.2.design.modules_.map (fun m => (m.name, m.ast.isSome)))
        = .ok [(lit "\\m", false)]
      ∧ (process exampleGiven exampleCollaborators 1 exampleDesign exampleEnv exampleGlobals
          exampleRoot { exampleArguments with overwrite := true }).map
          (fun r => r.2.design.modules_.map (fun m => (m.name, m.ast.isSome)))
        = .ok [(lit "\\m", true)] :=
  ⟨by decide,
    (C30_redefinition_policy exampleGiven exampleCollaborators 1 exampleArguments
      exampleModuleTree { design := exampleDesign, env := exampleEnv, globals := exampleGlobals }
      (exampleStored (lit "\\m") []) (exampleModuleTree.children, exampleEnv) rfl rfl).2.1
      rfl rfl rfl,
    by decide, by decide, by decide⟩

/-! ## The rewrite of the parameters -/

theorem rewrite_parameter_congr (g : Given) (e1 e2 : Env) (a b : AstNode) (value : Const)
    (h : a.children = [] ↔ b.children = []) :
    (∃ e, rewrite_parameter g e1 a value = .error e ∧ rewrite_parameter g e2 b value = .error e)
      ∨ (∃ r1 r2, rewrite_parameter g e1 a value = .ok r1
          ∧ rewrite_parameter g e2 b value = .ok r2) := by
  cases a with
  | mk da ca aa =>
    cases b with
    | mk db cb ab =>
      cases ca with
      | nil =>
        have : cb = [] := h.1 rfl
        subst this
        exact Or.inl ⟨_, rfl, rfl⟩
      | cons x xs =>
        cases cb with
        | nil =>
          have := h.2 rfl
          cases this
        | cons y ys => exact Or.inr ⟨_, _, rfl, rfl⟩

theorem derive_rewrite_congr (g : Given) : ∀ (l m : List AstNode) (k : Nat) (info : Str)
    (params : ParamDict) (e1 e2 : Env), same_heads l m →
    (derive_rewrite g l k info params e1).map (fun r => (r.2.1, r.2.2.1))
      = (derive_rewrite g m k info params e2).map (fun r => (r.2.1, r.2.2.1))
  | [], [], _, _, _, _, _, _ => rfl
  | [], _ :: _, _, _, _, _, _, h => by simp [same_heads] at h
  | _ :: _, [], _, _, _, _, _, h => by simp [same_heads] at h
  | a :: l, b :: m, k, info, params, e1, e2, h => by
    obtain ⟨h1, h2, h3, h4⟩ := h
    rw [derive_rewrite, derive_rewrite]
    simp only [h1, h2, parameter_key, parameter_info]
    by_cases ht : (b.type != AST_PARAMETER) = true
    · simp only [ht, if_true, bind, Except.bind, pure, Except.pure]
      have ih := derive_rewrite_congr g l m k info params e1 e2 h4
      cases hl : derive_rewrite g l k info params e1 with
      | error e =>
        rw [hl] at ih
        cases hm : derive_rewrite g m k info params e2 with
        | error e' =>
          rw [hm] at ih
          simpa [Except.map] using ih
        | ok r' =>
          rw [hm] at ih
          simp [Except.map] at ih
      | ok r =>
        rw [hl] at ih
        cases hm : derive_rewrite g m k info params e2 with
        | error e' =>
          rw [hm] at ih
          simp [Except.map] at ih
        | ok r' =>
          rw [hm] at ih
          simpa [Except.map] using ih
    · simp only [ht, Bool.false_eq_true, if_false]
      -- the key is found from the name and the counter, which agree
      generalize hkey : (if (params.lookup b.data.str).isSome = true then some b.data.str
        else if (params.lookup (lit "$" ++ fmt_d ((k + 1 : Nat) : Int))).isSome = true then
          some (lit "$" ++ fmt_d ((k + 1 : Nat) : Int))
        else none) = key
      cases key with
      | none =>
        simp only [bind, Except.bind, pure, Except.pure]
        have ih := derive_rewrite_congr g l m (k + 1) info params e1 e2 h4
        cases hl : derive_rewrite g l (k + 1) info params e1 with
        | error e =>
          rw [hl] at ih
          cases hm : derive_rewrite g m (k + 1) info params e2 with
          | error e' =>
            rw [hm] at ih
            simpa [Except.map] using ih
          | ok r' =>
            rw [hm] at ih
            simp [Except.map] at ih
        | ok r =>
          rw [hl] at ih
          cases hm : derive_rewrite g m (k + 1) info params e2 with
          | error e' =>
            rw [hm] at ih
            simp [Except.map] at ih
          | ok r' =>
            rw [hm] at ih
            simpa [Except.map] using ih
      | some para_id =>
        simp only []
        cases params.lookup para_id with
        | none => rfl
        | some value =>
          simp only [bind, Except.bind, pure, Except.pure]
          rcases rewrite_parameter_congr g e1 e2 a b value h3 with
            ⟨e, ha, hb⟩ | ⟨r1, r2, ha, hb⟩
          · rw [ha, hb]
          · rw [ha, hb]
            simp only []
            have ih := derive_rewrite_congr g l m (k + 1)
              (info ++ (c_str b.data.str ++ lit "=" ++ c_str (g.log_signal value)))
              (dict_erase params para_id) r1.2 r2.2 h4
            cases hl : derive_rewrite g l (k + 1)
                (info ++ (c_str b.data.str ++ lit "=" ++ c_str (g.log_signal value)))
                (dict_erase params para_id) r1.2 with
            | error e =>
              rw [hl] at ih
              cases hm : derive_rewrite g m (k + 1)
                  (info ++ (c_str b.data.str ++ lit "=" ++ c_str (g.log_signal value)))
                  (dict_erase params para_id) r2.2 with
              | error e' =>
                rw [hm] at ih
                simpa [Except.map] using ih
              | ok r' =>
                rw [hm] at ih
                simp [Except.map] at ih
            | ok r =>
              rw [hl] at ih
              cases hm : derive_rewrite g m (k + 1)
                  (info ++ (c_str b.data.str ++ lit "=" ++ c_str (g.log_signal value)))
                  (dict_erase params para_id) r2.2 with
              | error e' =>
                rw [hm] at ih
                simp [Except.map] at ih
              | ok r' =>
                rw [hm] at ih
                simpa [Except.map] using ih

theorem derive_common_modname_map (g : Given) (m : AstModule) (env : Env) (globals : Globals)
    (internal_line_num : Int) (parameters : ParamDict) (e0 : Env) :
    (m.derive_common g env globals internal_line_num parameters).map (fun r => r.modname)
      = (derive_rewrite g m.ast.children 0 [] parameters e0).map
          (fun r => mangled_name g (base_name m.name) r.2.1 parameters.length) := by
  unfold AstModule.derive_common
  simp only [stripped_name_eq]
  cases hm : m.ast with
  | mk d cs attrs =>
    simp only [AstNode.clone, AstNode.children]
    generalize (AstNode.new { env with line_num := internal_line_num } AST_NONE none none
      none).2 = e1
    have hc := derive_rewrite_congr g (cloneChildren cs e1).1 cs 0 [] parameters
      (cloneAttributes attrs (cloneChildren cs e1).2).2 e0 (cloneChildren_same_heads cs e1)
    cases h1 : derive_rewrite g (cloneChildren cs e1).1 0 [] parameters
        (cloneAttributes attrs (cloneChildren cs e1).2).2 with
    | error e =>
      rw [h1] at hc
      cases h2 : derive_rewrite g cs 0 [] parameters e0 with
      | error e' =>
        rw [h2] at hc
        simp only [Except.map, Except.error.injEq] at hc
        simp [bind, Except.bind, Except.map, hc]
      | ok r' =>
        rw [h2] at hc
        simp [Except.map] at hc
    | ok r =>
      rw [h1] at hc
      cases h2 : derive_rewrite g cs 0 [] parameters e0 with
      | error e' =>
        rw [h2] at hc
        simp [Except.map] at hc
      | ok r' =>
        rw [h2] at hc
        simp only [Except.map, Except.ok.injEq, Prod.mk.injEq] at hc
        simp only [bind, Except.bind, pure, Except.pure, Except.map, Except.ok.injEq,
          mangled_name, hc.1]
        by_cases h0 : parameters.length = 0
        · simp [h0]
        · by_cases h60 : r'.2.1.length ≤ 60
          · have : ¬ r'.2.1.length > 60 := by omega
            simp [h0, h60, this]
          · have : r'.2.1.length > 60 := by omega
            simp [h0, h60, this]

theorem derive_common_modname_indep (g : Given) (m : AstModule) (env1 env2 : Env)
    (globals1 globals2 : Globals) (line1 line2 : Int) (parameters : ParamDict) (r1 : Derived)
    (h : m.derive_common g env1 globals1 line1 parameters = .ok r1) :
    ∃ r2, m.derive_common g env2 globals2 line2 parameters = .ok r2
      ∧ r2.modname = r1.modname := by
  have e1 := derive_common_modname_map g m env1 globals1 line1 parameters env1
  have e2 := derive_common_modname_map g m env2 globals2 line2 parameters env1
  rw [h, ← e2] at e1
  cases h2 : m.derive_common g env2 globals2 line2 parameters with
  | error e =>
    rw [h2] at e1
    simp [Except.map] at e1
  | ok r2 =>
    rw [h2] at e1
    simp only [Except.map, Except.ok.injEq] at e1
    exact ⟨r2, rfl, e1.symm⟩

/-- Claim C21: when a call of `derive` on a template with a parameter binding
has returned, a second call on the same template with the same binding, on the
design that the first call left, returns the same name and leaves the design as
it is, whatever the allocator, the global flags, the collaborators and the
budget are then: nothing is elaborated, because the design has the name. -/
theorem C21_derive_idempotent (g : Given) (c : Collaborators) (fuel : Nat) (m : AstModule)
    (env : Env) (globals : Globals) (internal_line_num : Int) (design : Design)
    (parameters : ParamDict) (first : DeriveResult)
    (h : m.derive g c fuel env globals internal_line_num design parameters = .ok first) :
    first.design.has first.modname = true
      ∧ ∀ (c2 : Collaborators) (fuel2 : Nat) (env2 : Env) (globals2 : Globals) (line2 : Int),
          ∃ second, m.derive g c2 fuel2 env2 globals2 line2 first.design parameters
              = .ok second
            ∧ second.modname = first.modname ∧ second.design = first.design := by
  -- what the first call did
  have hfirst : ∃ r, m.derive_common g env globals internal_line_num parameters = .ok r
      ∧ first.modname = r.modname ∧ first.design.has r.modname = true := by
    unfold AstModule.derive at h
    cases hr : m.derive_common g env globals internal_line_num parameters with
    | error e =>
      rw [hr] at h
      simp [bind, Except.bind] at h
    | ok r =>
      rw [hr] at h
      simp only [bind, Except.bind, pure, Except.pure] at h
      refine ⟨r, rfl, ?_⟩
      cases hhas : design.has r.modname
      · simp only [hhas, Bool.not_false, if_true] at h
        cases hp : AstModule.derive_process g c fuel design r (r.new_ast.set_str r.modname) with
        | error e =>
          rw [hp] at h
          cases h
        | ok p =>
          rw [hp] at h
          simp only [Except.ok.injEq] at h
          rw [← h]
          refine ⟨rfl, ?_⟩
          simp only []
          -- the branch only returns when the module is found under the name
          unfold AstModule.derive_process at hp
          simp only [bind, Except.bind, pure, Except.pure] at hp
          cases hq : process_module g c fuel r.globals r.env (r.new_ast.set_str r.modname)
              false none with
          | error e =>
            rw [hq] at hp
            cases hp
          | ok processed =>
            rw [hq] at hp
            simp only [] at hp
            cases hmod : (design.add processed.current_module).module r.modname with
            | none =>
              rw [hmod] at hp
              cases hp
            | some added =>
              rw [hmod] at hp
              simp only [] at hp
              cases hck : c.check added with
              | error e =>
                rw [hck] at hp
                cases hp
              | ok u =>
                rw [hck] at hp
                simp only [Except.ok.injEq] at hp
                rw [← hp]
                exact Design.has_of_module _ _ _ hmod
      · simp only [hhas, Bool.not_true, Bool.false_eq_true, if_false, Except.ok.injEq] at h
        rw [← h]
        exact ⟨rfl, hhas⟩
  obtain ⟨r, hr, hname, hhas⟩ := hfirst
  refine ⟨by rw [hname]; exact hhas, ?_⟩
  intro c2 fuel2 env2 globals2 line2
  obtain ⟨r2, hr2, hn2⟩ := derive_common_modname_indep g m env env2 globals globals2
    internal_line_num line2 parameters r hr
  refine ⟨{ modname := r2.modname, design := first.design, env := r2.env,
            globals := r2.globals }, ?_, by rw [hn2, hname], rfl⟩
  unfold AstModule.derive
  simp only [hr2, bind, Except.bind, pure, Except.pure, hn2, hhas, Bool.not_true,
    Bool.false_eq_true, if_false]

theorem C21_witness :
    ∃ first second,
      exampleTemplate.derive exampleGiven exampleCollaborators 1 exampleEnv exampleGlobals 0
          exampleDesignEmpty exampleBinding = .ok first
        ∧ first.modname = lit "$paramod\\M\\W=10"
        ∧ first.design.modules_.map (fun m => m.name) = [lit "$paramod\\M\\W=10"]
        ∧ exampleTemplate.derive exampleGiven exampleCollaborators 0 first.env first.globals 0
            first.design exampleBinding = .ok second
        ∧ second.modname = first.modname ∧ second.design = first.design := by
  have hrun : (exampleTemplate.derive exampleGiven exampleCollaborators 1 exampleEnv
      exampleGlobals 0 exampleDesignEmpty exampleBinding).map
      (fun r => (r.modname, r.design.modules_.map (fun m => m.name)))
      = .ok (lit "$paramod\\M\\W=10", [lit "$paramod\\M\\W=10"]) := by decide
  cases h : exampleTemplate.derive exampleGiven exampleCollaborators 1 exampleEnv
      exampleGlobals 0 exampleDesignEmpty exampleBinding with
  | error e =>
    rw [h] at hrun
    cases hrun
  | ok first =>
    rw [h] at hrun
    simp only [Except.map, Except.ok.injEq, Prod.mk.injEq] at hrun
    obtain ⟨second, h2, hn, hd⟩ :=
      (C21_derive_idempotent exampleGiven exampleCollaborators 1 exampleTemplate exampleEnv
        exampleGlobals 0 exampleDesignEmpty exampleBinding first h).2
        exampleCollaborators 0 first.env first.globals 0
    exact ⟨first, second, rfl, hrun.1, hrun.2, h2, hn, hd⟩

/-! ## One name per binding -/

/-- Claim C24: on the template `top` with no parameters, the interface-aware
`derive` gives the two bindings (`a` to module `ab`, `b` to module `c`) and
(`a` to module `a`, `b` to module `bc`) the same name, since the names of the
bound modules are put one after the other without a separator; so a call with
the second binding on a design that has the module made for the first one
finds that module and elaborates nothing. -/
theorem C24_interface_names_collide :
    exampleInterfacesAbC.map (fun intf => (intf.1, intf.2.name))
        = [(lit "\\a", lit "\\ab"), (lit "\\b", lit "\\c")]
      ∧ exampleInterfacesABc.map (fun intf => (intf.1, intf.2.name))
        = [(lit "\\a", lit "\\a"), (lit "\\b", lit "\\bc")]
      ∧ (exampleTemplateTop.derive_with_interfaces exampleGiven exampleCollaborators 1
          exampleEnv exampleGlobals 0 exampleDesignEmpty [] exampleInterfacesAbC []).map
          (fun r => (r.modname, r.design.modules_.map (fun m => m.name)))
        = .ok (lit "\\top$interfaces$abc", [lit "\\top$interfaces$abc"])
      ∧ (exampleTemplateTop.derive_with_interfaces exampleGiven exampleCollaborators 1
          exampleEnv exampleGlobals 0 exampleDesignEmpty [] exampleInterfacesABc []).map
          (fun r => (r.modname, r.design.modules_.map (fun m => m.name)))
        = .ok (lit "\\top$interfaces$abc", [lit "\\top$interfaces$abc"])
      ∧ (exampleTemplateTop.derive_with_interfaces exampleGiven exampleCollaborators 0
          exampleEnv exampleGlobals 0 exampleDesignTop [] exampleInterfacesABc []).map
          (fun r => (r.modname, r.design.modules_.map (fun m => (m.name, m.ast.isSome))))
        = .ok (lit "\\top$interfaces$abc", [(lit "\\top$interfaces$abc", false)]) := by
  decide

/-! ## The comparison is an equivalence relation -/

theorem equalsChildren_cons_iff (c c2 : AstNode) (cs cs2 : List AstNode) (o i : Bool) :
    equalsChildren (c :: cs) (c2 :: cs2) o i = true
      ↔ (AstNode.equals c c2 o i = true ∧ equalsChildren cs cs2 o i = true) := by
  simp only [equalsChildren]
  cases AstNode.equals c c2 o i <;> simp

mutual
theorem equals_refl : ∀ (t : AstNode) (o i : Bool), AstNode.equals t t o i = true
  | .mk d cs attrs, o, i => by
    rw [equals_mk_iff]
    exact ⟨Or.inl rfl, fun _ => rfl, rfl, rfl, rfl, rfl, rfl, rfl, rfl, rfl, rfl, rfl, rfl, rfl,
      rfl, rfl, rfl, equalsChildren_refl cs o i⟩
theorem equalsChildren_refl : ∀ (cs : List AstNode) (o i : Bool),
    equalsChildren cs cs o i = true
  | [], _, _ => by simp [equalsChildren]
  | c :: cs, o, i => by
    rw [equalsChildren_cons_iff]
    exact ⟨equals_refl c o i, equalsChildren_refl cs o i⟩
end

mutual
theorem equals_symm : ∀ (a b : AstNode) (o i : Bool),
    AstNode.equals a b o i = true → AstNode.equals b a o i = true
  | .mk a cs at1, .mk b cs2 at2, o, i, h => by
    rw [equals_mk_iff] at h ⊢
    obtain ⟨h1, h2, h3, h4, h5, h6, h7, h8, h9, h10, h11, h12, h13, h14, h15, h16, h17, h18⟩ := h
    refine ⟨?_, fun hi => (h2 hi).symm, h3.symm, h4.symm, h5.symm, h6.symm, h7.symm, h8.symm,
      h9.symm, h10.symm, h11.symm, h12.symm, h13.symm, h14.symm, h15.symm, h16.symm, h17.symm,
      equalsChildren_symm cs cs2 o i h3 h18⟩
    rcases h1 with h1 | ⟨ho, ha, hb⟩
    · exact Or.inl h1.symm
    · exact Or.inr ⟨ho, hb, ha⟩
theorem equalsChildren_symm : ∀ (cs cs2 : List AstNode) (o i : Bool),
    cs.length = cs2.length → equalsChildren cs cs2 o i = true → equalsChildren cs2 cs o i = true
  | [], [], _, _, _, _ => by simp [equalsChildren]
  | [], _ :: _, _, _, hl, _ => by simp at hl
  | _ :: _, [], _, _, hl, _ => by simp at hl
  | c :: cs, c2 :: cs2, o, i, hl, h => by
    rw [equalsChildren_cons_iff] at h ⊢
    exact ⟨equals_symm c c2 o i h.1,
      equalsChildren_symm cs cs2 o i (by simpa using hl) h.2⟩
end

mutual
theorem equals_trans : ∀ (a b c : AstNode) (o i : Bool),
    AstNode.equals a b o i = true → AstNode.equals b c o i = true →
      AstNode.equals a c o i = true
  | .mk a cs at1, .mk b cs2 at2, .mk c cs3 at3, o, i, h, k => by
    rw [equals_mk_iff] at h k ⊢
    obtain ⟨h1, h2, h3, h4, h5, h6, h7, h8, h9, h10, h11, h12, h13, h14, h15, h16, h17, h18⟩ := h
    obtain ⟨k1, k2, k3, k4, k5, k6, k7, k8, k9, k10, k11, k12, k13, k14, k15, k16, k17, k18⟩ := k
    refine ⟨?_, fun hi => (h2 hi).trans (k2 hi), h3.trans k3, h4.trans k4, h5.trans k5,
      h6.trans k6, h7.trans k7, h8.trans k8, h9.trans k9, h10.trans k10, h11.trans k11,
      h12.trans k12, h13.trans k13, h14.trans k14, h15.trans k15, h16.trans k16, h17.trans k17,
      equalsChildren_trans cs cs2 cs3 o i h18 k18⟩
    rcases h1 with h1 | ⟨ho, ha, hb⟩
    · rcases k1 with k1 | ⟨ko, kb, kc⟩
      · exact Or.inl (h1.trans k1)
      · exact Or.inr ⟨ko, by rw [h1]; exact kb, kc⟩
    · rcases k1 with k1 | ⟨ko, kb, kc⟩
      · exact Or.inr ⟨ho, ha, by rw [← k1]; exact hb⟩
      · exact Or.inr ⟨ho, ha, kc⟩
theorem equalsChildren_trans : ∀ (cs cs2 cs3 : List AstNode) (o i : Bool),
    equalsChildren cs cs2 o i = true → equalsChildren cs2 cs3 o i = true →
      equalsChildren cs cs3 o i = true
  | [], _, _, _, _, _, _ => by simp [equalsChildren]
  | _ :: _, [], _, _, _, h, _ => by simp [equalsChildren] at h
  | _ :: _, _ :: _, [], _, _, _, k => by simp [equalsChildren] at k
  | c :: cs, c2 :: cs2, c3 :: cs3, o, i, h, k => by
    rw [equalsChildren_cons_iff] at h k ⊢
    exact ⟨equals_trans c c2 c3 o i h.1 k.1, equalsChildren_trans cs cs2 cs3 o i h.2 k.2⟩
end

/-- Claim C34: for each fixed choice of the flags `orAndBoolEqual` and
`id2AstMustEqual`, `AstNode::equals` is an equivalence relation on trees: it is
reflexive, symmetric and transitive, the relaxation between `AST_REDUCE_OR`
and `AST_REDUCE_BOOL` included. -/
theorem C34_equals_equivalence (orAndBoolEqual id2AstMustEqual : Bool) :
    Equivalence (fun a b : AstNode => AstNode.equals a b orAndBoolEqual id2AstMustEqual = true) :=
  ⟨fun a => equals_refl a orAndBoolEqual id2AstMustEqual,
    fun {a b} h => equals_symm a b orAndBoolEqual id2AstMustEqual h,
    fun {a b c} h k => equals_trans a b c orAndBoolEqual id2AstMustEqual h k⟩

/-- Witness of C34: with the relaxation on, a childless `AST_REDUCE_OR` node
equals a childless `AST_REDUCE_BOOL` node, and the three laws give the
comparison in the other direction and of the first node with itself. -/
theorem C34_witness :
    AstNode.equals (.mk exampleBoolData [] []) (.mk exampleOrData [] []) true false = true
      ∧ AstNode.equals (.mk exampleOrData [] []) (.mk exampleOrData [] []) true false = true :=
  have h : AstNode.equals (.mk exampleOrData [] []) (.mk exampleBoolData [] []) true false
      = true := by decide
  ⟨(C34_equals_equivalence true false).symm h,
    (C34_equals_equivalence true false).trans h ((C34_equals_equivalence true false).symm h)⟩

/-! ## What the comparison does not read -/

mutual
theorem equals_without_unread : ∀ (a b : AstNode) (o i : Bool),
    AstNode.equals a.without_unread b.without_unread o i = AstNode.equals a b o i
  | .mk a cs at1, .mk b cs2 at2, o, i => by
    have hc := equalsChildren_without_unread cs cs2 o i
    have hl : ∀ l : List AstNode, (without_unreadList l).length = l.length := by
      intro l
      induction l with
      | nil => rfl
      | cons x xs ih => simp [without_unreadList, ih]
    simp only [AstNode.without_unread, AstNode.equals, hc, hl]
theorem equalsChildren_without_unread : ∀ (cs cs2 : List AstNode) (o i : Bool),
    equalsChildren (without_unreadList cs) (without_unreadList cs2) o i
      = equalsChildren cs cs2 o i
  | [], _, _, _ => by simp [without_unreadList, equalsChildren]
  | _ :: _, [], _, _ => by simp [without_unreadList, equalsChildren]
  | c :: cs, c2 :: cs2, o, i => by
    simp only [without_unreadList, equalsChildren, equals_without_unread c c2 o i,
      equalsChildren_without_unread cs cs2 o i]
end

/-- Claim C35: `AstNode::equals` never reads the attribute maps, the source
file and line or the real value.  The result for two trees is the result for
the two trees with these parts blanked out at every node; so two trees that
are identical except for these parts compare equal; and two childless
`AST_REALVALUE` nodes made by the constructor (in any two states of the
allocator and of the source position) with any two real values compare equal,
under every choice of the two flags. -/
theorem C35_equals_ignores_unread :
    (∀ (a b : AstNode) (o i : Bool),
        AstNode.equals a b o i = AstNode.equals a.without_unread b.without_unread o i)
    ∧ (∀ (a b : AstNode) (o i : Bool),
        a.without_unread = b.without_unread → AstNode.equals a b o i = true)
    ∧ (∀ (env1 env2 : Env) (r1 r2 : Rat) (o i : Bool),
        AstNode.equals (real_node env1 r1) (real_node env2 r2) o i = true) := by
  refine ⟨fun a b o i => (equals_without_unread a b o i).symm, ?_, ?_⟩
  · intro a b o i h
    rw [← equals_without_unread a b o i, h]
    exact equals_refl _ o i
  · intro env1 env2 r1 r2 o i
    simp [real_node, AstNode.new, AstNode.equals, equalsChildren]

/-- Witness of C35: the tree `exampleTree` (one attribute) and the same tree
without the attribute, at line 7 of a file `f`, compare equal; and so do the
real values 1 and 2 at two addresses. -/
theorem C35_witness :
    AstNode.equals exampleTree
        (match exampleTree with
         | .mk d cs _ => .mk { d with filename := lit "f", linenum := 7 } cs [])
        false true = true
      ∧ (real_node exampleEnv 1).data.realvalue ≠ (real_node (exampleEnvAt 1) 2).data.realvalue
      ∧ AstNode.equals (real_node exampleEnv 1) (real_node (exampleEnvAt 1) 2) false true = true :=
  ⟨C35_equals_ignores_unread.2.1 _ _ false true rfl, by decide,
    C35_equals_ignores_unread.2.2 exampleEnv (exampleEnvAt 1) 1 2 false true⟩

/-! ## Copying keeps the cross-reference -/

mutual
theorem clone_corresponding : ∀ (t : AstNode) (env : Env),
    ∀ pr ∈ AstNode.correspondingNodes (t.clone env).1 t,
      pr.1.data = { pr.2.data with addr := pr.1.data.addr }
  | .mk d cs attrs, env, pr, hpr => by
    simp only [AstNode.clone, AstNode.correspondingNodes, AstNode.children, AstNode.attributes,
      List.mem_cons, List.mem_append] at hpr
    rcases hpr with rfl | hpr | hpr
    · rfl
    · exact cloneChildren_corresponding cs _ pr hpr
    · exact cloneAttributes_corresponding attrs _ pr hpr
theorem cloneChildren_corresponding : ∀ (cs : List AstNode) (env : Env),
    ∀ pr ∈ correspondingList (cloneChildren cs env).1 cs,
      pr.1.data = { pr.2.data with addr := pr.1.data.addr }
  | [], env, pr, hpr => by simp [cloneChildren, correspondingList] at hpr
  | c :: cs, env, pr, hpr => by
    simp only [cloneChildren, correspondingList, List.mem_append] at hpr
    rcases hpr with hpr | hpr
    · exact clone_corresponding c env pr hpr
    · exact cloneChildren_corresponding cs _ pr hpr
theorem cloneAttributes_corresponding : ∀ (attrs : List (Str × AstNode)) (env : Env),
    ∀ pr ∈ correspondingAttrs (cloneAttributes attrs env).1 attrs,
      pr.1.data = { pr.2.data with addr := pr.1.data.addr }
  | [], env, pr, hpr => by simp [cloneAttributes, correspondingAttrs] at hpr
  | (k, v) :: attrs, env, pr, hpr => by
    simp only [cloneAttributes, correspondingAttrs, List.mem_append] at hpr
    rcases hpr with hpr | hpr
    · exact clone_corresponding v env pr hpr
    · exact cloneAttributes_corresponding attrs _ pr hpr
end

mutual
theorem clone_corresponding_nodes : ∀ (t : AstNode) (env : Env),
    (AstNode.correspondingNodes (t.clone env).1 t).map Prod.fst = (t.clone env).1.allNodes
      ∧ (AstNode.correspondingNodes (t.clone env).1 t).map Prod.snd = t.allNodes
  | .mk d cs attrs, env => by
    have h1 := cloneChildren_corresponding_nodes cs (AstNode.new env AST_NONE none none none).2
    have h2 := cloneAttributes_corresponding_nodes attrs
      (cloneChildren cs (AstNode.new env AST_NONE none none none).2).2
    simp only [AstNode.clone, AstNode.correspondingNodes, AstNode.children, AstNode.attributes,
      AstNode.allNodes, List.map_cons, List.map_append, h1.1, h1.2, h2.1, h2.2]
    exact ⟨trivial, trivial⟩
theorem cloneChildren_corresponding_nodes : ∀ (cs : List AstNode) (env : Env),
    (correspondingList (cloneChildren cs env).1 cs).map Prod.fst
        = allNodesList (cloneChildren cs env).1
      ∧ (correspondingList (cloneChildren cs env).1 cs).map Prod.snd = allNodesList cs
  | [], env => by simp [cloneChildren, correspondingList, allNodesList]
  | c :: cs, env => by
    have h1 := clone_corresponding_nodes c env
    have h2 := cloneChildren_corresponding_nodes cs (AstNode.clone c env).2
    simp only [cloneChildren, correspondingList, allNodesList, List.map_append, h1.1, h1.2,
      h2.1, h2.2]
    exact ⟨trivial, trivial⟩
theorem cloneAttributes_corresponding_nodes : ∀ (attrs : List (Str × AstNode)) (env : Env),
    (correspondingAttrs (cloneAttributes attrs env).1 attrs).map Prod.fst
        = allNodesAttrs (cloneAttributes attrs env).1
      ∧ (correspondingAttrs (cloneAttributes attrs env).1 attrs).map Prod.snd
        = allNodesAttrs attrs
  | [], env => by simp [cloneAttributes, correspondingAttrs, allNodesAttrs]
  | (k, v) :: attrs, env => by
    have h1 := clone_corresponding_nodes v env
    have h2 := cloneAttributes_corresponding_nodes attrs (AstNode.clone v env).2
    simp only [cloneAttributes, correspondingAttrs, allNodesAttrs, List.map_append, h1.1, h1.2,
      h2.1, h2.2]
    exact ⟨trivial, trivial⟩
end

mutual
theorem clone_fresh : ∀ (t : AstNode) (env : Env),
    env.next_addr ≤ (t.clone env).2.next_addr
      ∧ ∀ n ∈ (t.clone env).1.allNodes, env.next_addr ≤ n.addr
  | .mk d cs attrs, env => by
    have h1 := cloneChildren_fresh cs (AstNode.new env AST_NONE none none none).2
    have h2 := cloneAttributes_fresh attrs
      (cloneChildren cs (AstNode.new env AST_NONE none none none).2).2
    have h0 : (AstNode.new env AST_NONE none none none).2.next_addr = env.next_addr + 1 := rfl
    simp only [AstNode.clone, AstNode.allNodes, List.mem_cons, List.mem_append]
    refine ⟨by omega, ?_⟩
    intro n hn
    rcases hn with rfl | hn | hn
    · exact Nat.le_refl _
    · have := h1.2 n hn
      omega
    · have := h2.2 n hn
      omega
theorem cloneChildren_fresh : ∀ (cs : List AstNode) (env : Env),
    env.next_addr ≤ (cloneChildren cs env).2.next_addr
      ∧ ∀ n ∈ allNodesList (cloneChildren cs env).1, env.next_addr ≤ n.addr
  | [], env => by simp [cloneChildren, allNodesList]
  | c :: cs, env => by
    have h1 := clone_fresh c env
    have h2 := cloneChildren_fresh cs (AstNode.clone c env).2
    simp only [cloneChildren, allNodesList, List.mem_append]
    refine ⟨by omega, ?_⟩
    intro n hn
    rcases hn with hn | hn
    · exact h1.2 n hn
    · have := h2.2 n hn
      omega
theorem cloneAttributes_fresh : ∀ (attrs : List (Str × AstNode)) (env : Env),
    env.next_addr ≤ (cloneAttributes attrs env).2.next_addr
      ∧ ∀ n ∈ allNodesAttrs (cloneAttributes attrs env).1, env.next_addr ≤ n.addr
  | [], env => by simp [cloneAttributes, allNodesAttrs]
  | (k, v) :: attrs, env => by
    have h1 := clone_fresh v env
    have h2 := cloneAttributes_fresh attrs (AstNode.clone v env).2
    simp only [cloneAttributes, allNodesAttrs, List.mem_append]
    refine ⟨by omega, ?_⟩
    intro n hn
    rcases hn with hn | hn
    · exact h1.2 n hn
    · have := h2.2 n hn
      omega
end

/-- Claim C36: `AstNode::clone` copies the cross-reference `id2ast` unchanged.
The corresponding nodes of `clone(T)` and `T` (through children and
attributes, all the nodes of both trees) have the same `id2ast`, so `clone(T)`
equals `T` in both directions also with `id2AstMustEqual = true`; and when the
allocator hands out addresses above those of `T`, a reference of the clone
that points to a node of `T` does not point to a node of the clone. -/
theorem C36_clone_copies_id2ast (t : AstNode) (env : Env) :
    (∀ pr ∈ AstNode.correspondingNodes (t.clone env).1 t, pr.1.data.id2ast = pr.2.data.id2ast)
    ∧ (AstNode.correspondingNodes (t.clone env).1 t).map Prod.fst = (t.clone env).1.allNodes
    ∧ (AstNode.correspondingNodes (t.clone env).1 t).map Prod.snd = t.allNodes
    ∧ (∀ o : Bool, AstNode.equals (t.clone env).1 t o true = true
        ∧ AstNode.equals t (t.clone env).1 o true = true)
    ∧ ((∀ n ∈ t.allNodes, n.addr < env.next_addr) →
        ∀ c ∈ (t.clone env).1.allNodes, ∀ p, c.data.id2ast = some p →
          (∃ n ∈ t.allNodes, n.addr = p) → ∀ c2 ∈ (t.clone env).1.allNodes, c2.addr ≠ p) := by
  refine ⟨?_, (clone_corresponding_nodes t env).1, (clone_corresponding_nodes t env).2,
    fun o => ⟨equals_clone_left t env o true, equals_clone_right t env o true⟩, ?_⟩
  · intro pr hpr
    rw [clone_corresponding t env pr hpr]
  · intro hold c _ p _ hp c2 hc2 heq
    obtain ⟨n, hn, hnp⟩ := hp
    have h1 := (clone_fresh t env).2 c2 hc2
    have h2 := hold n hn
    omega

/-- Witness of C36: the clone of `exampleResolved` made with free addresses
from 150 on has its identifier at address 152, still with `id2ast` 100, the
address of the wire of the original; the wire of the clone is at address
151. -/
theorem C36_witness :
    ((exampleResolved.clone (exampleEnvAt 50)).1.allNodes.map
        (fun n => (n.addr, n.data.id2ast)) = [(150, none), (151, none), (152, some 100)])
      ∧ exampleResolved.allNodes.map (fun n => (n.addr, n.data.id2ast))
          = [(140, none), (100, none), (141, some 100)]
      ∧ AstNode.equals (exampleResolved.clone (exampleEnvAt 50)).1 exampleResolved false true
          = true
      ∧ ∀ c2 ∈ (exampleResolved.clone (exampleEnvAt 50)).1.allNodes, c2.addr ≠ 100 :=
  have h := C36_clone_copies_id2ast exampleResolved (exampleEnvAt 50)
  ⟨by decide, by decide, (h.2.2.2.1 false).1,
    h.2.2.2.2 (by decide)
      ((exampleResolved.clone (exampleEnvAt 50)).1.allNodes.get ⟨2, by decide⟩)
      (List.get_mem _ _ _) 100 (by decide)
      ⟨exampleResolved.allNodes.get ⟨1, by decide⟩, List.get_mem _ _ _, by decide⟩⟩

/-! ## The comparison that reports is more permissive -/

/-- The comparison that reports, spelled out like `equals_mk_iff`: the names
are compared after escaping and the cross-references are not compared. -/
theorem logging_equals_mk_iff (g : Given) (a b : NodeData) (cs cs2 : List AstNode)
    (at1 at2 : List (Str × AstNode)) (o : Bool) :
    AstNode.logging_equals g (.mk a cs at1) (.mk b cs2 at2) o = true ↔
      ((a.type = b.type ∨ (o = true ∧ isOrOrBool a.type = true ∧ isOrOrBool b.type = true))
        ∧ cs.length = cs2.length
        ∧ escapedStringsEqual g a.str b.str = true ∧ a.bits = b.bits
        ∧ a.is_input = b.is_input ∧ a.is_output = b.is_output
        ∧ a.is_logic = b.is_logic ∧ a.is_reg = b.is_reg
        ∧ a.is_signed = b.is_signed ∧ a.is_string = b.is_string
        ∧ a.range_valid = b.range_valid ∧ a.range_swapped = b.range_swapped
        ∧ a.port_id = b.port_id ∧ a.range_left = b.range_left
        ∧ a.range_right = b.range_right ∧ a.integer = b.integer
        ∧ logging_equalsChildren g cs cs2 o = true) := by
  unfold AstNode.logging_equals
  by_cases h1 : a.type = b.type <;> cases o <;> simp [h1]

mutual
theorem logging_equals_of_equals (g : Given) : ∀ (a b : AstNode) (o i : Bool),
    AstNode.equals a b o i = true → AstNode.logging_equals g a b o = true
  | .mk a cs at1, .mk b cs2 at2, o, i, h => by
    rw [equals_mk_iff] at h
    rw [logging_equals_mk_iff]
    obtain ⟨h1, _, h3, h4, h5, h6, h7, h8, h9, h10, h11, h12, h13, h14, h15, h16, h17, h18⟩ := h
    exact ⟨h1, h3, by simp [escapedStringsEqual, h4], h5, h6, h7, h8, h9, h10, h11, h12, h13,
      h14, h15, h16, h17, logging_equalsChildren_of_equalsChildren g cs cs2 o i h18⟩
theorem logging_equalsChildren_of_equalsChildren (g : Given) :
    ∀ (cs cs2 : List AstNode) (o i : Bool),
      equalsChildren cs cs2 o i = true → logging_equalsChildren g cs cs2 o = true
  | [], _, _, _, _ => by simp [logging_equalsChildren]
  | _ :: _, [], _, _, h => by simp [equalsChildren] at h
  | c :: cs, c2 :: cs2, o, i, h => by
    rw [equalsChildren_cons_iff] at h
    simp only [logging_equalsChildren, logging_equals_of_equals g c c2 o i h.1,
      logging_equalsChildren_of_equalsChildren g cs cs2 o i h.2]
    rfl
end

/-- Claim C37: the comparison that reports is at least as permissive as
`equals`.  For all trees `a`, `b` and every flag `f`, whatever the default
second argument of `id2vl` is: if `a.equals(b, f, false)` returns true then
`a.logging_equals(b, f)` returns true, so whenever `logging_equals` reports a
mismatch `equals` reports one too. -/
theorem C37_logging_equals_permissive (g : Given) (a b : AstNode) (f : Bool) :
    (AstNode.equals a b f false = true → AstNode.logging_equals g a b f = true)
      ∧ (AstNode.logging_equals g a b f = false → AstNode.equals a b f false = false) := by
  refine ⟨logging_equals_of_equals g a b f false, ?_⟩
  intro h
  cases hh : AstNode.equals a b f false
  · rfl
  · rw [logging_equals_of_equals g a b f false hh] at h
    cases h

/-- Witness of C37: the two wires `exampleWire` and `exampleWand` are equal
for `equals`, hence for `logging_equals`. -/
theorem C37_witness :
    AstNode.equals exampleWire exampleWand false false = true
      ∧ AstNode.logging_equals exampleGiven exampleWire exampleWand false = true :=
  ⟨by decide, (C37_logging_equals_permissive exampleGiven exampleWire exampleWand false).1
    (by decide)⟩

/-! ## The round-trip oracle reports a mismatch -/

/-- Claim C33: taking the tree `R` read back as given (the dump of `A`
succeeds and reading it back gives `R`), and the default `id2AstMustEqual` of
`equals` being `false`, the oracle `verify_dump_vlog` on `A` ends in its fatal
error if and only if `A.equals(R, true, false)` is false; when the two trees are
equal under that comparison it returns, with the flag `flag_no_dump_ptr` set
and the allocator as reading back left it. -/
theorem C33_oracle_mismatch (g : Given) (c : Collaborators) (fuel : Nat) (globals : Globals)
    (env env1 : Env) (ast R : AstNode) (text : Str)
    (hdefault : g.equals_id2AstMustEqual = false)
    (hdump : ast.dumpVlog { g with flag_no_dump_ptr := true } fuel [] g.dumpVlog_inGenerate
      g.dumpVlog_parentType = .ok text)
    (hreread : rereadDump c env text (dump_file_name g c ast) = .ok (R, env1)) :
    (verify_dump_vlog g c fuel globals env ast = .error .fatal
        ↔ AstNode.equals ast R true false = false)
      ∧ (AstNode.equals ast R true false = true →
          verify_dump_vlog g c fuel globals env ast
            = .ok (env1, { globals with flag_no_dump_ptr := true })) := by
  have hfn : lit "/tmp/yosysVerifyDump" ++ lit "/"
      ++ id2vl ast.data.str g.id2vl_is_hierarchical_name ++ lit "_"
      ++ (fmt_u c.design_hash ++ lit "_" ++ fmt_u c.getpid) ++ lit ".v"
      = dump_file_name g c ast := rfl
  unfold verify_dump_vlog
  simp only [hdump]
  simp only [hfn, hreread]
  rw [hdefault]
  cases AstNode.equals ast R true false <;> simp

/-- Witness of C33: the oracle on the empty module `m` returns when the text
is read back as the same module, and ends in the fatal error when the text is
read back as the module `exampleBlackbox`. -/
theorem C33_witness :
    verify_dump_vlog exampleGiven (exampleParser exampleModuleTree) 5 exampleGlobals exampleEnv
        exampleModuleTree
      = .ok ((readFromStream (exampleParser exampleModuleTree) exampleEnv
              (lit "module m();\nendmodule\n")
              (dump_file_name exampleGiven (exampleParser exampleModuleTree) exampleModuleTree)).2,
            { exampleGlobals with flag_no_dump_ptr := true })
      ∧ verify_dump_vlog exampleGiven (exampleParser exampleBlackbox) 5 exampleGlobals
          exampleEnv exampleModuleTree = .error .fatal :=
  ⟨(C33_oracle_mismatch exampleGiven (exampleParser exampleModuleTree) 5 exampleGlobals
      exampleEnv _ exampleModuleTree exampleModuleTree (lit "module m();\nendmodule\n")
      rfl (by decide) rfl).2 (by decide),
   (C33_oracle_mismatch exampleGiven (exampleParser exampleBlackbox) 5 exampleGlobals
      exampleEnv (readFromStream (exampleParser exampleBlackbox) exampleEnv
              (lit "module m();\nendmodule\n")
              (dump_file_name exampleGiven (exampleParser exampleBlackbox) exampleModuleTree)).2
      exampleModuleTree exampleBlackbox (lit "module m();\nendmodule\n")
      rfl (by decide) rfl).1.2 (by decide)⟩

/-! ## Deferred processing -/

/-- A deferred run of `process_module` on a module or an interface: after the
dump and the oracle nothing but the end of the function runs, on the tree as
it was given and on the module as `process_module_new` made it. -/
theorem process_module_deferred_eq (g : Given) (c : Collaborators) (fuel : Nat)
    (globals : Globals) (env : Env) (ast : AstNode) (original_ast : Option AstNode)
    (ht : is_definition ast = true) :
    process_module g c fuel globals env ast true original_ast
      = (process_module_dump g c fuel globals globals.flag_dump_vlog1 ast).bind
          (fun _ =>
            (process_module_verify g c fuel globals
                (process_module_snapshot ast original_ast env).2 ast).map
              (fun verified =>
                { current_module := process_module_finish c verified.2 ast
                    (process_module_snapshot ast original_ast env).1 (process_module_new c ast)
                  ast := ast
                  env := verified.1
                  globals := verified.2 })) := by
  have ht2 : (!(ast.type == AST_MODULE || ast.type == AST_INTERFACE)) = false := by
    simp only [is_definition] at ht
    rw [ht]
    rfl
  simp only [process_module, ht2, Bool.false_eq_true, if_false, process_module_defer,
    Bool.not_true, bind, Except.bind, pure, Except.pure, Except.map]

theorem process_module_definition (g : Given) (c : Collaborators) (fuel : Nat)
    (globals : Globals) (env : Env) (ast : AstNode) (defer : Bool)
    (original_ast : Option AstNode) (p : Processed)
    (h : process_module g c fuel globals env ast defer original_ast = .ok p) :
    is_definition ast = true := by
  by_cases ht : is_definition ast = true
  · exact ht
  · have ht2 : (!(ast.type == AST_MODULE || ast.type == AST_INTERFACE)) = true := by
      simp only [is_definition] at ht
      simpa using ht
    simp [process_module, ht2] at h

/-- A deferred run of `process_module` that returns leaves the tree as it
was. -/
theorem process_module_deferred_ast (g : Given) (c : Collaborators) (fuel : Nat)
    (globals : Globals) (env : Env) (ast : AstNode) (original_ast : Option AstNode)
    (p : Processed)
    (h : process_module g c fuel globals env ast true original_ast = .ok p) :
    p.ast = ast ∧ ∃ verified : Env × Globals,
      process_module_verify g c fuel globals (process_module_snapshot ast original_ast env).2 ast
          = .ok verified
        ∧ p.current_module = process_module_finish c verified.2 ast
            (process_module_snapshot ast original_ast env).1 (process_module_new c ast) := by
  rw [process_module_deferred_eq g c fuel globals env ast original_ast
    (process_module_definition g c fuel globals env ast true original_ast p h)] at h
  cases hd : process_module_dump g c fuel globals globals.flag_dump_vlog1 ast with
  | error e => rw [hd] at h; cases h
  | ok u =>
    rw [hd] at h
    simp only [Except.bind] at h
    cases hv : process_module_verify g c fuel globals
        (process_module_snapshot ast original_ast env).2 ast with
    | error e => rw [hv] at h; cases h
    | ok verified =>
      rw [hv] at h
      simp only [Except.map] at h
      cases h
      exact ⟨rfl, verified, rfl, rfl⟩

/-- The end of `process_module` as one record handed to `fixup_ports`. -/
theorem process_module_finish_eq (c : Collaborators) (globals : Globals)
    (ast ast_before_simplify : AstNode) (m : Module) :
    process_module_finish c globals ast ast_before_simplify m
      = c.fixup_ports
          { name := m.name
            attributes :=
              if ast.type == AST_INTERFACE then
                c.set_bool_attribute m.attributes (lit "\\is_interface")
              else m.attributes
            wires_ := m.wires_
            cells_ := m.cells_
            ast := some ast_before_simplify
            nolatches := globals.flag_nolatches
            nomeminit := globals.flag_nomeminit
            nomem2reg := globals.flag_nomem2reg
            mem2reg := globals.flag_mem2reg
            noblackbox := globals.flag_noblackbox
            lib := globals.flag_lib
            nowb := globals.flag_nowb
            noopt := globals.flag_noopt
            icells := globals.flag_icells
            pwires := globals.flag_pwires
            autowire := globals.flag_autowire } := by
  unfold process_module_finish
  by_cases hi : (ast.type == AST_INTERFACE) = true
  · simp only [hi, if_true]
  · simp only [hi]
    rfl

/-- Claim C32: with `defer = true`, `process_module` performs no blackbox
classification, no simplification and no lowering.  On a module or interface
it returns when the dump and the oracle are switched off; and whenever it
returns, the tree is left as it was, the result does not depend on the
simplifier, the lowering and `sort_and_unify`, and the module handed to
`fixup_ports` has the name of the tree, no wire and no cell, the snapshot as
its stored tree (without a snapshot from the caller a clone of the tree, equal
to it under `equals` with any flags), and as attributes `src` with the text
`<file>:<line>` and the marker `cells_not_processed` (and `is_interface` for
an interface); when the collaborators leave the other attributes alone, the
returned module has these two attributes. -/
theorem C32_deferred_module (g : Given) (c : Collaborators) (fuel : Nat) (globals : Globals)
    (env : Env) (ast : AstNode) (original_ast : Option AstNode) :
    (is_definition ast = true → globals.flag_dump_vlog1 = false →
        globals.flag_verify_dump_vlog = false →
        ∃ p, process_module g c fuel globals env ast true original_ast = .ok p)
    ∧ ∀ p, process_module g c fuel globals env ast true original_ast = .ok p →
      p.ast = ast
      ∧ (∀ simplify genRTLIL sort_and_unify,
          process_module g
            { c with simplify := simplify, genRTLIL := genRTLIL,
                     sort_and_unify := sort_and_unify }
            fuel globals env ast true original_ast = .ok p)
      ∧ (∃ m0 : Module, p.current_module = c.fixup_ports m0
          ∧ m0.name = ast.data.str ∧ m0.wires_ = [] ∧ m0.cells_ = []
          ∧ m0.ast = some (process_module_snapshot ast original_ast env).1
          ∧ (original_ast = none → ∃ stored, m0.ast = some stored
              ∧ ∀ o i, AstNode.equals stored ast o i = true
                  ∧ AstNode.equals ast stored o i = true)
          ∧ m0.attributes
              = if ast.type == AST_INTERFACE then
                  c.set_bool_attribute
                    (c.set_bool_attribute (src_entry c ast) (lit "\\cells_not_processed"))
                    (lit "\\is_interface")
                else c.set_bool_attribute (src_entry c ast) (lit "\\cells_not_processed"))
      ∧ (keeps_attributes c →
          p.current_module.attributes.lookup (lit "\\src")
              = some (c.const_of_string
                  (c_str ast.data.filename ++ lit ":" ++ fmt_d ast.data.linenum))
            ∧ p.current_module.attributes.lookup (lit "\\cells_not_processed")
              = (c.set_bool_attribute (src_entry c ast)
                  (lit "\\cells_not_processed")).lookup (lit "\\cells_not_processed")) := by
  constructor
  · intro ht hd hv
    rw [process_module_deferred_eq g c fuel globals env ast original_ast ht]
    simp only [process_module_dump, hd, Bool.false_and, Bool.false_eq_true, if_false,
      process_module_verify, hv, Except.bind, Except.map]
    exact ⟨_, rfl⟩
  · intro p h
    obtain ⟨hast, verified, hverified, hmod⟩ :=
      process_module_deferred_ast g c fuel globals env ast original_ast p h
    refine ⟨hast, ?_, ?_, ?_⟩
    · intro simplify genRTLIL sort_and_unify
      rw [← h]
      rfl
    · refine ⟨_, hmod.trans (process_module_finish_eq c _ ast _ _), rfl, rfl, rfl, rfl, ?_, ?_⟩
      · intro ho
        subst ho
        exact ⟨_, rfl, fun o i =>
          ⟨equals_clone_left ast env o i, equals_clone_right ast env o i⟩⟩
      · rfl
    · intro hk
      obtain ⟨_, hfix, hset⟩ := hk
      rw [hmod, process_module_finish_eq, hfix]
      have hne1 : lit "\\src" ≠ lit "\\cells_not_processed" := by decide
      have hne2 : lit "\\src" ≠ lit "\\is_interface" := by decide
      have hne3 : lit "\\cells_not_processed" ≠ lit "\\is_interface" := by decide
      have hnew : (process_module_new c ast).attributes
          = c.set_bool_attribute (src_entry c ast) (lit "\\cells_not_processed") := rfl
      show List.lookup (lit "\\src")
            (if ast.type == AST_INTERFACE then
              c.set_bool_attribute (process_module_new c ast).attributes (lit "\\is_interface")
            else (process_module_new c ast).attributes) = _
          ∧ List.lookup (lit "\\cells_not_processed")
            (if ast.type == AST_INTERFACE then
              c.set_bool_attribute (process_module_new c ast).attributes (lit "\\is_interface")
            else (process_module_new c ast).attributes) = _
      by_cases hi : (ast.type == AST_INTERFACE) = true
      · rw [if_pos hi, hset _ _ _ hne2, hset _ _ _ hne3, hnew, hset _ _ _ hne1]
        exact ⟨by simp [src_entry, List.lookup], rfl⟩
      · rw [if_neg hi, hnew, hset _ _ _ hne1]
        exact ⟨by simp [src_entry, List.lookup], rfl⟩

/-- Witness of C32: the deferred run on the empty module `m` returns the
module `m` with the attributes `src` (the text `:1`) and
`cells_not_processed`, no wire and no cell, and the tree is unchanged. -/
theorem C32_witness :
    (process_module exampleGiven exampleCollaborators 0 exampleGlobals exampleEnv
        exampleModuleTree true none).map
        (fun p => (p.current_module.name, p.current_module.attributes.map Prod.fst,
          p.current_module.wires_, p.current_module.cells_.length,
          p.ast.children.length, p.ast.attributes.length))
      = .ok (lit "\\m", [lit "\\src", lit "\\cells_not_processed"], [], 0, 0, 0)
    ∧ ∃ p, process_module exampleGiven exampleCollaborators 0 exampleGlobals exampleEnv
        exampleModuleTree true none = .ok p ∧ p.ast = exampleModuleTree :=
  ⟨rfl,
    match (C32_deferred_module exampleGiven exampleCollaborators 0 exampleGlobals exampleEnv
        exampleModuleTree none).1 rfl rfl rfl with
    | ⟨p, hp⟩ => ⟨p, hp, ((C32_deferred_module exampleGiven exampleCollaborators 0
        exampleGlobals exampleEnv exampleModuleTree none).2 p hp).1⟩⟩

/-! ## The scan that classifies a blackbox -/

theorem process_module_is_specify_iff (child : AstNode) :
    process_module_is_specify child = true ↔
      (child.type = AST_CELL ∧ ∃ first rest, child.children = first :: rest
        ∧ first.type = AST_CELLTYPE
        ∧ (first.data.str = lit "$specify2" ∨ first.data.str = lit "$specify3"
            ∨ first.data.str = lit "$specrule")) := by
  unfold process_module_is_specify
  cases hc : child.children with
  | nil => simp
  | cons first rest =>
    constructor
    · intro h
      simp only [Bool.and_eq_true, beq_iff_eq, Bool.or_eq_true, List.length_cons,
        decide_eq_true_eq] at h
      exact ⟨h.1.1, first, rest, rfl, h.2.1, by tauto⟩
    · rintro ⟨h1, f, r, hf, h2, h3⟩
      cases hf
      simp only [Bool.and_eq_true, beq_iff_eq, Bool.or_eq_true, List.length_cons,
        decide_eq_true_eq]
      exact ⟨⟨h1, by omega⟩, h2, by tauto⟩

/-- The scan of the children in `process_module`, with library mode and
no-blackbox both off: true exactly when every child is a declaration. -/
theorem process_module_classify_iff (globals : Globals) (ast : AstNode)
    (hlib : globals.flag_lib = false) (hnbb : globals.flag_noblackbox = false) :
    process_module_classify globals ast = true
      ↔ ∀ child ∈ ast.children, declaration_child child := by
  simp only [process_module_classify, hlib, hnbb, Bool.not_false, Bool.and_self, if_true,
    List.all_eq_true]
  constructor
  · intro h child hc
    have h2 := h child hc
    simp only [Bool.or_eq_true, Bool.and_eq_true, beq_iff_eq] at h2
    rcases h2 with (h2 | h2) | h2
    · exact Or.inl h2
    · rcases h2 with h2 | h2
      · exact Or.inr (Or.inl h2)
      · exact Or.inr (Or.inr (Or.inl h2))
    · exact Or.inr (Or.inr (Or.inr ((process_module_is_specify_iff child).1 h2)))
  · intro h child hc
    simp only [Bool.or_eq_true, Bool.and_eq_true, beq_iff_eq]
    rcases h child hc with h2 | h2 | h2 | h2
    · exact Or.inl (Or.inl h2)
    · exact Or.inl (Or.inr (Or.inl h2))
    · exact Or.inl (Or.inr (Or.inr h2))
    · exact Or.inr ((process_module_is_specify_iff child).2 h2)

/-- The blocks of `process_module` between simplification and lowering are
the attribute steps followed by the reduction of a module that is classified
blackbox. -/
theorem process_module_prepare_eq (g : Given) (globals : Globals) (blackbox_module : Bool)
    (ast : AstNode) (env : Env) :
    process_module_prepare g globals blackbox_module ast env
      = (process_module_classified globals blackbox_module ast.attributes).map
          (fun r =>
            if r.1 then process_module_reduce g (.mk ast.data ast.children r.2) env
            else (.mk ast.data ast.children r.2, env)) := by
  simp only [process_module_prepare, process_module_classified, bind, Except.bind, pure,
    Except.pure, Except.map]
  cases process_module_whitebox globals ast.attributes with
  | error e => rfl
  | ok attributes =>
    simp only []
    cases process_module_blackbox blackbox_module attributes with
    | error e => rfl
    | ok b1 =>
      simp only []
      cases process_module_not_whitebox b1 attributes with
      | error e => rfl
      | ok b2 => rfl

/-- Claim C38: in `process_module` with library mode and no-blackbox both off
and no `blackbox`, `whitebox`, `lib_whitebox` or `noblackbox` attribute on the
module (on the tree `simplified` that the attribute steps read), the module is
classified blackbox if and only if every direct child of the tree `ast` before
simplification is a port wire, an `AST_PARAMETER`, an `AST_LOCALPARAM`, or an
`AST_CELL` whose first child is an `AST_CELLTYPE` named `$specify2`,
`$specify3` or `$specrule`: the attribute steps keep the value of the scan and
the attributes, the reduction of a blackbox runs exactly in that case, and a
module with no children is classified blackbox. -/
theorem C38_blackbox_classification (g : Given) (globals : Globals) (ast simplified : AstNode)
    (env : Env)
    (hlib : globals.flag_lib = false) (hnbb : globals.flag_noblackbox = false)
    (h1 : map_count simplified.attributes (lit "\\blackbox") = false)
    (h2 : map_count simplified.attributes (lit "\\whitebox") = false)
    (h3 : map_count simplified.attributes (lit "\\lib_whitebox") = false)
    (h4 : map_count simplified.attributes (lit "\\noblackbox") = false) :
    (∃ blackbox_module,
        process_module_classified globals (process_module_classify globals ast)
            simplified.attributes = .ok (blackbox_module, simplified.attributes)
          ∧ (blackbox_module = true ↔ ∀ child ∈ ast.children, declaration_child child)
          ∧ process_module_prepare g globals (process_module_classify globals ast) simplified env
              = .ok (if blackbox_module then process_module_reduce g simplified env
                     else (simplified, env)))
      ∧ (ast.children = [] →
          process_module_classified globals (process_module_classify globals ast)
            simplified.attributes = .ok (true, simplified.attributes)) := by
  have hcl : process_module_classified globals (process_module_classify globals ast)
      simplified.attributes = .ok (process_module_classify globals ast, simplified.attributes) := by
    simp only [process_module_classified, process_module_whitebox, process_module_blackbox,
      process_module_not_whitebox, process_module_noblackbox, h1, h2, h3, h4, Bool.and_false,
      Bool.false_eq_true, if_false, bind, Except.bind]
  refine ⟨⟨_, hcl, process_module_classify_iff globals ast hlib hnbb, ?_⟩, ?_⟩
  · rw [process_module_prepare_eq, hcl]
    cases simplified with
    | mk d cs attrs => rfl
  · intro hnil
    rw [hcl, (process_module_classify_iff globals ast hlib hnbb).2 (by simp [hnil])]

/-- Witness of C38: the module `exampleBlackbox` (two ports and a parameter) is
classified blackbox, the module `exampleOrdered` (an initial block among its
children) is not. -/
theorem C38_witness :
    process_module_classified exampleGlobals
        (process_module_classify exampleGlobals exampleBlackbox) exampleBlackbox.attributes
      = .ok (true, exampleBlackbox.attributes)
    ∧ process_module_classified exampleGlobals
        (process_module_classify exampleGlobals exampleOrdered) exampleOrdered.attributes
      = .ok (false, exampleOrdered.attributes) :=
  have hb := (C38_blackbox_classification exampleGiven exampleGlobals exampleBlackbox
    exampleBlackbox exampleEnv rfl rfl rfl rfl rfl rfl).1
  have ho := (C38_blackbox_classification exampleGiven exampleGlobals exampleOrdered
    exampleOrdered exampleEnv rfl rfl rfl rfl rfl rfl).1
  ⟨by
      obtain ⟨b, hb1, hb2, _⟩ := hb
      rw [hb1]
      have : b = true := hb2.2 (by
        intro child hc
        simp only [exampleBlackbox, exampleNode, examplePort, AstNode.children, AstNode.new,
          List.mem_cons, List.mem_singleton, List.not_mem_nil, or_false] at hc
        rcases hc with rfl | rfl | rfl
        · exact Or.inl ⟨rfl, Or.inl rfl⟩
        · exact Or.inl ⟨rfl, Or.inr rfl⟩
        · exact Or.inr (Or.inl rfl))
      rw [this],
    by
      obtain ⟨b, hb1, hb2, _⟩ := ho
      rw [hb1]
      cases b with
      | false => rfl
      | true =>
        have h := hb2.1 rfl (exampleNode 25 AST_INITIAL (lit "i") [])
          (by simp [exampleOrdered, exampleNode, AstNode.children, AstNode.new])
        rcases h with h | h | h | h
        · exact absurd h.1 (by decide)
        · exact absurd h (by decide)
        · exact absurd h (by decide)
        · exact absurd h.1 (by decide)⟩

/-! ## The if form of a case statement -/

/-- Claim C39: the test of `dumpTransformedIf` on the match expression of the
first branch is `type != AST_CONSTANT && integer != 1`, so it rejects only a
match expression that is neither a constant nor has the integer value 1.  A
case node on an `AST_REDUCE_BOOL` whose first branch is an `AST_COND` with two
children is rendered in the if form for every constant match expression,
whatever its value; and the if form is only produced for a case node with two
or three children whose condition is an `AST_REDUCE_BOOL` and whose first
branch is an `AST_COND` with two children, the first a constant or a node with
integer value 1. -/
theorem C39_if_form_for_any_constant (g : Given) (dump : Dumper) (indent : Str) :
    (∀ (d : NodeData) (attrs : List (Str × AstNode)) (condition taken t0 t1 : AstNode),
        d.type = AST_CASE → condition.type = AST_REDUCE_BOOL → taken.type = AST_COND →
        taken.children = [t0, t1] → t0.type = AST_CONSTANT →
        dumpTransformedIf g dump indent (.mk d [condition, taken] attrs)
          = dumpTransformedIf_print g dump indent condition taken none)
    ∧ (∀ (node : AstNode) (s : Str), dumpTransformedIf g dump indent node = .ok (some s) →
        node.type = AST_CASE
          ∧ ∃ condition taken rest t0 t1, node.children = condition :: taken :: rest
              ∧ rest.length ≤ 1
              ∧ condition.type = AST_REDUCE_BOOL ∧ taken.type = AST_COND
              ∧ taken.children = [t0, t1]
              ∧ (t0.type = AST_CONSTANT ∨ t0.data.integer = 1)) := by
  constructor
  · intro d attrs condition taken t0 t1 hd hc ht hch h0
    have e1 : (AstNode.mk d [condition, taken] attrs).type = AST_CASE := hd
    have e2 : (AstNode.mk d [condition, taken] attrs).children = [condition, taken] := rfl
    simp [dumpTransformedIf, e1, e2, elemAt, hc, ht, hch, h0, bind, Except.bind]
  · intro node s h
    unfold dumpTransformedIf at h
    by_cases hty : (node.type != AST_CASE) = true
    · simp [hty, pure, Except.pure] at h
    · simp only [hty, Bool.false_eq_true, if_false] at h
      have hty2 : node.type = AST_CASE := by simpa using hty
      refine ⟨hty2, ?_⟩
      cases hcs : node.children with
      | nil => simp [hcs, pure, Except.pure] at h
      | cons condition rest1 =>
        cases rest1 with
        | nil => simp [hcs, pure, Except.pure] at h
        | cons taken rest =>
          rw [hcs] at h
          by_cases hlen : rest.length ≤ 1
          · by_cases hc : condition.type = AST_REDUCE_BOOL
            · by_cases ht : taken.type = AST_COND
              · cases htc : taken.children with
                | nil => simp [htc, elemAt, hc, ht, bind, Except.bind, pure, Except.pure] at h
                | cons t0 r0 =>
                  cases r0 with
                  | nil => simp [htc, elemAt, hc, ht, bind, Except.bind, pure, Except.pure] at h
                  | cons t1 r1 =>
                    cases r1 with
                    | nil =>
                      refine ⟨condition, taken, rest, t0, t1, rfl, hlen, hc, ht, htc, ?_⟩
                      by_cases h0 : t0.type = AST_CONSTANT
                      · exact Or.inl h0
                      · by_cases h1 : t0.data.integer = 1
                        · exact Or.inr h1
                        · simp [htc, elemAt, hc, ht, h0, h1, bind, Except.bind, pure,
                            Except.pure] at h
                    | cons t2 r2 =>
                      simp [htc, elemAt, hc, ht, bind, Except.bind, pure, Except.pure] at h
              · simp [elemAt, hc, ht, bind, Except.bind, pure, Except.pure] at h
            · simp [elemAt, hc, bind, Except.bind, pure, Except.pure] at h
          · have hlen2 : (rest.length + 1 + 1 < 2 ∨ 3 < rest.length + 1 + 1) := by omega
            simp [hlen2, pure, Except.pure] at h

/-- Witness of C39: the case node `exampleCaseZero`, whose
first branch matches the constant 0, is rendered as `if (x)` followed by the
block, not as `case ... endcase`; this is the text written for the same node
with the constant 1 in place of the constant 0. -/
theorem C39_witness :
    dumpTransformedIf exampleGiven (AstNode.dumpVlog exampleGiven 3) [] exampleCaseZero
        = .ok (some (lit "if (x)\n  begin\n  end\n"))
      ∧ exampleZero.type = AST_CONSTANT ∧ exampleZero.asInt false = some 0
      ∧ AstNode.dumpVlog exampleGiven 4 exampleCaseZero [] false AST_NONE
          = .ok (lit "if (x)\n  begin\n  end\n")
      ∧ AstNode.dumpVlog exampleGiven 4
          (exampleNode 46 AST_CASE []
            [exampleNode 6 AST_REDUCE_BOOL [] [exampleX],
             exampleNode 47 AST_COND [] [exampleOne, exampleNode 48 AST_BLOCK [] []]])
          [] false AST_NONE
          = .ok (lit "if (x)\n  begin\n  end\n") :=
  ⟨((C39_if_form_for_any_constant exampleGiven (AstNode.dumpVlog exampleGiven 3) []).1
      (AstNode.new (exampleEnvAt 46) AST_CASE none none none).1.data []
      (exampleNode 6 AST_REDUCE_BOOL [] [exampleX])
      (exampleNode 47 AST_COND [] [exampleZero, exampleNode 48 AST_BLOCK [] []])
      exampleZero (exampleNode 48 AST_BLOCK [] []) rfl rfl rfl rfl rfl).trans (by decide),
    by decide, by decide, by decide, by decide⟩

/-! ## The keywords of a memory -/

/-- Claim C40: the test of `is_logic` in the `AST_MEMORY` case of `dumpVlog`
has no `else` before the test of `is_reg`.  For every `AST_MEMORY` node for
which the dump returns a text, the node has children and the text starts with
the keyword `reg` or `wire` alone when `is_logic` is clear, and with the
keyword `logic` followed (after the indentation) by a second keyword `reg` or
`wire` when `is_logic` is set. -/
theorem C40_memory_keywords (g : Given) (dump : Dumper) (node : AstNode) (indent : Str)
    (inGenerate : Bool) (parentType : AstNodeType) (text : Str)
    (ht : node.type = AST_MEMORY)
    (h : dumpVlog_switch g dump node indent inGenerate parentType = .ok text) :
    node.children ≠ []
      ∧ ∃ rest, text
          = (if node.data.is_logic then c_str indent ++ lit "logic" else [])
            ++ (c_str indent ++ (if node.data.is_reg then lit "reg" else lit "wire"))
            ++ rest := by
  unfold dumpVlog_switch at h
  simp only [ht] at h
  cases hcs : node.children with
  | nil =>
    rw [hcs] at h
    simp at h
  | cons c cs =>
    rw [hcs] at h
    simp only [List.isEmpty_cons, Bool.false_eq_true, if_false, bind, Except.bind,
      pure, Except.pure] at h
    refine ⟨by simp, ?_⟩
    generalize forEachFirst _ true (c :: cs) = res at h
    cases res with
    | error e => cases h
    | ok body =>
      simp only [Except.ok.injEq] at h
      by_cases hreg : node.data.is_reg = true <;> by_cases hlog : node.data.is_logic = true
        <;> simp only [hreg, hlog, if_true, Bool.false_eq_true, if_false] at h ⊢
        <;> exact ⟨(if node.data.is_signed = true then lit " signed" else []) ++ (body ++ lit ";\n"),
              by rw [← h]; simp only [List.append_assoc]⟩

/-- Witness of C40: the memory `exampleMemory` (flag `is_logic`
set) is written with the two keywords `logic` and `wire`, and with the flag
`is_reg` set as well, with the two keywords `logic` and `reg`. -/
theorem C40_witness :
    AstNode.dumpVlog exampleGiven 2 exampleMemory [] false AST_NONE
        = .ok (lit "logicwire [7:0] mem;\n")
      ∧ AstNode.dumpVlog exampleGiven 2 exampleMemoryReg [] false AST_NONE
        = .ok (lit "logicreg [7:0] mem;\n")
      ∧ ∃ rest, lit "logicwire [7:0] mem;\n" = lit "logic" ++ lit "wire" ++ rest :=
  ⟨by decide, by decide,
    (C40_memory_keywords exampleGiven (AstNode.dumpVlog exampleGiven 1) exampleMemory []
        false AST_NONE (lit "logicwire [7:0] mem;\n") rfl (by decide)).2⟩

/-! ## Packages and globals merged by the entry point -/

mutual
theorem clone_clone : ∀ (t : AstNode) (env1 env2 : Env),
    (t.clone env1).1.clone env2 = t.clone env2
  | .mk d cs attrs, env1, env2 => by
    have h1 := cloneChildren_cloneChildren cs (AstNode.new env1 AST_NONE none none none).2
      (AstNode.new env2 AST_NONE none none none).2
    have h2 := cloneAttributes_cloneAttributes attrs
      (cloneChildren cs (AstNode.new env1 AST_NONE none none none).2).2
      (cloneChildren cs (AstNode.new env2 AST_NONE none none none).2).2
    simp only [AstNode.clone, h1, h2]
theorem cloneChildren_cloneChildren : ∀ (cs : List AstNode) (env1 env2 : Env),
    cloneChildren (cloneChildren cs env1).1 env2 = cloneChildren cs env2
  | [], _, _ => by simp [cloneChildren]
  | c :: cs, env1, env2 => by
    simp only [cloneChildren, clone_clone c env1 env2,
      cloneChildren_cloneChildren cs (AstNode.clone c env1).2 (AstNode.clone c env2).2]
theorem cloneAttributes_cloneAttributes : ∀ (attrs : List (Str × AstNode)) (env1 env2 : Env),
    cloneAttributes (cloneAttributes attrs env1).1 env2 = cloneAttributes attrs env2
  | [], _, _ => by simp [cloneAttributes]
  | (k, v) :: attrs, env1, env2 => by
    simp only [cloneAttributes, clone_clone v env1 env2,
      cloneAttributes_cloneAttributes attrs (AstNode.clone v env1).2 (AstNode.clone v env2).2]
end

theorem clone_data_str (t : AstNode) (env : Env) : (t.clone env).1.data.str = t.data.str := by
  cases t with
  | mk d cs attrs => rfl

theorem cloneChildren_is_clone : ∀ (cs : List AstNode) (env : Env),
    List.Forall₂ is_clone (cloneChildren cs env).1 cs
  | [], _ => by simp [cloneChildren]
  | c :: cs, env => by
    simp only [cloneChildren]
    exact List.Forall₂.cons ⟨env, rfl⟩ (cloneChildren_is_clone cs _)

theorem is_clone_children (n t : AstNode) (h : n = t ∨ is_clone n t) :
    n.data.str = t.data.str
      ∧ List.Forall₂ (fun x y => x = y ∨ is_clone x y) n.children t.children := by
  rcases h with rfl | ⟨env, rfl⟩
  · refine ⟨rfl, ?_⟩
    induction n.children with
    | nil => exact .nil
    | cons x xs ih => exact .cons (Or.inl rfl) ih
  · cases t with
    | mk d cs attrs =>
      exact ⟨rfl, List.Forall₂.imp (fun _ _ h => Or.inr h) (cloneChildren_is_clone cs _)⟩

theorem is_clone_of_clone (n x t : AstNode) (h : is_clone n x) (hx : x = t ∨ is_clone x t) :
    is_clone n t := by
  rcases hx with rfl | ⟨env0, rfl⟩
  · exact h
  · obtain ⟨env, rfl⟩ := h
    exact ⟨env, by rw [clone_clone]⟩

theorem is_member_clone_of_clone (n : AstNode) (name : Str) (m2 m : AstNode)
    (h : is_member_clone n (name, m2)) (hm : m2 = m ∨ is_clone m2 m) :
    is_member_clone n (name, m) := by
  rcases hm with rfl | ⟨env0, rfl⟩
  · exact h
  · obtain ⟨env, rfl⟩ := h
    exact ⟨env, by simp only [clone_clone, clone_data_str]⟩

theorem forall₂_append_of {α β : Type} (R : α → β → Prop) :
    ∀ {a1 a2 : List α} {b1 b2 : List β}, List.Forall₂ R a1 b1 → List.Forall₂ R a2 b2 →
      List.Forall₂ R (a1 ++ a2) (b1 ++ b2)
  | _, _, _, _, .nil, h2 => h2
  | _, _, _, _, .cons h hs, h2 => .cons h (forall₂_append_of R hs h2)

theorem process_package_members_spec (package_name : Str) :
    ∀ (members children : List AstNode) (env : Env) (r : List AstNode × Env),
      process_package_members package_name members children env = .ok r →
      ∃ ps, r.1 = children ++ ps
        ∧ List.Forall₂ is_member_clone ps (members.map (fun m => (package_name, m)))
  | [], children, env, r, h => by
    simp only [process_package_members, Except.ok.injEq] at h
    subst h
    exact ⟨[], by simp, by simp⟩
  | o :: rest, children, env, r, h => by
    simp only [process_package_members] at h
    by_cases hlen : ((o.clone env).1.data.str.length < 1)
    · simp [hlen] at h
    · simp only [hlen, if_false] at h
      obtain ⟨ps, hps, hall⟩ := process_package_members_spec package_name rest _ _ r h
      refine ⟨(o.clone env).1.set_str
          (package_name ++ lit "::" ++ (o.clone env).1.data.str.drop 1) :: ps,
        by rw [hps]; simp, ?_⟩
      simp only [List.map_cons]
      refine List.Forall₂.cons ⟨env, ?_⟩ hall
      simp only [clone_data_str]

theorem process_packages_spec :
    ∀ (packages children : List AstNode) (env : Env) (r : List AstNode × Env),
      process_packages packages children env = .ok r →
      ∃ ps, r.1 = children ++ ps ∧ List.Forall₂ is_member_clone ps (package_members packages)
  | [], children, env, r, h => by
    simp only [process_packages, Except.ok.injEq] at h
    subst h
    exact ⟨[], by simp, by simp [package_members]⟩
  | n :: rest, children, env, r, h => by
    simp only [process_packages] at h
    cases hm : process_package_members n.data.str n.children children env with
    | error e => rw [hm] at h; cases h
    | ok r1 =>
      rw [hm] at h
      simp only [] at h
      obtain ⟨ps1, hps1, hall1⟩ := process_package_members_spec n.data.str n.children children env r1 hm
      obtain ⟨ps2, hps2, hall2⟩ := process_packages_spec rest r1.1 r1.2 r h
      refine ⟨ps1 ++ ps2, by rw [hps2, hps1]; simp, ?_⟩
      simp only [package_members]
      exact forall₂_append_of _ hall1 hall2

theorem package_members_map_of_clones (name : Str) :
    ∀ (a b : List AstNode), List.Forall₂ (fun x y => x = y ∨ is_clone x y) a b →
      List.Forall₂ (fun (x y : Str × AstNode) => x.1 = y.1 ∧ (x.2 = y.2 ∨ is_clone x.2 y.2))
        (a.map (fun m => (name, m))) (b.map (fun m => (name, m)))
  | _, _, .nil => by simp
  | _, _, .cons hx hs => by
    simp only [List.map_cons]
    exact List.Forall₂.cons ⟨rfl, hx⟩ (package_members_map_of_clones name _ _ hs)

theorem package_members_of_clones :
    ∀ (clones packages : List AstNode),
      List.Forall₂ (fun x y => x = y ∨ is_clone x y) clones packages →
      List.Forall₂ (fun (a b : Str × AstNode) => a.1 = b.1 ∧ (a.2 = b.2 ∨ is_clone a.2 b.2))
        (package_members clones) (package_members packages)
  | _, _, .nil => by simp [package_members]
  | _, _, .cons (a := p2) (b := p) h hs => by
    simp only [package_members]
    refine forall₂_append_of _ ?_ (package_members_of_clones _ _ hs)
    obtain ⟨hstr, hch⟩ := is_clone_children p2 p h
    rw [hstr]
    exact package_members_map_of_clones _ _ _ hch

theorem is_member_clone_transfer :
    ∀ (ps : List AstNode) (l2 l : List (Str × AstNode)),
      List.Forall₂ is_member_clone ps l2 →
      List.Forall₂ (fun (a b : Str × AstNode) => a.1 = b.1 ∧ (a.2 = b.2 ∨ is_clone a.2 b.2))
        l2 l →
      List.Forall₂ is_member_clone ps l
  | _, _, _, .nil, h2 => by cases h2; exact .nil
  | _, _, _, .cons (b := b2) h hs, h2 => by
    cases h2 with
    | cons hb hbs =>
      rename_i b0 l0
      refine .cons ?_ (is_member_clone_transfer _ _ _ hs hbs)
      obtain ⟨n2, m2⟩ := b2
      obtain ⟨n0, m0⟩ := b0
      obtain ⟨hn, hm⟩ := hb
      simp only at hn hm
      subst hn
      exact is_member_clone_of_clone _ _ _ _ h hm

theorem is_clone_transfer :
    ∀ (gs l2 l : List AstNode), List.Forall₂ is_clone gs l2 →
      List.Forall₂ (fun x y => x = y ∨ is_clone x y) l2 l → List.Forall₂ is_clone gs l
  | _, _, _, .nil, h2 => by cases h2; exact .nil
  | _, _, _, .cons h hs, h2 => by
    cases h2 with
    | cons hb hbs =>
      exact .cons (is_clone_of_clone _ _ _ h hb) (is_clone_transfer _ _ _ hs hbs)

theorem process_existing_lists (c : Collaborators) (nooverwrite overwrite : Bool)
    (design design1 : Design) (str : Str)
    (h : process_existing c nooverwrite overwrite design str = .ok (some design1)) :
    design1.verilog_globals = design.verilog_globals
      ∧ design1.verilog_packages = design.verilog_packages := by
  unfold process_existing at h
  by_cases hhas : design.has str = true
  · simp only [hhas, if_true] at h
    cases hm : design.module str with
    | none => rw [hm] at h; cases h
    | some existing_mod =>
      rw [hm] at h
      simp only [] at h
      split at h
      · cases h
      · split at h
        · cases h
        · simp only [Except.ok.injEq, Option.some.injEq] at h
          subst h
          exact ⟨rfl, rfl⟩
  · simp only [hhas, Bool.false_eq_true, if_false, Except.ok.injEq, Option.some.injEq] at h
    subst h
    exact ⟨rfl, rfl⟩

/-- What the body of the loop of `AST::process` does to a module or
interface when processing is deferred: the children of the tree are followed
by a clone of every global of the design and by a renamed clone of every
member of every package of the design, and the two vectors of the design are
left as they were. -/
theorem process_definition_merged (g : Given) (c : Collaborators) (fuel : Nat)
    (args : ProcessArguments) (child : AstNode) (state : ProcessState)
    (r : AstNode × ProcessState) (hdefer : args.defer = true)
    (h : process_definition g c fuel args child state = .ok r) :
    (∃ gs ps, r.1.children = child.children ++ gs ++ ps
        ∧ List.Forall₂ is_clone gs state.design.verilog_globals
        ∧ List.Forall₂ is_member_clone ps (package_members state.design.verilog_packages))
      ∧ r.2.design.verilog_globals = state.design.verilog_globals
      ∧ r.2.design.verilog_packages = state.design.verilog_packages := by
  cases hpk : process_packages state.design.verilog_packages
      (child.children ++ (cloneChildren state.design.verilog_globals state.env).1)
      (cloneChildren state.design.verilog_globals state.env).2 with
  | error e =>
    simp [process_definition, hpk, bind, Except.bind] at h
  | ok with_packages =>
    obtain ⟨ps, hps, hall⟩ := process_packages_spec _ _ _ _ hpk
    have hmerged : ∃ gs ps, with_packages.1 = child.children ++ gs ++ ps
        ∧ List.Forall₂ is_clone gs state.design.verilog_globals
        ∧ List.Forall₂ is_member_clone ps (package_members state.design.verilog_packages) :=
      ⟨_, ps, hps, cloneChildren_is_clone _ _, hall⟩
    rw [process_definition_eq g c fuel args child state with_packages hpk] at h
    cases hex : process_existing c args.nooverwrite args.overwrite state.design
        (process_name state.globals.flag_icells args.defer child.data.str) with
    | error e => rw [hex] at h; cases h
    | ok existing =>
      rw [hex] at h
      cases existing with
      | none =>
        simp only [Except.ok.injEq] at h
        subst h
        exact ⟨hmerged, rfl, rfl⟩
      | some design =>
        simp only [] at h
        rw [hdefer] at h
        cases hp : process_module g c fuel state.globals with_packages.2
            (.mk { child.data with
                    str := process_name state.globals.flag_icells true child.data.str }
              with_packages.1 child.attributes) true none with
        | error e => rw [hp] at h; cases h
        | ok p =>
          rw [hp] at h
          simp only [Except.map, Except.ok.injEq] at h
          subst h
          have hast := (process_module_deferred_ast g c fuel _ _ _ none p hp).1
          obtain ⟨hg, hpkg⟩ := process_existing_lists c _ _ _ _ _ hex
          refine ⟨?_, hg, hpkg⟩
          simp only [hast]
          exact hmerged

/-- The loop of `AST::process` with deferred processing, for the child `M` at
a position of the list: what is merged into `M` are the globals and packages
that the design holds when the loop starts and those that stand before `M`. -/
theorem process_children_merged (g : Given) (c : Collaborators) (fuel : Nat)
    (args : ProcessArguments) (hdefer : args.defer = true) :
    ∀ (cs : List AstNode) (state : ProcessState) (r : List AstNode × ProcessState),
      process_children g c fuel args cs state = .ok r →
      ∀ (globals0 packages0 : List AstNode),
        List.Forall₂ (fun x y => x = y ∨ is_clone x y) state.design.verilog_globals globals0 →
        List.Forall₂ (fun x y => x = y ∨ is_clone x y) state.design.verilog_packages packages0 →
      ∀ (pre post : List AstNode) (M : AstNode), cs = pre ++ M :: post →
        is_definition M = true →
        ∃ M2 gs ps, r.1.get? pre.length = some M2
          ∧ M2.children = M.children ++ gs ++ ps
          ∧ List.Forall₂ is_clone gs (globals0 ++ pre.filter is_global)
          ∧ List.Forall₂ is_member_clone ps
              (package_members (packages0 ++ pre.filter is_package))
  | [], _, _, _, _, _, _, _, pre, post, M, hcs, _ => by
    cases pre <;> simp at hcs
  | child :: rest, state, r, h, globals0, packages0, hg0, hp0, pre, post, M, hcs, hM => by
    simp only [process_children] at h
    by_cases hdef : (child.type == AST_MODULE || child.type == AST_INTERFACE) = true
    · simp only [hdef, if_true] at h
      cases hd : process_definition g c fuel args child state with
      | error e => rw [hd] at h; cases h
      | ok r1 =>
        rw [hd] at h
        simp only [] at h
        cases hrest : process_children g c fuel args rest r1.2 with
        | error e => rw [hrest] at h; cases h
        | ok rs =>
          rw [hrest] at h
          simp only [Except.ok.injEq] at h
          subst h
          obtain ⟨⟨gs, ps, hch, hgs, hps⟩, hgl, hpl⟩ :=
            process_definition_merged g c fuel args child state r1 hdefer hd
          cases pre with
          | nil =>
            simp only [List.nil_append, List.cons.injEq] at hcs
            obtain ⟨rfl, _⟩ := hcs
            refine ⟨r1.1, gs, ps, rfl, hch, ?_, ?_⟩
            · simp only [List.filter_nil, List.append_nil]
              exact is_clone_transfer _ _ _ hgs hg0
            · simp only [List.filter_nil, List.append_nil]
              exact is_member_clone_transfer _ _ _ hps (package_members_of_clones _ _ hp0)
          | cons p pre2 =>
            simp only [List.cons_append, List.cons.injEq] at hcs
            obtain ⟨rfl, hcs2⟩ := hcs
            have hng : is_global child = false := by
              simp only [is_global, is_definition, hdef, Bool.not_true, Bool.false_and]
            have hnp : is_package child = false := by
              simp only [is_package]
              rcases (by simpa using hdef : child.type = AST_MODULE ∨ child.type = AST_INTERFACE)
                with h1 | h1 <;> rw [h1] <;> rfl
            obtain ⟨M2, gs2, ps2, hget, hch2, hgs2, hps2⟩ :=
              process_children_merged g c fuel args hdefer rest r1.2 rs hrest globals0 packages0
                (by rw [hgl]; exact hg0) (by rw [hpl]; exact hp0) pre2 post M hcs2 hM
            refine ⟨M2, gs2, ps2, by simpa using hget, hch2, ?_, ?_⟩
            · simpa only [List.filter_cons, hng, Bool.false_eq_true, if_false] using hgs2
            · simpa only [List.filter_cons, hnp, Bool.false_eq_true, if_false] using hps2
    · simp only [hdef, Bool.false_eq_true, if_false] at h
      have hnd : is_definition child = false := by
        simp only [is_definition]
        simpa using hdef
      cases pre with
      | nil =>
        simp only [List.nil_append, List.cons.injEq] at hcs
        obtain ⟨rfl, _⟩ := hcs
        rw [hnd] at hM
        cases hM
      | cons p pre2 =>
        simp only [List.cons_append, List.cons.injEq] at hcs
        obtain ⟨rfl, hcs2⟩ := hcs
        by_cases hpkg : (child.type == AST_PACKAGE) = true
        · simp only [hpkg, if_true] at h
          cases hrest : process_children g c fuel args rest
              { state with
                design := { state.design with
                  verilog_packages := state.design.verilog_packages ++ [(child.clone state.env).1] }
                env := (child.clone state.env).2 } with
          | error e => rw [hrest] at h; cases h
          | ok rs =>
            rw [hrest] at h
            simp only [Except.ok.injEq] at h
            subst h
            have hip : is_package child = true := hpkg
            have hig : is_global child = false := by
              simp only [is_global, hip, Bool.not_true, Bool.and_false]
            obtain ⟨M2, gs2, ps2, hget, hch2, hgs2, hps2⟩ :=
              process_children_merged g c fuel args hdefer rest _ rs hrest globals0
                (packages0 ++ [child]) hg0
                (forall₂_append_of _ hp0 (.cons (Or.inr ⟨state.env, rfl⟩) .nil))
                pre2 post M hcs2 hM
            refine ⟨M2, gs2, ps2, by simpa using hget, hch2, ?_, ?_⟩
            · simpa only [List.filter_cons, hig, Bool.false_eq_true, if_false] using hgs2
            · simpa only [List.filter_cons, hip, if_true, List.append_assoc, List.singleton_append]
                using hps2
        · simp only [hpkg, Bool.false_eq_true, if_false] at h
          cases hrest : process_children g c fuel args rest
              { state with
                design := { state.design with
                  verilog_globals := state.design.verilog_globals ++ [(child.clone state.env).1] }
                env := (child.clone state.env).2 } with
          | error e => rw [hrest] at h; cases h
          | ok rs =>
            rw [hrest] at h
            simp only [Except.ok.injEq] at h
            subst h
            have hip : is_package child = false := by
              simp only [is_package]
              simpa using hpkg
            have hig : is_global child = true := by
              simp only [is_global, hip, hnd, Bool.not_false, Bool.and_self]
            obtain ⟨M2, gs2, ps2, hget, hch2, hgs2, hps2⟩ :=
              process_children_merged g c fuel args hdefer rest _ rs hrest
                (globals0 ++ [child]) packages0
                (forall₂_append_of _ hg0 (.cons (Or.inr ⟨state.env, rfl⟩) .nil)) hp0
                pre2 post M hcs2 hM
            refine ⟨M2, gs2, ps2, by simpa using hget, hch2, ?_, ?_⟩
            · simpa only [List.filter_cons, hig, if_true, List.append_assoc, List.singleton_append]
                using hgs2
            · simpa only [List.filter_cons, hip, Bool.false_eq_true, if_false] using hps2

/-- Counterexample to C31 as stated: on the root `exampleRootLate`, where the
package `P` and the global `G` stand after the module `m`, `AST::process`
returns and leaves the module without children, with deferred processing and
without; on the root `exampleRootEarly`, where they stand before the module,
the module gets a clone of `G` and the renamed clone `P::k` of the member of
`P`. -/
theorem C31_counterexample :
    exampleRootLate.children.map (fun n => (n.type, n.data.str, n.children.map (fun m => m.data.str)))
        = [(AST_MODULE, lit "\\m", []), (AST_PACKAGE, lit "\\P", [lit "\\k"]),
           (AST_LOCALPARAM, lit "\\G", [[]])]
      ∧ (process exampleGiven exampleCollaborators 0 exampleDesignEmpty exampleEnv exampleGlobals
            exampleRootLate exampleArgumentsDefer).map
          (fun r => r.1.children.map (fun n => (n.data.str, n.children.map (fun m => m.data.str))))
        = .ok [(lit "$abstract\\m", []), (lit "\\P", [lit "\\k"]), (lit "\\G", [[]])]
      ∧ (process exampleGiven exampleCollaborators 1 exampleDesignEmpty exampleEnv exampleGlobals
            exampleRootLate exampleArguments).map
          (fun r => r.1.children.map (fun n => (n.data.str, n.children.map (fun m => m.data.str))))
        = .ok [(lit "\\m", []), (lit "\\P", [lit "\\k"]), (lit "\\G", [[]])]
      ∧ (process exampleGiven exampleCollaborators 0 exampleDesignEmpty exampleEnv exampleGlobals
            exampleRootEarly exampleArgumentsDefer).map
          (fun r => r.1.children.map (fun n => (n.data.str, n.children.map (fun m => m.data.str))))
        = .ok [(lit "\\P", [lit "\\k"]), (lit "\\G", [[]]),
               (lit "$abstract\\m", [lit "\\G", lit "\\P::k"])] :=
  ⟨rfl, rfl, rfl, rfl⟩

/-- Claim C31, amended: after `AST::process` with deferred processing on a
design root, for every module or interface child `M` of the root, the child
at the position of `M` has the children of `M` followed by one clone of every
global and by one renamed clone (`<package name>::<member name without its
first character>`) of every member of every package that the design held
before the call or that stands before `M` in the child order, in this order
and nothing else: a package or global that stands after `M` is not merged
into `M`. -/
theorem C31_merge_preceding (g : Given) (c : Collaborators) (fuel : Nat) (design : Design)
    (env : Env) (globals : Globals) (root : AstNode) (args : ProcessArguments)
    (r : AstNode × ProcessState) (pre post : List AstNode) (M : AstNode)
    (hdefer : args.defer = true)
    (h : process g c fuel design env globals root args = .ok r)
    (hroot : root.children = pre ++ M :: post)
    (hM : is_definition M = true) :
    ∃ M2 gs ps, r.1.children.get? pre.length = some M2
      ∧ M2.children = M.children ++ gs ++ ps
      ∧ List.Forall₂ is_clone gs (design.verilog_globals ++ pre.filter is_global)
      ∧ List.Forall₂ is_member_clone ps
          (package_members (design.verilog_packages ++ pre.filter is_package)) := by
  unfold process at h
  by_cases ht : (root.type != AST_DESIGN) = true
  · simp [ht] at h
  · simp only [ht, Bool.false_eq_true, if_false] at h
    generalize hstate : ({ design := design, env := env, globals := _ } : ProcessState) = state at h
    cases hc : process_children g c fuel args root.children state with
    | error e => rw [hc] at h; cases h
    | ok rs =>
      rw [hc] at h
      simp only [Except.ok.injEq] at h
      subst h
      have hrefl : ∀ l : List AstNode, List.Forall₂ (fun x y => x = y ∨ is_clone x y) l l := by
        intro l
        induction l with
        | nil => exact .nil
        | cons x xs ih => exact .cons (Or.inl rfl) ih
      have hd : state.design = design := by rw [← hstate]
      exact process_children_merged g c fuel args hdefer root.children state rs hc
        design.verilog_globals design.verilog_packages (by rw [hd]; exact hrefl _)
        (by rw [hd]; exact hrefl _) pre post M hroot hM

/-- Witness of the amended C31: on the root `exampleRootEarly` the module `m`
stands third, after the package `P` and the global `G`; the call returns and
the third child has a clone of `G` and a renamed clone of the member `k` of
`P` as its children. -/
theorem C31_witness :
    ∃ r M2 gs ps,
      process exampleGiven exampleCollaborators 0 exampleDesignEmpty exampleEnv exampleGlobals
          exampleRootEarly exampleArgumentsDefer = .ok r
        ∧ r.1.children.get? 2 = some M2
        ∧ M2.children = gs ++ ps
        ∧ List.Forall₂ is_clone gs [exampleGlobal]
        ∧ List.Forall₂ is_member_clone ps
            [(lit "\\P", exampleNode 43 AST_LOCALPARAM (lit "\\k") [exampleOne])] := by
  have hex : ∃ r, process exampleGiven exampleCollaborators 0 exampleDesignEmpty exampleEnv
      exampleGlobals exampleRootEarly exampleArgumentsDefer = .ok r := ⟨_, rfl⟩
  obtain ⟨r, hr⟩ := hex
  obtain ⟨M2, gs, ps, h1, h2, h3, h4⟩ :=
    C31_merge_preceding exampleGiven exampleCollaborators 0 exampleDesignEmpty exampleEnv
      exampleGlobals exampleRootEarly exampleArgumentsDefer r [examplePackage, exampleGlobal] []
      exampleModuleTree rfl hr rfl rfl
  exact ⟨r, M2, gs, ps, hr, h1, h2, h3, h4⟩

end AST
